import Mathlib

/-! CrowdFundIn: donation / campaign consistency protocol.

A shallow embedding of the backend route handlers and model virtuals of the
CrowdFundIn repository (`backend/routes/donations.js`,
`backend/routes/campaigns.js`, `backend/routes/admin.js`,
`backend/models/Campaign.js`, `backend/models/Donation.js`,
`frontend/src/utils/helpers.js`) and of the derived values its frontend
components compute (`ProgressBar.jsx`, `Dashboard.jsx`, `CampaignCard.jsx`,
`DonationList.jsx`).

Conventions of the embedding

* A collection of the document store is a `List` of documents in insertion
  order; `findById` / `findOne` return the first match, `findByIdAndUpdate`
  rewrites the first match.
* ObjectIds are natural numbers; the id given to a newly created document is an
  input of the handler (`Env.newId`).
* JavaScript numbers holding money are exact rationals (`ℚ`): rounding of
  IEEE doubles is not represented. Timestamps are integer milliseconds (`Int`).
* A handler is a function from the request and the store to a response and
  the resulting store; `new Date()` / `Date.now()` is the input `Env.now`.
-/

namespace CrowdFundIn

/-! ## Data model -/

/-- Campaign `status` enum (`models/Campaign.js`, line 50). -/
inductive Status where
  | active
  | completed
  | cancelled
  | expired
deriving DecidableEq, Repr

/-- Donation `paymentStatus` enum (`models/Donation.js`, line 33). -/
inductive PaymentStatus where
  | pending
  | succeeded
  | failed
deriving DecidableEq, Repr

/-- Element of `Campaign.donors` (`models/Campaign.js`, lines 53-70). -/
structure DonorEntry where
  user : Nat
  amount : ℚ
  donatedAt : Int
  isAnonymous : Bool
deriving DecidableEq

/-- Element of `Campaign.updates` (`models/Campaign.js`, lines 71-84). -/
structure CampaignUpdate where
  title : String
  content : String
  createdAt : Int
deriving DecidableEq

/-- Campaign document (`models/Campaign.js`, lines 3-90); `createdAt` comes from
`timestamps: true`. -/
structure Campaign where
  id : Nat
  title : String
  description : String
  goalAmount : ℚ
  currentAmount : ℚ
  deadline : Int
  image : String
  category : String
  owner : Nat
  status : Status
  donors : List DonorEntry
  updates : List CampaignUpdate
  featuredUntil : Option Int
  createdAt : Int
deriving DecidableEq

/-- Donation document (`models/Donation.js`, lines 3-42). -/
structure Donation where
  id : Nat
  donor : Nat
  campaign : Nat
  amount : ℚ
  isAnonymous : Bool
  message : String
  paymentIntentId : String
  paymentStatus : PaymentStatus
  paymentMethod : String
  createdAt : Int
deriving DecidableEq

/-- Modelled from the spec: the role of a user (`models/User.js` is not among
the sources; the spec lists the roles donor, campaign_owner and admin). -/
inductive Role where
  | donor
  | campaign_owner
  | admin
deriving DecidableEq, Repr

/-- Modelled from the spec: the User document (`models/User.js` is not among
the sources): id, name, email, role, the list of created campaign references
and the list of donation references; `profilePicture` and `bio` are the fields
the `populate` calls of the routes select next to `name`. -/
structure User where
  id : Nat
  name : String
  email : String
  profilePicture : String
  role : Role
  createdCampaigns : List Nat
  donations : List Nat
  bio : String := ""
deriving DecidableEq

/-- The document store: the three collections the handlers read and write. -/
structure State where
  campaigns : List Campaign
  donations : List Donation
  users : List User
deriving DecidableEq

/-- What a handler reads from its environment: the clock (`new Date()`,
`Date.now()`), the ObjectId given to a created document, and the characters
drawn from `Math.random()`. -/
structure Env where
  now : Int
  newId : Nat
  random : String
deriving DecidableEq

/-- An HTTP response: status code, the `message` of the JSON body, and the
payload when there is one. -/
structure Response (β : Type) where
  code : Nat
  message : String
  data : Option β
deriving DecidableEq

/-! ## Store primitives -/

/-- Rewrite the first element satisfying `p` (the single document an
`updateOne`-style operation touches); identity when there is none. -/
def updateFirst {α : Type} (p : α → Bool) (f : α → α) : List α → List α
  | [] => []
  | x :: xs => if p x then f x :: xs else x :: updateFirst p f xs

/-- Mongoose `Campaign.findById`. -/
def findById (cs : List Campaign) (id : Nat) : Option Campaign :=
  cs.find? (fun c => c.id == id)

/-- Mongoose `Campaign.findByIdAndUpdate` with an update operator `f`. -/
def findByIdAndUpdate (cs : List Campaign) (id : Nat) (f : Campaign → Campaign) :
    List Campaign :=
  updateFirst (fun c => c.id == id) f cs

/-- Mongoose `User.findByIdAndUpdate` with an update operator `f`. -/
def User.findByIdAndUpdate (us : List User) (id : Nat) (f : User → User) : List User :=
  updateFirst (fun u => u.id == id) f us

/-- Mongoose `Donation.findOne({ paymentIntentId })`. -/
def Donation.findOne (ds : List Donation) (paymentIntentId : String) : Option Donation :=
  ds.find? (fun d => d.paymentIntentId == paymentIntentId)

/-! ## Lengths of strings -/

/-- The `length` of a JavaScript string: its number of UTF-16 code units, two
for every character outside the Basic Multilingual Plane. Mongoose's
`maxlength` compares this number; express-validator's `isLength` counts a
surrogate pair once, which is `String.length`. -/
def utf16Length (s : String) : Nat :=
  (s.data.map (fun c => if c.toNat < 65536 then 1 else 2)).sum

/-! ## Campaign schema validators and virtuals (`models/Campaign.js`) -/

/-- The `category` enum (`models/Campaign.js`, line 40). -/
def categoryEnum : List String :=
  ["Education", "Healthcare", "Environment", "Technology", "Arts", "Community",
   "Emergency", "Other"]

/-- The validators of the Campaign schema (`models/Campaign.js`, lines 4-84),
as `document.save()` runs them. The schema sets no `validateBeforeSave: false`
and no call passes `validateModifiedOnly`, so a document read from the store
and saved has every loaded path validated again, not only the modified ones:
`required` strings are non-empty, `maxlength` 100 / 2000 (in UTF-16 code
units), `goalAmount` min 1,
the `deadline` validator `date > new Date()` (lines 27-32, evaluated at the
time of the save), the `category` enum, and the `required` fields of the
`updates` sub-documents. The `owner`, `status` and donor `amount` constraints
hold by typing. -/
def Campaign.validate (now : Int) (c : Campaign) : Bool :=
  c.title != "" && decide (utf16Length c.title ≤ 100) &&
  c.description != "" && decide (utf16Length c.description ≤ 2000) &&
  decide (1 ≤ c.goalAmount) &&
  decide (now < c.deadline) &&
  categoryEnum.contains c.category &&
  c.updates.all (fun u => u.title != "" && u.content != "")

/-- Virtual `progressPercentage` (`models/Campaign.js`, lines 93-95):
`Math.min((currentAmount / goalAmount) * 100, 100)`. -/
def Campaign.progressPercentage (c : Campaign) : ℚ :=
  min ((c.currentAmount / c.goalAmount) * 100) 100

/-- Virtual `daysRemaining` (`models/Campaign.js`, lines 98-104), with
`today.getTime()` passed as `now`. -/
def Campaign.daysRemaining (c : Campaign) (now : Int) : Int :=
  let timeDiff : Int := c.deadline - now
  let daysDiff : Int := Int.ceil ((timeDiff : ℚ) / (1000 * 3600 * 24))
  max daysDiff 0

/-- Virtual `totalDonors` (`models/Campaign.js`, lines 107-109). -/
def Campaign.totalDonors (c : Campaign) : Nat :=
  c.donors.length

/-! ## Frontend helpers (`frontend/src/utils/helpers.js`) -/

/-- Helper `getDaysRemaining` (`helpers.js`, lines 42-48), with
`today.getTime()` passed as `now`. -/
def getDaysRemaining (deadline now : Int) : Int :=
  let timeDiff : Int := deadline - now
  let daysDiff : Int := Int.ceil ((timeDiff : ℚ) / (1000 * 3600 * 24))
  max daysDiff 0

/-- Helper `getProgressPercentage` (`helpers.js`, lines 51-53). -/
def getProgressPercentage (current goal : ℚ) : ℚ :=
  min ((current / goal) * 100) 100

/-! ## `POST /api/donations/confirm` (`routes/donations.js`, lines 60-138) -/

/-- Body of a confirm request. `message` and `isAnonymous` are optional
(destructuring defaults `''` and `false`, line 76). `paymentStatus` stands for
a field a client may send although line 76 does not read it. -/
structure ConfirmBody where
  paymentIntentId : String
  campaignId : Nat
  amount : ℚ
  message : Option String
  isAnonymous : Option Bool
  paymentStatus : Option String := none
deriving DecidableEq

/-- The express-validator chain of the confirm route (lines 61-65), on the
fields whose well-formedness is not already fixed by their type:
`paymentIntentId` not empty, `amount` at least 1, optional `message` of at
most 500 characters. `true` when `validationResult(req)` is empty. -/
def confirmValidation (r : ConfirmBody) : Bool :=
  r.paymentIntentId != "" && decide (1 ≤ r.amount) &&
  (match r.message with
   | none => true
   | some m => decide (m.length ≤ 500))

/-- The document passed to `Donation.create` (lines 91-99): `paymentStatus` is
the literal `'succeeded'`; `paymentMethod` takes the schema default. -/
def newDonation (env : Env) (user : Nat) (r : ConfirmBody) : Donation :=
  { id := env.newId, donor := user, campaign := r.campaignId,
    amount := r.amount, isAnonymous := r.isAnonymous.getD false,
    message := r.message.getD "", paymentIntentId := r.paymentIntentId,
    paymentStatus := PaymentStatus.succeeded, paymentMethod := "stripe",
    createdAt := env.now }

/-- The donor entry pushed at lines 105-110. -/
def newDonorEntry (env : Env) (user : Nat) (r : ConfirmBody) : DonorEntry :=
  { user := user, amount := r.amount, donatedAt := env.now,
    isAnonymous := r.isAnonymous.getD false }

/-- The update document of lines 102-112 applied to a campaign: `$inc` of
`currentAmount` and `$push` on `donors`. -/
def applyDonation (env : Env) (user : Nat) (r : ConfirmBody) (c : Campaign) : Campaign :=
  { c with
    currentAmount := c.currentAmount + r.amount,
    donors := c.donors ++ [newDonorEntry env user r] }

/-- The three writes of lines 91-117 in order: insert the donation, update the
campaign, push the donation id on the caller's `donations`. -/
def confirmWrites (env : Env) (user : Nat) (r : ConfirmBody) (s : State) : State :=
  { campaigns := findByIdAndUpdate s.campaigns r.campaignId (applyDonation env user r),
    donations := s.donations ++ [newDonation env user r],
    users := User.findByIdAndUpdate s.users user (fun u =>
      { u with donations := u.donations ++ [(newDonation env user r).id] }) }

/-- The write of `updatedCampaign.save()` at line 123: the modified path
`status` of the campaign. -/
def markCompleted (c : Campaign) : Campaign :=
  { c with status := Status.completed }

/-- The validators of the Donation schema (`models/Donation.js`, lines 3-39)
as `Donation.create` runs them: `amount` min 1, `message` maxlength 500 (in
UTF-16 code units), `paymentIntentId` required (a non-empty string). The
`donor`, `campaign` and `paymentStatus` constraints hold by typing. -/
def Donation.validate (d : Donation) : Bool :=
  decide (1 ≤ d.amount) && decide (utf16Length d.message ≤ 500) && d.paymentIntentId != ""

/-- A campaign document loaded with a projection: `_id`, the selected `title`,
and the path `donors`, which is absent (`none`) unless it was selected. The
other paths are not read by what follows. -/
structure ProjectedCampaign where
  id : Nat
  title : String
  donors : Option (List DonorEntry)
deriving DecidableEq

/-- The `populate('campaign', 'title')` step of line 128: the referenced
campaign with only `title` selected, `none` when it does not exist. -/
def populateCampaignTitle (cs : List Campaign) (id : Nat) : Option ProjectedCampaign :=
  (findById cs id).map (fun c => { id := c.id, title := c.title, donors := none })

/-- Virtual `totalDonors` (`models/Campaign.js`, lines 107-109) on a projected
document: `this.donors.length`. With `donors` absent the getter throws a
`TypeError`, which is `none` here. The two other virtuals compute `NaN` from
absent paths and do not throw. -/
def ProjectedCampaign.totalDonors (c : ProjectedCampaign) : Option Nat :=
  c.donors.map List.length

/-- The answer of lines 126-137 in the store `s` the writes have left.
`res.json` serialises the populated donation; its campaign is serialised with
the virtuals (`toJSON: { virtuals: true }`, `models/Campaign.js`, line 112).
When `totalDonors` throws, the exception is caught at lines 134-137 and the
answer is 500; the writes made before stay in place. -/
def confirmResponse (env : Env) (user : Nat) (r : ConfirmBody) (s : State) :
    Response Donation :=
  match populateCampaignTitle s.campaigns r.campaignId with
  | none => ⟨201, "Donation successful!", some (newDonation env user r)⟩
  | some campaign =>
    match campaign.totalDonors with
    | none => ⟨500, "Server error confirming donation", none⟩
    | some _ => ⟨201, "Donation successful!", some (newDonation env user r)⟩

/-- The handler of `POST /confirm` for the authenticated caller `user`
(`req.user._id`).

Lines 68-74: validation errors answer 400. Lines 79-82: an existing donation
with the same `paymentIntentId` answers 400. Lines 85-88: a missing campaign
answers 404. Line 91: `Donation.create` runs the Donation schema validators
(`Donation.validate`); a failure is caught at lines 134-137 and answered 500
with nothing written. Lines 91-117: the three writes (`confirmWrites`). Lines
120-124: the campaign is re-read and, when `currentAmount >= goalAmount`, its
status is set to `'completed'` and the document is saved; `save()` runs the
schema validators (`Campaign.validate`) and a failure is caught at lines
134-137 and answered with 500, the earlier writes staying in place. Lines
126-133: the answer (`confirmResponse`), which is 500 whenever the populated
campaign exists. -/
def confirm (env : Env) (user : Nat) (r : ConfirmBody) (s : State) :
    Response Donation × State :=
  if !confirmValidation r then
    (⟨400, "Validation errors", none⟩, s)
  else
    match Donation.findOne s.donations r.paymentIntentId with
    | some _ => (⟨400, "Donation already processed", none⟩, s)
    | none =>
      match findById s.campaigns r.campaignId with
      | none => (⟨404, "Campaign not found", none⟩, s)
      | some _ =>
        if !Donation.validate (newDonation env user r) then
          (⟨500, "Server error confirming donation", none⟩, s)
        else
          let s3 := confirmWrites env user r s
          match findById s3.campaigns r.campaignId with
          | none => (⟨500, "Server error confirming donation", none⟩, s3)
          | some updatedCampaign =>
            if updatedCampaign.currentAmount ≥ updatedCampaign.goalAmount then
              if Campaign.validate env.now (markCompleted updatedCampaign) then
                let s4 : State :=
                  { s3 with
                    campaigns := findByIdAndUpdate s3.campaigns r.campaignId markCompleted }
                (confirmResponse env user r s4, s4)
              else
                (⟨500, "Server error confirming donation", none⟩, s3)
            else
              (confirmResponse env user r s3, s3)

/-- A sequence of confirm requests handled one after the other; the responses
are dropped. -/
def confirmAll : List (Env × Nat × ConfirmBody) → State → State
  | [], s => s
  | (env, user, r) :: rest, s => confirmAll rest (confirm env user r s).2

/-! ## `POST /api/donations/create-payment-intent` (`routes/donations.js`, lines 13-55) -/

/-- Body of a create-payment-intent request. -/
structure PaymentIntentBody where
  campaignId : Nat
  amount : ℚ
  isAnonymous : Option Bool
deriving DecidableEq

/-- The token pair answered by create-payment-intent (lines 47-50). -/
structure PaymentIntent where
  clientSecret : String
  paymentIntentId : String
deriving DecidableEq

/-- The express-validator chain of the create-payment-intent route (lines
14-16) on the field not fixed by typing: `amount` at least 1. -/
def createPaymentIntentValidation (r : PaymentIntentBody) : Bool :=
  decide (1 ≤ r.amount)

/-- The handler of `POST /create-payment-intent`. Lines 19-25: validation
errors answer 400. Lines 30-33: missing campaign, 404. Lines 35-37: status
other than `'active'`, 400. Lines 40-42: `new Date() > new Date(deadline)`,
400. Lines 45-50: the mock identifier built from `Date.now()` and
`Math.random()`, answered with the default status 200. The handler performs no
write: the store is returned as it was received. -/
def createPaymentIntent (env : Env) (r : PaymentIntentBody) (s : State) :
    Response PaymentIntent × State :=
  if !createPaymentIntentValidation r then
    (⟨400, "Validation errors", none⟩, s)
  else
    match findById s.campaigns r.campaignId with
    | none => (⟨404, "Campaign not found", none⟩, s)
    | some campaign =>
      if campaign.status ≠ Status.active then
        (⟨400, "Campaign is not active", none⟩, s)
      else if env.now > campaign.deadline then
        (⟨400, "Campaign deadline has passed", none⟩, s)
      else
        let paymentIntentId := "pi_test_" ++ toString env.now ++ "_" ++ env.random
        (⟨200, "", some { clientSecret := "pi_test_secret_" ++ paymentIntentId,
                          paymentIntentId := paymentIntentId }⟩, s)

/-! ## Listing endpoints -/

/-- The string stored for a status value. -/
def Status.toString : Status → String
  | Status.active => "active"
  | Status.completed => "completed"
  | Status.cancelled => "cancelled"
  | Status.expired => "expired"

/-- Cursor `.skip(n)` for `n ≥ 0`. -/
def applySkip {α : Type} (skip : Int) (xs : List α) : List α :=
  xs.drop skip.toNat

/-- Cursor `.limit(n)`: `0` means no limit, a negative value is treated by the
driver as its absolute value. -/
def applyLimit {α : Type} (limit : Int) (xs : List α) : List α :=
  if limit = 0 then xs else xs.take limit.natAbs

/-- `Math.ceil(total / limit)` as it is serialised: `none` stands for the
`null` JSON gives for a division by zero. -/
def totalPages (total : Nat) (limit : Int) : Option Int :=
  if limit = 0 then none else some (Int.ceil ((total : ℚ) / (limit : ℚ)))

/-- Query string of `GET /api/campaigns` (`routes/campaigns.js`, lines 15-23);
`page` and `limit` are the results of `parseInt`. -/
structure CampaignQuery where
  page : Option Int
  limit : Option Int
  category : Option String
  status : Option String
  search : Option String
  sortBy : Option String
  order : Option String
deriving DecidableEq

/-- Pagination block of the campaign listing (lines 51-57). -/
structure CampaignPagination where
  currentPage : Int
  totalPages : Option Int
  totalCampaigns : Nat
  hasNext : Bool
  hasPrev : Bool
deriving DecidableEq

/-- Payload of the campaign listing (lines 49-58). -/
structure CampaignListing where
  campaigns : List Campaign
  pagination : CampaignPagination
deriving DecidableEq

/-- The regular-expression engine of the database with the option `'i'`, as
the listings take it: `engine pattern` is `none` when the database refuses the
pattern, otherwise the test "the pattern matches somewhere in the text". -/
abbrev RegexEngine := String → Option (String → Bool)

/-- The `$regex` test of one field: a refused pattern matches nothing (the
request that carries it fails as a whole, see `searchRejected`). -/
def regexTest (engine : RegexEngine) (pattern text : String) : Bool :=
  match engine pattern with
  | some test => test text
  | none => false

/-- The search string makes the database refuse the query: it is present, not
empty (`if (search)`), and not a regular expression the engine accepts. -/
def searchRejected (engine : RegexEngine) (search : Option String) : Bool :=
  match search with
  | none => false
  | some pattern => pattern != "" && (engine pattern).isNone

/-- The filter document built at lines 25-36. `regex pattern text` is the
database's case-insensitive `$regex` test (`$options: 'i'`), supplied by the
caller. -/
def campaignQueryMatches (regex : String → String → Bool) (q : CampaignQuery)
    (c : Campaign) : Bool :=
  let status := q.status.getD "active"
  (c.status.toString == status) &&
  (match q.category with
   | none => true
   | some category =>
     if category != "" && category != "all" then c.category == category else true) &&
  (match q.search with
   | none => true
   | some search =>
     if search != "" then regex search c.title || regex search c.description else true)

/-- Ascending comparison on the field named `sortBy`, for the scalar fields of
the schema; any other name gives every document the same key. -/
def campaignFieldLe (sortBy : String) (a b : Campaign) : Bool :=
  if sortBy == "createdAt" then decide (a.createdAt ≤ b.createdAt)
  else if sortBy == "deadline" then decide (a.deadline ≤ b.deadline)
  else if sortBy == "goalAmount" then decide (a.goalAmount ≤ b.goalAmount)
  else if sortBy == "currentAmount" then decide (a.currentAmount ≤ b.currentAmount)
  else if sortBy == "title" then decide (a.title ≤ b.title)
  else if sortBy == "category" then decide (a.category ≤ b.category)
  else if sortBy == "status" then decide (a.status.toString ≤ b.status.toString)
  else true

/-- The order of `.sort({ [sortBy]: sortOrder })` with
`sortOrder = order === 'desc' ? -1 : 1` (lines 39, 43). -/
def campaignSortLe (sortBy order : String) (a b : Campaign) : Bool :=
  if order == "desc" then campaignFieldLe sortBy b a else campaignFieldLe sortBy a b

/-- The handler of `GET /api/campaigns` (`routes/campaigns.js`, lines 13-63).
A negative `skip`, or a search string that is not a valid regular expression,
is refused by the database and answered with 500 from the `catch` block.
`populate('owner', ...)` only decorates the documents and is not represented. -/
def getCampaigns (engine : RegexEngine) (q : CampaignQuery) (s : State) :
    Response CampaignListing :=
  let page := q.page.getD 1
  let limit := q.limit.getD 10
  let sortBy := q.sortBy.getD "createdAt"
  let order := q.order.getD "desc"
  let skip := (page - 1) * limit
  if skip < 0 then
    ⟨500, "Server error fetching campaigns", none⟩
  else if searchRejected engine q.search then
    ⟨500, "Server error fetching campaigns", none⟩
  else
    let matching := s.campaigns.filter (campaignQueryMatches (regexTest engine) q)
    let sorted := matching.insertionSort (fun a b => campaignSortLe sortBy order a b = true)
    let campaigns := applyLimit limit (applySkip skip sorted)
    let total := matching.length
    ⟨200, "", some
      { campaigns := campaigns,
        pagination :=
          { currentPage := page,
            totalPages := totalPages total limit,
            totalCampaigns := total,
            hasNext := decide (skip + (campaigns.length : Int) < (total : Int)),
            hasPrev := decide (page > 1) } }⟩

/-- Query string of the donation listings (`routes/donations.js`, line 145). -/
structure PageQuery where
  page : Option Int
  limit : Option Int
deriving DecidableEq

/-- The `donor` of a listed donation after `populate('donor', 'name
profilePicture')`, or the fixed placeholder of an anonymous donation (which
carries no id). -/
structure DonorView where
  id : Option Nat
  name : String
  profilePicture : String
deriving DecidableEq

/-- A donation as listed: the fields of the record, with the `donor` reference
replaced by the populated donor (`none` when the referenced user does not
exist). -/
structure DonationView where
  id : Nat
  donor : Option DonorView
  campaign : Nat
  amount : ℚ
  isAnonymous : Bool
  message : String
  paymentIntentId : String
  paymentStatus : PaymentStatus
  paymentMethod : String
  createdAt : Int
deriving DecidableEq

/-- Pagination block of the donation listing (lines 175-179). -/
structure DonationPagination where
  currentPage : Int
  totalPages : Option Int
  totalDonations : Nat
deriving DecidableEq

/-- Payload of the donation listing (lines 173-180). -/
structure DonationListing where
  donations : List DonationView
  pagination : DonationPagination
deriving DecidableEq

/-- The `populate('donor', ...)` step for one donation. -/
def populateDonor (us : List User) (d : Donation) : DonationView :=
  { id := d.id,
    donor := (us.find? (fun u => u.id == d.donor)).map
      (fun u => { id := some u.id, name := u.name, profilePicture := u.profilePicture }),
    campaign := d.campaign, amount := d.amount, isAnonymous := d.isAnonymous,
    message := d.message, paymentIntentId := d.paymentIntentId,
    paymentStatus := d.paymentStatus, paymentMethod := d.paymentMethod,
    createdAt := d.createdAt }

/-- The handler of `GET /api/donations/campaign/:campaignId`
(`routes/donations.js`, lines 143-185): succeeded donations of the campaign,
newest first, skipped and limited, with the donor of anonymous donations
replaced (lines 158-166). -/
def getCampaignDonations (campaignId : Nat) (q : PageQuery) (s : State) :
    Response DonationListing :=
  let page := q.page.getD 1
  let limit := q.limit.getD 10
  let skip := (page - 1) * limit
  if skip < 0 then
    ⟨500, "Server error fetching donations", none⟩
  else
    let matching := s.donations.filter (fun d =>
      d.campaign == campaignId && d.paymentStatus == PaymentStatus.succeeded)
    let sorted := matching.insertionSort (fun a b => a.createdAt ≥ b.createdAt)
    let donations := (applyLimit limit (applySkip skip sorted)).map (populateDonor s.users)
    let filteredDonations := donations.map (fun d =>
      if d.isAnonymous then
        { d with donor := some { id := none, name := "Anonymous", profilePicture := "" } }
      else d)
    let total := matching.length
    ⟨200, "", some
      { donations := filteredDonations,
        pagination :=
          { currentPage := page,
            totalPages := totalPages total limit,
            totalDonations := total } }⟩

/-! ## Campaign routes (`routes/campaigns.js`) and the admin status route -/

/-- Modelled from the spec: `req.user` as the `protect` middleware sets it
(`middleware/auth.js` is not among the sources): the id and the role of the
authenticated user. -/
structure Caller where
  id : Nat
  role : Role
deriving DecidableEq

/-- The characters the JavaScript regular expression `\s` matches: U+0009 to
U+000D, space, U+00A0, U+1680, U+2000 to U+200A, U+2028, U+2029, U+202F,
U+205F, U+3000 and U+FEFF. -/
def isJsWhitespace (c : Char) : Bool :=
  (decide (9 ≤ c.toNat) && decide (c.toNat ≤ 13)) || c.toNat == 32 || c.toNat == 160 ||
  c.toNat == 5760 || (decide (8192 ≤ c.toNat) && decide (c.toNat ≤ 8202)) ||
  c.toNat == 8232 || c.toNat == 8233 || c.toNat == 8239 || c.toNat == 8287 ||
  c.toNat == 12288 || c.toNat == 65279

/-- The `trim()` sanitizer of express-validator: the leading and the trailing
characters that `\s` matches are removed. -/
def trim (s : String) : String :=
  String.mk ((s.data.dropWhile isJsWhitespace).reverse.dropWhile isJsWhitespace).reverse

/-- Body of `POST /api/campaigns` (`routes/campaigns.js`, line 110); `deadline`
is `new Date(deadline)` in milliseconds, `file` is `req.file.filename` when an
image was uploaded. -/
structure CreateCampaignBody where
  title : String
  description : String
  goalAmount : ℚ
  deadline : Int
  category : Option String
  file : Option String
deriving DecidableEq

/-- The express-validator chain of campaign creation (lines 94-98): trimmed
title of 5 to 100 characters, description of 20 to 2000, goal amount at least
1, optional category among the eight values. -/
def createCampaignValidation (r : CreateCampaignBody) : Bool :=
  decide (5 ≤ (trim r.title).length) && decide ((trim r.title).length ≤ 100) &&
  decide (20 ≤ r.description.length) && decide (r.description.length ≤ 2000) &&
  decide (1 ≤ r.goalAmount) &&
  (match r.category with
   | none => true
   | some category => categoryEnum.contains category)

/-- The document handed to `Campaign.create` (lines 117-129) completed with the
schema defaults (`models/Campaign.js`: `currentAmount` 0, `image` `''`,
`status` `'active'`, empty `donors` and `updates`). A missing `category` has
been replaced at line 110 by the destructuring default `'other'`. -/
def newCampaign (env : Env) (user : Nat) (r : CreateCampaignBody) : Campaign :=
  { id := env.newId,
    title := trim r.title,
    description := r.description,
    goalAmount := r.goalAmount,
    currentAmount := 0,
    deadline := r.deadline,
    image := (match r.file with
      | some filename => "/uploads/" ++ filename
      | none => ""),
    category := r.category.getD "other",
    owner := user,
    status := Status.active,
    donors := [],
    updates := [],
    featuredUntil := none,
    createdAt := env.now }

/-- The handler of `POST /api/campaigns` (lines 91-150) for the authenticated
caller `user`. Lines 102-108: validation errors, 400. Lines 113-115: a deadline
at or before the current time, 400. Line 131: `Campaign.create` runs the schema
validators; a failure is caught at lines 145-148 and answered 500 with nothing
stored. Lines 134-136: the id is pushed on the caller's `createdCampaigns`.
Line 141: 201. -/
def createCampaign (env : Env) (user : Nat) (r : CreateCampaignBody) (s : State) :
    Response Campaign × State :=
  if !createCampaignValidation r then
    (⟨400, "Validation errors", none⟩, s)
  else if r.deadline ≤ env.now then
    (⟨400, "Deadline must be in the future", none⟩, s)
  else
    let campaign := newCampaign env user r
    if !Campaign.validate env.now campaign then
      (⟨500, "Server error creating campaign", none⟩, s)
    else
      (⟨201, "Campaign created successfully", some campaign⟩,
       { s with
         campaigns := s.campaigns ++ [campaign],
         users := User.findByIdAndUpdate s.users user (fun u =>
           { u with createdCampaigns := u.createdCampaigns ++ [campaign.id] }) })

/-- Body of `PUT /api/campaigns/:id` (line 184) and the uploaded file name. -/
structure UpdateCampaignBody where
  title : Option String
  description : Option String
  category : Option String
  file : Option String
deriving DecidableEq

/-- The express-validator chain of the campaign update (lines 158-160). -/
def updateCampaignValidation (r : UpdateCampaignBody) : Bool :=
  (match r.title with
   | none => true
   | some title => decide (5 ≤ (trim title).length) && decide ((trim title).length ≤ 100)) &&
  (match r.description with
   | none => true
   | some description =>
     decide (20 ≤ description.length) && decide (description.length ≤ 2000)) &&
  (match r.category with
   | none => true
   | some category => categoryEnum.contains category)

/-- The `updateFields` document of lines 183-193 applied to a campaign: each of
title, description and category is set when the (sanitized) value is a
non-empty string, the image when a file was uploaded. -/
def applyUpdateFields (r : UpdateCampaignBody) (c : Campaign) : Campaign :=
  { c with
    title := (match r.title with
      | some title => if trim title != "" then trim title else c.title
      | none => c.title),
    description := (match r.description with
      | some description => if description != "" then description else c.description
      | none => c.description),
    category := (match r.category with
      | some category => if category != "" then category else c.category
      | none => c.category),
    image := (match r.file with
      | some filename => "/uploads/" ++ filename
      | none => c.image) }

/-- The update validators `findByIdAndUpdate` runs under `runValidators: true`
(line 198) on the paths of `updateFields`: the schema's `maxlength` of title
(100) and description (2000), in UTF-16 code units, and the `category` enum. -/
def updateFieldsValidators (r : UpdateCampaignBody) : Bool :=
  (match r.title with
   | some title => if trim title != "" then decide (utf16Length (trim title) ≤ 100) else true
   | none => true) &&
  (match r.description with
   | some description =>
     if description != "" then decide (utf16Length description ≤ 2000) else true
   | none => true) &&
  (match r.category with
   | some category => if category != "" then categoryEnum.contains category else true
   | none => true)

/-- The handler of `PUT /api/campaigns/:id` (lines 155-210). Lines 164-170:
validation errors, 400. Lines 172-176: missing campaign, 404. Lines 179-181:
caller neither owner nor admin, 403. Lines 195-199: `findByIdAndUpdate` with
`runValidators`, which checks the updated paths only; a failure is caught at
lines 205-208 and answered 500 with nothing written. Line 201: 200. -/
def updateCampaign (caller : Caller) (id : Nat) (r : UpdateCampaignBody) (s : State) :
    Response Campaign × State :=
  if !updateCampaignValidation r then
    (⟨400, "Validation errors", none⟩, s)
  else
    match findById s.campaigns id with
    | none => (⟨404, "Campaign not found", none⟩, s)
    | some campaign =>
      if campaign.owner ≠ caller.id ∧ caller.role ≠ Role.admin then
        (⟨403, "Not authorized to update this campaign", none⟩, s)
      else if !updateFieldsValidators r then
        (⟨500, "Server error updating campaign", none⟩, s)
      else
        (⟨200, "Campaign updated successfully", some (applyUpdateFields r campaign)⟩,
         { s with campaigns := findByIdAndUpdate s.campaigns id (applyUpdateFields r) })

/-- The handler of `DELETE /api/campaigns/:id` (lines 215-245). Lines 217-221:
missing campaign, 404. Lines 224-226: caller neither owner nor admin, 403.
Lines 229-231: `currentAmount > 0`, 400. Line 233: the document is deleted.
Lines 236-238: `$pull` of the id from the owner's `createdCampaigns`.
Line 240: 200. -/
def deleteCampaign (caller : Caller) (id : Nat) (s : State) : Response Unit × State :=
  match findById s.campaigns id with
  | none => (⟨404, "Campaign not found", none⟩, s)
  | some campaign =>
    if campaign.owner ≠ caller.id ∧ caller.role ≠ Role.admin then
      (⟨403, "Not authorized to delete this campaign", none⟩, s)
    else if campaign.currentAmount > 0 then
      (⟨400, "Cannot delete campaign with existing donations", none⟩, s)
    else
      (⟨200, "Campaign deleted successfully", none⟩,
       { s with
         campaigns := s.campaigns.eraseP (fun c => c.id == id),
         users := User.findByIdAndUpdate s.users campaign.owner (fun u =>
           { u with createdCampaigns := u.createdCampaigns.filter (fun x => x != id) }) })

/-- Body of `POST /api/campaigns/:id/updates` (line 304). -/
structure CampaignUpdateBody where
  title : String
  content : String
deriving DecidableEq

/-- The express-validator chain of add-update (lines 281-282). -/
def campaignUpdateValidation (r : CampaignUpdateBody) : Bool :=
  decide (5 ≤ (trim r.title).length) && decide ((trim r.title).length ≤ 100) &&
  decide (10 ≤ r.content.length) && decide (r.content.length ≤ 1000)

/-- The mutation of lines 306-310: the new update is put in front. -/
def unshiftUpdate (env : Env) (r : CampaignUpdateBody) (c : Campaign) : Campaign :=
  { c with updates :=
      { title := trim r.title, content := r.content, createdAt := env.now } :: c.updates }

/-- The handler of `POST /api/campaigns/:id/updates` (lines 280-322). Lines
285-291: validation errors, 400. Lines 293-297: missing campaign, 404. Lines
300-302: caller neither owner nor admin, 403. Lines 306-312: the update is
unshifted and the document saved; `save()` runs the schema validators and a
failure is caught at lines 318-321 and answered 500 with nothing written.
Line 314: 200. -/
def addCampaignUpdate (env : Env) (caller : Caller) (id : Nat) (r : CampaignUpdateBody)
    (s : State) : Response CampaignUpdate × State :=
  if !campaignUpdateValidation r then
    (⟨400, "Validation errors", none⟩, s)
  else
    match findById s.campaigns id with
    | none => (⟨404, "Campaign not found", none⟩, s)
    | some campaign =>
      if campaign.owner ≠ caller.id ∧ caller.role ≠ Role.admin then
        (⟨403, "Not authorized to update this campaign", none⟩, s)
      else if !Campaign.validate env.now (unshiftUpdate env r campaign) then
        (⟨500, "Server error adding campaign update", none⟩, s)
      else
        (⟨200, "Campaign update added successfully",
            (unshiftUpdate env r campaign).updates.head?⟩,
         { s with campaigns := findByIdAndUpdate s.campaigns id (unshiftUpdate env r) })

/-- Reading of a status string of the enum (`models/Campaign.js`, line 50). -/
def Status.ofString? (status : String) : Option Status :=
  if status == "active" then some Status.active
  else if status == "completed" then some Status.completed
  else if status == "cancelled" then some Status.cancelled
  else if status == "expired" then some Status.expired
  else none

/-- The handler of `PUT /api/admin/campaigns/:id/status` (`routes/admin.js`,
lines 197-229). The `authorize('admin')` middleware is not among the sources:
following the spec, a caller without the admin role is answered 403. Lines
201-207: a status outside the enum, 400. Lines 211-215: `findByIdAndUpdate` of
the status. Lines 217-219: missing campaign, 404. Line 221: 200. -/
def updateCampaignStatus (caller : Caller) (id : Nat) (status : String) (s : State) :
    Response Campaign × State :=
  if caller.role ≠ Role.admin then
    (⟨403, "Not authorized", none⟩, s)
  else
    match Status.ofString? status with
    | none => (⟨400, "Validation errors", none⟩, s)
    | some newStatus =>
      match findById s.campaigns id with
      | none => (⟨404, "Campaign not found", none⟩, s)
      | some campaign =>
        (⟨200, "Campaign status updated successfully",
            some { campaign with status := newStatus }⟩,
         { s with campaigns := findByIdAndUpdate s.campaigns id (fun c =>
             { c with status := newStatus }) })

/-- The filter document of the admin listing `GET /api/admin/campaigns`
(`routes/admin.js`, lines 159-168): the search on title and description, and
the status unless it is absent, empty or `'all'`. The `category` of the query
is not read. -/
def adminCampaignQueryMatches (regex : String → String → Bool) (q : CampaignQuery)
    (c : Campaign) : Bool :=
  (match q.search with
   | none => true
   | some search =>
     if search != "" then regex search c.title || regex search c.description else true) &&
  (match q.status with
   | none => true
   | some status =>
     if status != "" && status != "all" then c.status.toString == status else true)

/-! ## The API as a transition system -/

/-- The state-changing requests of the API. `userRoute` stands for the routes
that write only the user collection (`PUT /api/admin/users/:id`, `routes/admin.js`
lines 112-149, and the authentication routes, which are not among the
sources): its effect on that collection is left arbitrary. -/
inductive Op where
  | createCampaign (env : Env) (user : Nat) (r : CreateCampaignBody)
  | updateCampaign (caller : Caller) (id : Nat) (r : UpdateCampaignBody)
  | deleteCampaign (caller : Caller) (id : Nat)
  | addCampaignUpdate (env : Env) (caller : Caller) (id : Nat) (r : CampaignUpdateBody)
  | updateCampaignStatus (caller : Caller) (id : Nat) (status : String)
  | createPaymentIntent (env : Env) (r : PaymentIntentBody)
  | confirm (env : Env) (user : Nat) (r : ConfirmBody)
  | userRoute (users : List User)

/-- The store after one request. -/
def applyOp : Op → State → State
  | Op.createCampaign env user r, s => (createCampaign env user r s).2
  | Op.updateCampaign caller id r, s => (updateCampaign caller id r s).2
  | Op.deleteCampaign caller id, s => (deleteCampaign caller id s).2
  | Op.addCampaignUpdate env caller id r, s => (addCampaignUpdate env caller id r s).2
  | Op.updateCampaignStatus caller id status, s => (updateCampaignStatus caller id status s).2
  | Op.createPaymentIntent env r, s => (createPaymentIntent env r s).2
  | Op.confirm env user r, s => (confirm env user r s).2
  | Op.userRoute users, s => { s with users := users }

/-- The store after a sequence of requests handled one after the other. -/
def run : List Op → State → State
  | [], s => s
  | op :: rest, s => run rest (applyOp op s)

/-! ## A fragment of the regular-expression engine -/

/-- The characters a regular expression gives a meaning other than themselves. -/
def regexMetacharacters : List Char :=
  ['.', '*', '+', '?', '(', ')', '[', ']', '{', '}', '|', '^', '$', '\\']

/-- Case-insensitive comparison of two characters (option `'i'`), on the
ASCII letters. -/
def charEqI (a b : Char) : Bool :=
  a.toLower == b.toLower

/-- One pattern position against one character: `.` matches every character
but a newline, any other character matches itself up to case. -/
def patternCharMatches (p c : Char) : Bool :=
  if p == '.' then c != '\n' else charEqI p c

/-- The pattern matches a prefix of the text. -/
def matchHere : List Char → List Char → Bool
  | [], _ => true
  | _ :: _, [] => false
  | p :: ps, c :: cs => patternCharMatches p c && matchHere ps cs

/-- The pattern matches somewhere in the text (an unanchored search). -/
def matchAnywhere (ps : List Char) : List Char → Bool
  | [] => matchHere ps []
  | c :: cs => matchHere ps (c :: cs) || matchAnywhere ps cs

/-- The database's regular-expression engine (PCRE, an external library) with
the option `'i'`, on the patterns made of ordinary characters and `.` only;
`none` on any pattern that uses another metacharacter, which this fragment
does not interpret. -/
def dotPatternEngine : RegexEngine := fun pattern =>
  if pattern.data.all (fun c => c == '.' || !regexMetacharacters.contains c) then
    some (fun text => matchAnywhere pattern.data text.data)
  else
    none

/-- The literal reading of a search: `s`, compared case-insensitively, occurs
as a substring of `text`. -/
def containsIgnoreCase (s text : String) : Prop :=
  (s.data.map Char.toLower) <:+: (text.data.map Char.toLower)

instance (s text : String) : Decidable (containsIgnoreCase s text) :=
  List.decidableInfix _ _

/-! ## Vocabulary for the anonymity of the donation listing -/

/-- The fixed donor of an anonymous donation in the listing
(`routes/donations.js`, line 162). -/
def anonymousDonor : DonorView :=
  { id := none, name := "Anonymous", profilePicture := "" }

/-- The replacement of lines 158-166 on one listed donation. -/
def maskDonor (v : DonationView) : DonationView :=
  if v.isAnonymous then { v with donor := some anonymousDonor } else v

/-- The stored donations a listing request selects, in order (lines 148-155):
succeeded donations of the campaign, newest first, skipped and limited. -/
def donationPage (campaignId : Nat) (q : PageQuery) (ds : List Donation) : List Donation :=
  applyLimit (q.limit.getD 10)
    (applySkip ((q.page.getD 1 - 1) * q.limit.getD 10)
      ((ds.filter (fun d =>
          d.campaign == campaignId && d.paymentStatus == PaymentStatus.succeeded)).insertionSort
        (fun a b => a.createdAt ≥ b.createdAt)))

/-- A stored donation with the donor reference blanked when the donation is
anonymous: two donation stores with the same image under this map differ only
in which user made an anonymous donation. -/
def blankAnonymousDonor (d : Donation) : Donation :=
  if d.isAnonymous then { d with donor := 0 } else d

/-- What `populate('donor', 'name profilePicture')` reads of a user. -/
def publicProfile (u : User) : Nat × String × String :=
  (u.id, u.name, u.profilePicture)

/-! ## Single-campaign read `GET /api/campaigns/:id` (`routes/campaigns.js`, lines 67-86) -/

/-- The `owner` of a campaign after `populate('owner', 'name profilePicture bio')`. -/
structure OwnerView where
  id : Nat
  name : String
  profilePicture : String
  bio : String
deriving DecidableEq

/-- A donor entry of a campaign after `populate('donors.user', 'name
profilePicture')`: the `user` reference is replaced by the selected fields of
the referenced user (`none` when that user does not exist). -/
structure DonorEntryView where
  user : Option DonorView
  amount : ℚ
  donatedAt : Int
  isAnonymous : Bool
deriving DecidableEq

/-- The campaign as `res.json({ campaign })` serialises it: the stored fields
with `owner` and `donors.user` populated, and the three virtuals, which
`toJSON: { virtuals: true }` (`models/Campaign.js`, line 112) includes. -/
structure CampaignDetail where
  id : Nat
  title : String
  description : String
  goalAmount : ℚ
  currentAmount : ℚ
  deadline : Int
  image : String
  category : String
  owner : Option OwnerView
  status : Status
  donors : List DonorEntryView
  updates : List CampaignUpdate
  featuredUntil : Option Int
  createdAt : Int
  progressPercentage : ℚ
  daysRemaining : Int
  totalDonors : Nat
deriving DecidableEq

/-- The `populate('owner', 'name profilePicture bio')` step. -/
def populateOwner (us : List User) (owner : Nat) : Option OwnerView :=
  (us.find? (fun u => u.id == owner)).map
    (fun u => { id := u.id, name := u.name, profilePicture := u.profilePicture, bio := u.bio })

/-- The `populate('donors.user', 'name profilePicture')` step for one donor
entry. The `isAnonymous` flag of the entry is not consulted. -/
def populateDonorEntry (us : List User) (e : DonorEntry) : DonorEntryView :=
  { user := (us.find? (fun u => u.id == e.user)).map
      (fun u => { id := some u.id, name := u.name, profilePicture := u.profilePicture }),
    amount := e.amount, donatedAt := e.donatedAt, isAnonymous := e.isAnonymous }

/-- The handler of `GET /api/campaigns/:id` (lines 67-86). Lines 69-71: the
campaign is read and populated. Lines 73-75: missing campaign, 404. Line 77:
the document is answered with the default status 200; `env.now` is the clock
the virtual `daysRemaining` reads. -/
def getCampaign (env : Env) (id : Nat) (s : State) : Response CampaignDetail :=
  match findById s.campaigns id with
  | none => ⟨404, "Campaign not found", none⟩
  | some campaign =>
    ⟨200, "", some
      { id := campaign.id, title := campaign.title, description := campaign.description,
        goalAmount := campaign.goalAmount, currentAmount := campaign.currentAmount,
        deadline := campaign.deadline, image := campaign.image,
        category := campaign.category,
        owner := populateOwner s.users campaign.owner,
        status := campaign.status,
        donors := campaign.donors.map (populateDonorEntry s.users),
        updates := campaign.updates, featuredUntil := campaign.featuredUntil,
        createdAt := campaign.createdAt,
        progressPercentage := campaign.progressPercentage,
        daysRemaining := campaign.daysRemaining env.now,
        totalDonors := campaign.totalDonors }⟩

/-! ## Derived values computed by the frontend components -/

/-- The `percentage` of the `ProgressBar` component
(`frontend/src/components/ProgressBar.jsx`, line 5):
`Math.min((current / goal) * 100, 100)`. -/
def ProgressBar.percentage (current goal : ℚ) : ℚ :=
  min ((current / goal) * 100) 100

/-- The local `getProgressPercentage` of the dashboard page
(`frontend/src/pages/Dashboard.jsx`, lines 69-71):
`Math.min((raised / goal) * 100, 100)`. -/
def Dashboard.getProgressPercentage (raised goal : ℚ) : ℚ :=
  min ((raised / goal) * 100) 100

/-- The flag `isExpired` of `CampaignCard` and `CampaignDetail`
(`CampaignCard.jsx`, lines 20-22; `CampaignDetail.jsx`, lines 74-76):
`getDaysRemaining(deadline) === 0`. -/
def isExpired (deadline now : Int) : Bool :=
  getDaysRemaining deadline now == 0

/-- The progress formula in the words of the specification:
`min(current / goal × 100, 100)`. -/
def specProgressPercentage (current goal : ℚ) : ℚ :=
  min (current / goal * 100) 100

/-- The remaining days in the words of the specification:
`max(ceil((deadline - now) / 86400000), 0)`. -/
def specDaysRemaining (deadline now : Int) : Int :=
  max (Int.ceil (((deadline - now : Int) : ℚ) / 86400000)) 0

/-- The page number of the button at position `i` of the page window
(`frontend/src/components/DonationList.jsx`, lines 167-176). -/
def pageNum (totalPages currentPage i : Int) : Int :=
  if totalPages ≤ 5 then i + 1
  else if currentPage ≤ 3 then i + 1
  else if currentPage ≥ totalPages - 2 then totalPages - 4 + i
  else currentPage - 2 + i

/-- The page window of `DonationList` (line 166):
`Array.from({ length: Math.min(5, totalPages) }, (_, i) => pageNum)`. -/
def pageWindow (totalPages currentPage : Int) : List Int :=
  (List.range (min 5 totalPages).toNat).map
    (fun (i : Nat) => pageNum totalPages currentPage (i : Int))

/-- The page-number buttons `DonationList` renders: the pagination block, and
the page window in it, is rendered only under `totalPages > 1` (line 154). -/
def pageButtons (totalPages currentPage : Int) : List Int :=
  if totalPages > 1 then pageWindow totalPages currentPage else []

/-! ## Conditions on sequences of requests -/

/-- The condition `ok` holds of every request of the sequence in the store it is
handled in. -/
def runAll (ok : Op → State → Bool) : List Op → State → Bool
  | [], _ => true
  | op :: rest, s => ok op s && runAll ok rest (applyOp op s)

/-- The ObjectId given to a created campaign is not the id of a campaign in
the store (the database generates distinct ObjectIds); the other requests
create no campaign. -/
def freshId : Op → State → Bool
  | Op.createCampaign env _ _, s => !(s.campaigns.any (fun c => c.id == env.newId))
  | _, _ => true

/-- The request neither is an admin status change that gives a status other
than `'completed'` to a campaign whose `currentAmount` has reached its
`goalAmount`, nor is a confirm that brings a campaign to its goal while the
campaign document fails the schema validators `save()` runs at line 123. -/
def keepsGoalStatus : Op → State → Bool
  | Op.updateCampaignStatus _ id status, s =>
    (match findById s.campaigns id with
     | some c => decide (c.currentAmount < c.goalAmount) || status == "completed"
     | none => true)
  | Op.confirm env user r, s =>
    (match findById s.campaigns r.campaignId with
     | some c =>
       decide ((applyDonation env user r c).currentAmount
                < (applyDonation env user r c).goalAmount) ||
       Campaign.validate env.now (markCompleted (applyDonation env user r c))
     | none => true)
  | _, _ => true

/-- The Donation records that reference the campaign `id`. -/
def donationsOf (ds : List Donation) (id : Nat) : List Donation :=
  ds.filter (fun d => d.campaign == id)

/-- The fields of a campaign the bookkeeping of donations reads. -/
def ledger (c : Campaign) : Nat × ℚ × List DonorEntry :=
  (c.id, c.currentAmount, c.donors)

/-- The bookkeeping invariant of the store: campaign ids are distinct, every
donation has an amount of at least 1 and references a stored campaign, and for
every campaign `currentAmount`, the donor entries and the Donation records
referencing it agree. -/
def Consistent (s : State) : Prop :=
  (s.campaigns.map (fun c => c.id)).Nodup ∧
  (∀ d ∈ s.donations, 1 ≤ d.amount) ∧
  (∀ d ∈ s.donations, ∃ c ∈ s.campaigns, c.id = d.campaign) ∧
  (∀ c ∈ s.campaigns,
    c.currentAmount = (c.donors.map (fun e => e.amount)).sum ∧
    (c.donors.map (fun e => e.amount)).sum
      = ((donationsOf s.donations c.id).map (fun d => d.amount)).sum ∧
    c.donors.length = (donationsOf s.donations c.id).length)

/-! ## Fixtures: concrete stores and requests used by witnesses and counterexamples -/

/-- A campaign with goal 1000, nothing raised yet, deadline at time 5000. -/
def demoCampaign : Campaign :=
  { id := 1, title := "Clean water", description := "Wells for the village",
    goalAmount := 1000, currentAmount := 0, deadline := 5000, image := "",
    category := "Community", owner := 7, status := Status.active, donors := [],
    updates := [], featuredUntil := none, createdAt := 0 }

/-- A store holding `demoCampaign`, its owner and one donor, and no donation. -/
def demoState : State :=
  { campaigns := [demoCampaign],
    donations := [],
    users :=
      [{ id := 7, name := "Owner", email := "owner@example.org", profilePicture := "",
         role := Role.campaign_owner, createdCampaigns := [1], donations := [] },
       { id := 9, name := "Donor", email := "donor@example.org", profilePicture := "",
         role := Role.donor, createdCampaigns := [], donations := [] }] }

/-- The environment of the fixtures: time 10, next id 100. -/
def demoEnv : Env := { now := 10, newId := 100, random := "k3j9x0q1z" }

/-- A valid confirm of 600 on `demoCampaign`. -/
def demoConfirm : ConfirmBody :=
  { paymentIntentId := "pi_test_1", campaignId := 1, amount := 600, message := none,
    isAnonymous := none }

/-- A confirm of 5 on `demoCampaign` whose message has 501 characters. -/
def longMessageConfirm : ConfirmBody :=
  { paymentIntentId := "pi_test_2", campaignId := 1, amount := 5,
    message := some (String.mk (List.replicate 501 'a')), isAnonymous := none }

/-- A confirm with amount 0 on a campaign id that is not in the store. -/
def zeroAmountConfirm : ConfirmBody :=
  { paymentIntentId := "pi_test_3", campaignId := 2, amount := 0, message := none,
    isAnonymous := none }

/-- The fixture campaign after donations of 50. -/
def fundedCampaign : Campaign :=
  { demoCampaign with currentAmount := 50 }

/-- The fixture store with `fundedCampaign` in place of `demoCampaign`. -/
def fundedState : State :=
  { demoState with campaigns := [fundedCampaign] }

/-- An update request whose title has three characters. -/
def shortTitleUpdate : UpdateCampaignBody :=
  { title := some "abc", description := none, category := none, file := none }

/-- A creation request that is valid in every field and omits the category. -/
def demoCreate : CreateCampaignBody :=
  { title := "School books", description := "Books for the pupils of the village school",
    goalAmount := 500, deadline := 9000, category := none, file := none }

/-- An anonymous donation of 25 to the fixture campaign made by user `donor`. -/
def anonymousDonationBy (donor : Nat) : Donation :=
  { id := 100, donor := donor, campaign := 1, amount := 25, isAnonymous := true,
    message := "Good luck", paymentIntentId := "pi_test_7",
    paymentStatus := PaymentStatus.succeeded, paymentMethod := "stripe", createdAt := 10 }

/-- The fixture store holding the anonymous donation made by user `donor`. -/
def anonymousStore (donor : Nat) : State :=
  { demoState with donations := [anonymousDonationBy donor] }

/-- The default listing query with the status filter set to `all`. -/
def statusAllQuery : CampaignQuery :=
  { page := none, limit := none, category := none, status := some "all", search := none,
    sortBy := none, order := none }

/-- The default listing query with the search string `w.ter`. -/
def dotSearchQuery : CampaignQuery :=
  { page := none, limit := none, category := none, status := none, search := some "w.ter",
    sortBy := none, order := none }

/-- An update request that renames the campaign and changes nothing else. -/
def renameUpdate : UpdateCampaignBody :=
  { title := some "Clean water for all", description := none, category := none,
    file := none }

/-- A confirm of 1000, the whole goal of the fixture campaign. -/
def goalConfirm : ConfirmBody :=
  { paymentIntentId := "pi_test_9", campaignId := 1, amount := 1000, message := none,
    isAnonymous := none }

/-- The fixture campaign cancelled, its deadline (5000) still ahead of time 10. -/
def cancelledCampaign : Campaign :=
  { demoCampaign with status := Status.cancelled }

/-- The fixture store with `cancelledCampaign` in place of `demoCampaign`. -/
def cancelledState : State :=
  { demoState with campaigns := [cancelledCampaign] }

/-- The fixture campaign cancelled, with its deadline (5) before time 10. -/
def lapsedCampaign : Campaign :=
  { demoCampaign with status := Status.cancelled, deadline := 5 }

/-- The fixture store with `lapsedCampaign` in place of `demoCampaign`. -/
def lapsedState : State :=
  { demoState with campaigns := [lapsedCampaign] }

/-- The donor entry of an anonymous donation of 25 made by user `donor`. -/
def anonymousEntryBy (donor : Nat) : DonorEntry :=
  { user := donor, amount := 25, donatedAt := 10, isAnonymous := true }

/-- The fixture campaign after the anonymous donation of 25 by user `donor`. -/
def anonymousDonorCampaign (donor : Nat) : Campaign :=
  { demoCampaign with currentAmount := 25, donors := [anonymousEntryBy donor] }

/-- The fixture store after the anonymous donation of 25 by user `donor`: the
campaign carries the donor entry and the donation record is stored. -/
def anonymousDonorStore (donor : Nat) : State :=
  { campaigns := [anonymousDonorCampaign donor],
    donations := [anonymousDonationBy donor],
    users := demoState.users }

/-- A store without campaigns and donations, with the users of the fixtures. -/
def emptyStore : State :=
  { campaigns := [], donations := [], users := demoState.users }

/-- A creation request that is valid in every field, with goal 500, deadline
9000 and the category `Education`. -/
def educationCreate : CreateCampaignBody :=
  { demoCreate with category := some "Education" }

/-- A confirm of 500 on the campaign with id 100. -/
def fullConfirm : ConfirmBody :=
  { paymentIntentId := "pi_test_21", campaignId := 100, amount := 500, message := none,
    isAnonymous := none }

/-- The environment of a request at time 20, next id 101. -/
def fundingEnv : Env := { now := 20, newId := 101, random := "" }

/-- The environment of a request at time 9500, next id 101. -/
def lateEnv : Env := { now := 9500, newId := 101, random := "" }

/-- User 7 creates the campaign 100 with goal 500 at time 10; user 9 confirms a
donation of 500 to it at time 20. -/
def fundingRun : List Op :=
  [Op.createCampaign demoEnv 7 educationCreate,
   Op.confirm fundingEnv 9 fullConfirm]

/-- An admin sets the status of campaign 100 to `active`. -/
def reopenOp : Op :=
  Op.updateCampaignStatus { id := 1, role := Role.admin } 100 "active"

/-- User 7 creates the campaign 100 with goal 500 and deadline 9000 at time
10; user 9 confirms a donation of 500 to it at time 9500. -/
def lateFundingRun : List Op :=
  [Op.createCampaign demoEnv 7 educationCreate,
   Op.confirm lateEnv 9 fullConfirm]

/-- The Donation record the confirm of `fundingRun` inserts. -/
def fundingDonation : Donation :=
  newDonation fundingEnv 9 fullConfirm

/-- A confirm of 5 on `demoCampaign` whose message is 300 times the character
U+1F600: 300 characters, 600 UTF-16 code units. -/
def emojiMessageConfirm : ConfirmBody :=
  { paymentIntentId := "pi_test_4", campaignId := 1, amount := 5,
    message := some (String.mk (List.replicate 300 (Char.ofNat 128512))),
    isAnonymous := none }

/-- The fixture confirm repeated: the same paymentIntentId, amount 50. -/
def repeatedConfirm : ConfirmBody :=
  { demoConfirm with amount := 50 }

/-- A confirm of 500 on `demoCampaign` with another paymentIntentId. -/
def secondConfirm : ConfirmBody :=
  { demoConfirm with paymentIntentId := "pi_test_8", amount := 500 }

/-- The fixture campaign, active, with its deadline (5) before time 10. -/
def overdueCampaign : Campaign :=
  { demoCampaign with deadline := 5 }

/-- The fixture store with `overdueCampaign` in place of `demoCampaign`. -/
def overdueState : State :=
  { demoState with campaigns := [overdueCampaign] }

/-- The listing query for page 3 with limit 2 and the default filters. -/
def pageThreeQuery : CampaignQuery :=
  { page := some 3, limit := some 2, category := none, status := none, search := none,
    sortBy := none, order := none }

/-! ## Lemmas on the store primitives -/

theorem length_updateFirst {α : Type} (p : α → Bool) (f : α → α) (l : List α) :
    (updateFirst p f l).length = l.length := by
  induction l with
  | nil => rfl
  | cons x xs ih =>
    unfold updateFirst
    by_cases h : p x = true
    · simp [h]
    · simp [h, ih]

theorem find?_updateFirst_self {α : Type} (p : α → Bool) (f : α → α)
    (hf : ∀ x, p x = true → p (f x) = true) (l : List α) :
    (updateFirst p f l).find? p = (l.find? p).map f := by
  induction l with
  | nil => rfl
  | cons x xs ih =>
    unfold updateFirst
    by_cases h : p x = true
    · simp [h, hf x h]
    · simp [h, ih]

theorem find?_updateFirst_other {α : Type} (p q : α → Bool) (f : α → α)
    (hq : ∀ x, p x = true → q x = false ∧ q (f x) = false) (l : List α) :
    (updateFirst p f l).find? q = l.find? q := by
  induction l with
  | nil => rfl
  | cons x xs ih =>
    unfold updateFirst
    by_cases h : p x = true
    · simp [h, (hq x h).1, (hq x h).2]
    · simp only [h, Bool.false_eq_true, if_false, List.find?_cons, ih]

theorem getElem?_updateFirst_of_not {α : Type} (p : α → Bool) (f : α → α) (l : List α)
    (i : Nat) (x : α) (h : l[i]? = some x) (hp : p x = false) :
    (updateFirst p f l)[i]? = some x := by
  induction l generalizing i with
  | nil => simp at h
  | cons y ys ih =>
    unfold updateFirst
    cases i with
    | zero =>
      simp at h
      subst h
      simp [hp]
    | succ j =>
      simp at h
      by_cases hy : p y = true
      · simp [hy, h]
      · simp [hy, ih j h]

theorem findById_update_self (cs : List Campaign) (id : Nat) (f : Campaign → Campaign)
    (hf : ∀ c, (f c).id = c.id) :
    findById (findByIdAndUpdate cs id f) id = (findById cs id).map f := by
  unfold findById findByIdAndUpdate
  apply find?_updateFirst_self
  intro x hx
  simpa [hf x] using hx

theorem findById_update_ne (cs : List Campaign) (id id' : Nat) (f : Campaign → Campaign)
    (hf : ∀ c, (f c).id = c.id) (hne : id' ≠ id) :
    findById (findByIdAndUpdate cs id f) id' = findById cs id' := by
  unfold findById findByIdAndUpdate
  apply find?_updateFirst_other
  intro x hx
  have hx' : x.id = id := by simpa using hx
  constructor
  · simp [hx', Ne.symm hne]
  · simp [hf x, hx', Ne.symm hne]

theorem applyDonation_id (env : Env) (user : Nat) (r : ConfirmBody) (c : Campaign) :
    (applyDonation env user r c).id = c.id := rfl

theorem markCompleted_id (c : Campaign) : (markCompleted c).id = c.id := rfl

/-! ## Lemmas on `confirm` -/

/-- A string has at least as many UTF-16 code units as characters. -/
theorem length_le_utf16Length (s : String) : s.length ≤ utf16Length s := by
  have key : ∀ l : List Char,
      l.length ≤ (l.map (fun c => if c.toNat < 65536 then 1 else 2)).sum := by
    intro l
    induction l with
    | nil => simp
    | cons x xs ih =>
      simp only [List.length_cons, List.map_cons, List.sum_cons]
      split_ifs <;> omega
  exact key s.data

/-- The Donation schema validators on the record a confirm inserts. -/
theorem validate_newDonation_iff (env : Env) (user : Nat) (r : ConfirmBody) :
    Donation.validate (newDonation env user r) = true ↔
      1 ≤ r.amount ∧ utf16Length (r.message.getD "") ≤ 500 ∧ r.paymentIntentId ≠ "" := by
  simp [Donation.validate, newDonation, and_assoc]

/-- The answer of an accepted confirm is 500 whenever the campaign of the
request is in the store: the populated campaign carries no `donors` and the
virtual `totalDonors` throws. -/
theorem confirmResponse_of_found (env : Env) (user : Nat) (r : ConfirmBody) (s : State)
    (c : Campaign) (hc : findById s.campaigns r.campaignId = some c) :
    confirmResponse env user r s = ⟨500, "Server error confirming donation", none⟩ := by
  simp [confirmResponse, populateCampaignTitle, hc, ProjectedCampaign.totalDonors]

/-- A request that passes the three guards but whose record fails the Donation
schema validators is answered 500 and writes nothing. -/
theorem confirm_of_schema_rejected (env : Env) (user : Nat) (r : ConfirmBody) (s : State)
    (c : Campaign) (hv : confirmValidation r = true)
    (hd : Donation.findOne s.donations r.paymentIntentId = none)
    (hc : findById s.campaigns r.campaignId = some c)
    (hschema : Donation.validate (newDonation env user r) = false) :
    confirm env user r s = (⟨500, "Server error confirming donation", none⟩, s) := by
  unfold confirm
  simp only [hv, hd, hc, hschema, Bool.not_true, Bool.not_false, Bool.false_eq_true,
    if_false, if_true]

/-- The accepted path of `confirm` in closed form: once validation, the
duplicate check, the campaign lookup and the Donation schema validators have
passed, the writes are decided by the re-read campaign
`applyDonation env user r c`, and the answer is 500 in every case. -/
theorem confirm_eq_of_accepted (env : Env) (user : Nat) (r : ConfirmBody) (s : State)
    (c : Campaign) (hv : confirmValidation r = true)
    (hd : Donation.findOne s.donations r.paymentIntentId = none)
    (hc : findById s.campaigns r.campaignId = some c)
    (hschema : Donation.validate (newDonation env user r) = true) :
    confirm env user r s =
      if (applyDonation env user r c).currentAmount ≥ (applyDonation env user r c).goalAmount then
        if Campaign.validate env.now (markCompleted (applyDonation env user r c)) then
          (⟨500, "Server error confirming donation", none⟩,
           { (confirmWrites env user r s) with
               campaigns := findByIdAndUpdate (confirmWrites env user r s).campaigns
                              r.campaignId markCompleted })
        else
          (⟨500, "Server error confirming donation", none⟩, confirmWrites env user r s)
      else
        (⟨500, "Server error confirming donation", none⟩, confirmWrites env user r s) := by
  have hre : findById (confirmWrites env user r s).campaigns r.campaignId
      = some (applyDonation env user r c) := by
    simp [confirmWrites, findById_update_self _ _ _ (applyDonation_id env user r), hc]
  have hre' : findById (findByIdAndUpdate (confirmWrites env user r s).campaigns
        r.campaignId markCompleted) r.campaignId
      = some (markCompleted (applyDonation env user r c)) := by
    rw [findById_update_self _ _ _ markCompleted_id, hre]
    rfl
  have hresp := confirmResponse_of_found env user r (confirmWrites env user r s) _ hre
  have hresp' := confirmResponse_of_found env user r
    { (confirmWrites env user r s) with
        campaigns := findByIdAndUpdate (confirmWrites env user r s).campaigns
                       r.campaignId markCompleted } _ hre'
  unfold confirm
  simp only [hv, hd, hc, hre, hschema, Bool.not_true, Bool.false_eq_true, if_false,
    hresp, hresp']

/-- After the writes of an accepted confirm the target campaign reads back as
`applyDonation env user r c`, possibly with its status set to completed. -/
theorem confirm_findById_of_accepted (env : Env) (user : Nat) (r : ConfirmBody) (s : State)
    (c : Campaign) (hv : confirmValidation r = true)
    (hd : Donation.findOne s.donations r.paymentIntentId = none)
    (hc : findById s.campaigns r.campaignId = some c)
    (hschema : Donation.validate (newDonation env user r) = true) :
    findById (confirm env user r s).2.campaigns r.campaignId
        = some (applyDonation env user r c) ∨
    findById (confirm env user r s).2.campaigns r.campaignId
        = some (markCompleted (applyDonation env user r c)) := by
  have hre : findById (confirmWrites env user r s).campaigns r.campaignId
      = some (applyDonation env user r c) := by
    simp [confirmWrites, findById_update_self _ _ _ (applyDonation_id env user r), hc]
  rw [confirm_eq_of_accepted env user r s c hv hd hc hschema]
  split
  · split
    · right
      simp [findById_update_self _ _ _ markCompleted_id, hre]
    · left; exact hre
  · left; exact hre

/-- A confirm answers 400, 404 or, when the Donation schema validators reject
its record, 500 without touching the store; any other outcome comes from the
accepted path. -/
theorem confirm_cases (env : Env) (user : Nat) (r : ConfirmBody) (s : State) :
    ((confirm env user r s).1.code = 400 ∧ (confirm env user r s).2 = s ∧
      (confirmValidation r = false ∨
        Donation.findOne s.donations r.paymentIntentId ≠ none)) ∨
    ((confirm env user r s).1.code = 404 ∧ (confirm env user r s).2 = s ∧
      confirmValidation r = true ∧
      Donation.findOne s.donations r.paymentIntentId = none ∧
      findById s.campaigns r.campaignId = none) ∨
    ((confirm env user r s).1.code = 500 ∧ (confirm env user r s).2 = s ∧
      confirmValidation r = true ∧
      Donation.findOne s.donations r.paymentIntentId = none ∧
      Donation.validate (newDonation env user r) = false) ∨
    (∃ c, confirmValidation r = true ∧
      Donation.findOne s.donations r.paymentIntentId = none ∧
      findById s.campaigns r.campaignId = some c ∧
      Donation.validate (newDonation env user r) = true) := by
  by_cases hv : confirmValidation r = true
  · cases hd : Donation.findOne s.donations r.paymentIntentId with
    | some d =>
      left
      unfold confirm
      simp [hv, hd]
    | none =>
      cases hc : findById s.campaigns r.campaignId with
      | none =>
        right; left
        unfold confirm
        simp [hv, hd, hc]
      | some c =>
        cases hschema : Donation.validate (newDonation env user r) with
        | false =>
          right; right; left
          rw [confirm_of_schema_rejected env user r s c hv hd hc hschema]
          exact ⟨rfl, rfl, hv, rfl, rfl⟩
        | true =>
          right; right; right
          exact ⟨c, hv, rfl, rfl, rfl⟩
  · left
    have hv' : confirmValidation r = false := by simpa using hv
    unfold confirm
    simp [hv']

theorem findOne_eq_none_iff (ds : List Donation) (pid : String) :
    Donation.findOne ds pid = none ↔ ∀ d ∈ ds, d.paymentIntentId ≠ pid := by
  simp [Donation.findOne, List.find?_eq_none]

theorem confirmValidation_iff (r : ConfirmBody) :
    confirmValidation r = true ↔
      r.paymentIntentId ≠ "" ∧ 1 ≤ r.amount ∧ ∀ m, r.message = some m → m.length ≤ 500 := by
  unfold confirmValidation
  cases hm : r.message with
  | none => simp [and_assoc]
  | some m => simp [and_assoc]

/-- A request whose message, when present, has at most 500 UTF-16 code units
passes the request validation and the Donation schema validators. -/
theorem accepted_of_utf16 (env : Env) (user : Nat) (r : ConfirmBody)
    (hpid : r.paymentIntentId ≠ "") (hamount : 1 ≤ r.amount)
    (hmsg : ∀ m, r.message = some m → utf16Length m ≤ 500) :
    confirmValidation r = true ∧ Donation.validate (newDonation env user r) = true := by
  constructor
  · rw [confirmValidation_iff]
    exact ⟨hpid, hamount, fun m hm => le_trans (length_le_utf16Length m) (hmsg m hm)⟩
  · rw [validate_newDonation_iff]
    refine ⟨hamount, ?_, hpid⟩
    cases hm : r.message with
    | none => simp [utf16Length]
    | some m => simpa using hmsg m hm

/-- A confirm whose `paymentIntentId` is already in the donation store answers
400 and leaves the store as it was. -/
theorem confirm_of_duplicate (env : Env) (user : Nat) (r : ConfirmBody) (s : State)
    (hd : Donation.findOne s.donations r.paymentIntentId ≠ none) :
    (confirm env user r s).1.code = 400 ∧ (confirm env user r s).2 = s := by
  rcases confirm_cases env user r s with h | h | h | ⟨c, _, h, _⟩
  · exact ⟨h.1, h.2.1⟩
  · exact absurd h.2.2.2.1 hd
  · exact absurd h.2.2.2.1 hd
  · exact absurd h hd

/-- The donation store after an accepted confirm: the new record is appended. -/
theorem confirm_donations_of_accepted (env : Env) (user : Nat) (r : ConfirmBody)
    (s : State) (c : Campaign) (hv : confirmValidation r = true)
    (hd : Donation.findOne s.donations r.paymentIntentId = none)
    (hc : findById s.campaigns r.campaignId = some c)
    (hschema : Donation.validate (newDonation env user r) = true) :
    (confirm env user r s).2.donations = s.donations ++ [newDonation env user r] := by
  rw [confirm_eq_of_accepted env user r s c hv hd hc hschema]
  split
  · split <;> rfl
  · rfl

/-- The campaign collection after an accepted confirm keeps its length and
every document whose id is not the target's. -/
theorem confirm_campaigns_frame (env : Env) (user : Nat) (r : ConfirmBody)
    (s : State) :
    (confirm env user r s).2.campaigns.length = s.campaigns.length ∧
    ∀ (i : Nat) (x : Campaign), s.campaigns[i]? = some x → x.id ≠ r.campaignId →
      (confirm env user r s).2.campaigns[i]? = some x := by
  have hw : (confirmWrites env user r s).campaigns.length = s.campaigns.length ∧
      ∀ (i : Nat) (x : Campaign), s.campaigns[i]? = some x → x.id ≠ r.campaignId →
        (confirmWrites env user r s).campaigns[i]? = some x := by
    constructor
    · simp [confirmWrites, findByIdAndUpdate, length_updateFirst]
    · intro i x hx hne
      simp only [confirmWrites, findByIdAndUpdate]
      exact getElem?_updateFirst_of_not _ _ _ i x hx (by simpa using hne)
  rcases confirm_cases env user r s with h | h | h | ⟨c, hv, hd, hc, hschema⟩
  · rw [h.2.1]; exact ⟨rfl, fun _ _ hx _ => hx⟩
  · rw [h.2.1]; exact ⟨rfl, fun _ _ hx _ => hx⟩
  · rw [h.2.1]; exact ⟨rfl, fun _ _ hx _ => hx⟩
  · rw [confirm_eq_of_accepted env user r s c hv hd hc hschema]
    split
    · split
      · constructor
        · simp [findByIdAndUpdate, length_updateFirst, hw.1]
        · intro i x hx hne
          simp only [findByIdAndUpdate]
          exact getElem?_updateFirst_of_not _ _ _ i x (hw.2 i x hx hne) (by simpa using hne)
      · exact hw
    · exact hw

/-- A confirm never takes a campaign out of the completed status: whatever
the request and its outcome, a campaign that reads back completed before still
reads back completed after. -/
theorem confirm_keeps_completed (env : Env) (user : Nat) (r : ConfirmBody) (s : State)
    (id : Nat) (c : Campaign) (hc : findById s.campaigns id = some c)
    (hs : c.status = Status.completed) :
    ∃ c', findById (confirm env user r s).2.campaigns id = some c' ∧
      c'.status = Status.completed := by
  rcases confirm_cases env user r s with h | h | h | ⟨t, hv, hd, ht, hschema⟩
  · rw [h.2.1]; exact ⟨c, hc, hs⟩
  · rw [h.2.1]; exact ⟨c, hc, hs⟩
  · rw [h.2.1]; exact ⟨c, hc, hs⟩
  · by_cases hid : id = r.campaignId
    · subst hid
      have htc : t = c := by rw [ht] at hc; exact Option.some.inj hc
      subst htc
      rcases confirm_findById_of_accepted env user r s t hv hd ht hschema with h | h
      · exact ⟨_, h, hs⟩
      · exact ⟨_, h, rfl⟩
    · have hw : findById (confirmWrites env user r s).campaigns id = some c := by
        simp only [confirmWrites]
        rw [findById_update_ne _ _ _ _ (applyDonation_id env user r) hid]
        exact hc
      rw [confirm_eq_of_accepted env user r s t hv hd ht hschema]
      split
      · split
        · refine ⟨c, ?_, hs⟩
          show findById (findByIdAndUpdate _ _ _) id = some c
          rw [findById_update_ne _ _ _ _ markCompleted_id hid]
          exact hw
        · exact ⟨c, hw, hs⟩
      · exact ⟨c, hw, hs⟩

theorem confirmAll_keeps_completed (reqs : List (Env × Nat × ConfirmBody)) (s : State)
    (id : Nat) (c : Campaign) (hc : findById s.campaigns id = some c)
    (hs : c.status = Status.completed) :
    ∃ c', findById (confirmAll reqs s).campaigns id = some c' ∧
      c'.status = Status.completed := by
  induction reqs generalizing s c with
  | nil => exact ⟨c, hc, hs⟩
  | cons q rest ih =>
    obtain ⟨env, user, r⟩ := q
    obtain ⟨c1, hc1, hs1⟩ := confirm_keeps_completed env user r s id c hc hs
    exact ih (confirm env user r s).2 c1 hc1 hs1

/-- The schema validators do not read the fields a confirm writes. -/
theorem validate_markCompleted_applyDonation (now : Int) (env : Env) (user : Nat)
    (r : ConfirmBody) (c : Campaign) :
    Campaign.validate now (markCompleted (applyDonation env user r c))
      = Campaign.validate now c := rfl

/-- An accepted confirm answers 500. -/
theorem confirm_code_of_accepted (env : Env) (user : Nat) (r : ConfirmBody) (s : State)
    (c : Campaign) (hv : confirmValidation r = true)
    (hd : Donation.findOne s.donations r.paymentIntentId = none)
    (hc : findById s.campaigns r.campaignId = some c)
    (hschema : Donation.validate (newDonation env user r) = true) :
    (confirm env user r s).1.code = 500 := by
  rw [confirm_eq_of_accepted env user r s c hv hd hc hschema]
  split
  · split <;> rfl
  · rfl

/-- An accepted confirm that leaves the campaign below its goal: the campaign
reads back as `applyDonation env user r c`. -/
theorem confirm_below_goal (env : Env) (user : Nat) (r : ConfirmBody) (s : State)
    (c : Campaign) (hv : confirmValidation r = true)
    (hd : Donation.findOne s.donations r.paymentIntentId = none)
    (hc : findById s.campaigns r.campaignId = some c)
    (hschema : Donation.validate (newDonation env user r) = true)
    (hlt : c.currentAmount + r.amount < c.goalAmount) :
    findById (confirm env user r s).2.campaigns r.campaignId
      = some (applyDonation env user r c) := by
  have hre : findById (confirmWrites env user r s).campaigns r.campaignId
      = some (applyDonation env user r c) := by
    simp [confirmWrites, findById_update_self _ _ _ (applyDonation_id env user r), hc]
  have hn : ¬ (applyDonation env user r c).currentAmount
      ≥ (applyDonation env user r c).goalAmount := not_le.2 hlt
  rw [confirm_eq_of_accepted env user r s c hv hd hc hschema, if_neg hn]
  exact hre

/-- An accepted confirm that brings the campaign to its goal, on a document
that passes the schema validators: the campaign reads back completed. -/
theorem confirm_reaching_goal (env : Env) (user : Nat) (r : ConfirmBody) (s : State)
    (c : Campaign) (hv : confirmValidation r = true)
    (hd : Donation.findOne s.donations r.paymentIntentId = none)
    (hc : findById s.campaigns r.campaignId = some c)
    (hschema : Donation.validate (newDonation env user r) = true)
    (hge : c.goalAmount ≤ c.currentAmount + r.amount)
    (hvalid : Campaign.validate env.now c = true) :
    findById (confirm env user r s).2.campaigns r.campaignId
      = some (markCompleted (applyDonation env user r c)) := by
  have hre : findById (confirmWrites env user r s).campaigns r.campaignId
      = some (applyDonation env user r c) := by
    simp [confirmWrites, findById_update_self _ _ _ (applyDonation_id env user r), hc]
  have hg : (applyDonation env user r c).currentAmount
      ≥ (applyDonation env user r c).goalAmount := hge
  rw [confirm_eq_of_accepted env user r s c hv hd hc hschema, if_pos hg,
    validate_markCompleted_applyDonation, if_pos hvalid]
  show findById (findByIdAndUpdate _ _ _) r.campaignId = _
  rw [findById_update_self _ _ _ markCompleted_id, hre]
  rfl

/-- An accepted confirm that brings the campaign to its goal, on a document
that fails the schema validators: the campaign reads back with the increment
applied and the status it had. -/
theorem confirm_save_rejected (env : Env) (user : Nat) (r : ConfirmBody) (s : State)
    (c : Campaign) (hv : confirmValidation r = true)
    (hd : Donation.findOne s.donations r.paymentIntentId = none)
    (hc : findById s.campaigns r.campaignId = some c)
    (hschema : Donation.validate (newDonation env user r) = true)
    (hge : c.goalAmount ≤ c.currentAmount + r.amount)
    (hinvalid : Campaign.validate env.now c = false) :
    findById (confirm env user r s).2.campaigns r.campaignId
      = some (applyDonation env user r c) := by
  have hre : findById (confirmWrites env user r s).campaigns r.campaignId
      = some (applyDonation env user r c) := by
    simp [confirmWrites, findById_update_self _ _ _ (applyDonation_id env user r), hc]
  have hg : (applyDonation env user r c).currentAmount
      ≥ (applyDonation env user r c).goalAmount := hge
  have hn : ¬ (Campaign.validate env.now c = true) := by simp [hinvalid]
  rw [confirm_eq_of_accepted env user r s c hv hd hc hschema, if_pos hg,
    validate_markCompleted_applyDonation, if_neg hn]
  exact hre

/-! ## Lemmas on pagination -/

/-- Size of a page: with a non-negative skip and a limit of at least 1, the
page holds `min limit (max (length - skip) 0)` documents. -/
theorem length_page {α : Type} (xs : List α) (skip limit : Int) (hs : 0 ≤ skip)
    (hl : 1 ≤ limit) :
    ((applyLimit limit (applySkip skip xs)).length : Int)
      = min limit (max ((xs.length : Int) - skip) 0) := by
  have hl0 : limit ≠ 0 := by omega
  simp only [applyLimit, applySkip, if_neg hl0, List.length_take, List.length_drop]
  omega

/-- A page is the sorted list with `skip` documents dropped and `limit` taken. -/
theorem page_eq_take_drop {α : Type} (xs : List α) (skip limit : Int) (hl : 1 ≤ limit) :
    applyLimit limit (applySkip skip xs) = (xs.drop skip.toNat).take limit.toNat := by
  have hl0 : limit ≠ 0 := by omega
  have hn : limit.natAbs = limit.toNat := by omega
  simp only [applyLimit, applySkip, if_neg hl0, hn]

/-- With a limit of at least 1, `ceil(total / limit) * limit` is at least
`total`. -/
theorem total_le_ceil_mul (total : Nat) (limit : Int) (hl : 1 ≤ limit) :
    (total : Int) ≤ Int.ceil ((total : ℚ) / (limit : ℚ)) * limit := by
  have hpos : (0 : ℚ) < (limit : ℚ) := by exact_mod_cast (by omega : 0 < limit)
  have h1 : (total : ℚ) / (limit : ℚ) ≤ (Int.ceil ((total : ℚ) / (limit : ℚ)) : ℚ) :=
    Int.le_ceil _
  have h2 : (total : ℚ) ≤ (Int.ceil ((total : ℚ) / (limit : ℚ)) : ℚ) * (limit : ℚ) :=
    (div_le_iff₀ hpos).1 h1
  exact_mod_cast h2

/-- A page number beyond `ceil(total / limit)` skips at least `total`
documents. -/
theorem total_le_skip_of_beyond (total : Nat) (page limit : Int) (hl : 1 ≤ limit)
    (hp : Int.ceil ((total : ℚ) / (limit : ℚ)) < page) :
    (total : Int) ≤ (page - 1) * limit := by
  have h1 := total_le_ceil_mul total limit hl
  have h2 : Int.ceil ((total : ℚ) / (limit : ℚ)) ≤ page - 1 := by omega
  have h3 : Int.ceil ((total : ℚ) / (limit : ℚ)) * limit ≤ (page - 1) * limit :=
    mul_le_mul_of_nonneg_right h2 (by omega)
  omega

/-! ## Lemmas on the transition system -/

theorem createCampaign_donations (env : Env) (user : Nat) (r : CreateCampaignBody)
    (s : State) : (createCampaign env user r s).2.donations = s.donations := by
  unfold createCampaign
  split
  · rfl
  · split
    · rfl
    · dsimp only
      split <;> rfl

theorem updateCampaign_donations (caller : Caller) (id : Nat) (r : UpdateCampaignBody)
    (s : State) : (updateCampaign caller id r s).2.donations = s.donations := by
  unfold updateCampaign
  split
  · rfl
  · split
    · rfl
    · split
      · rfl
      · split <;> rfl

theorem deleteCampaign_donations (caller : Caller) (id : Nat) (s : State) :
    (deleteCampaign caller id s).2.donations = s.donations := by
  unfold deleteCampaign
  split
  · rfl
  · split
    · rfl
    · split <;> rfl

theorem addCampaignUpdate_donations (env : Env) (caller : Caller) (id : Nat)
    (r : CampaignUpdateBody) (s : State) :
    (addCampaignUpdate env caller id r s).2.donations = s.donations := by
  unfold addCampaignUpdate
  split
  · rfl
  · split
    · rfl
    · split
      · rfl
      · split <;> rfl

theorem updateCampaignStatus_donations (caller : Caller) (id : Nat) (status : String)
    (s : State) : (updateCampaignStatus caller id status s).2.donations = s.donations := by
  unfold updateCampaignStatus
  split
  · rfl
  · split
    · rfl
    · split <;> rfl

theorem createPaymentIntent_state (env : Env) (r : PaymentIntentBody) (s : State) :
    (createPaymentIntent env r s).2 = s := by
  unfold createPaymentIntent
  split
  · rfl
  · split
    · rfl
    · split
      · rfl
      · split <;> rfl

/-- The donation store after a confirm: untouched, or the record built from the
request appended, which happens only for a validated request with a fresh
paymentIntentId. -/
theorem confirm_donations (env : Env) (user : Nat) (r : ConfirmBody) (s : State) :
    (confirm env user r s).2.donations = s.donations ∨
    (confirmValidation r = true ∧
      Donation.findOne s.donations r.paymentIntentId = none ∧
      (confirm env user r s).2.donations = s.donations ++ [newDonation env user r]) := by
  rcases confirm_cases env user r s with h | h | h | ⟨c, hv, hd, hc, hschema⟩
  · left; rw [h.2.1]
  · left; rw [h.2.1]
  · left; rw [h.2.1]
  · right; exact ⟨hv, hd, confirm_donations_of_accepted env user r s c hv hd hc hschema⟩

/-- Only a confirm changes the donation store, and it does so by appending the
record built from a validated request with a fresh paymentIntentId. -/
theorem applyOp_donations (op : Op) (s : State) :
    (applyOp op s).donations = s.donations ∨
    ∃ env user r, confirmValidation r = true ∧
      Donation.findOne s.donations r.paymentIntentId = none ∧
      (applyOp op s).donations = s.donations ++ [newDonation env user r] := by
  cases op with
  | createCampaign env user r => left; exact createCampaign_donations env user r s
  | updateCampaign caller id r => left; exact updateCampaign_donations caller id r s
  | deleteCampaign caller id => left; exact deleteCampaign_donations caller id s
  | addCampaignUpdate env caller id r =>
    left; exact addCampaignUpdate_donations env caller id r s
  | updateCampaignStatus caller id status =>
    left; exact updateCampaignStatus_donations caller id status s
  | createPaymentIntent env r =>
    left
    show (createPaymentIntent env r s).2.donations = s.donations
    rw [createPaymentIntent_state]
  | confirm env user r =>
    rcases confirm_donations env user r s with h | ⟨hv, hd, h⟩
    · left; exact h
    · right; exact ⟨env, user, r, hv, hd, h⟩
  | userRoute users => left; rfl

/-- Induction principle for properties of the donation store along a run. -/
theorem run_donations_induction (P : List Donation → Prop)
    (hstep : ∀ (ds : List Donation) (env : Env) (user : Nat) (r : ConfirmBody),
      P ds → confirmValidation r = true → Donation.findOne ds r.paymentIntentId = none →
      P (ds ++ [newDonation env user r]))
    (ops : List Op) (s : State) (h : P s.donations) : P (run ops s).donations := by
  induction ops generalizing s with
  | nil => exact h
  | cons op rest ih =>
    apply ih
    rcases applyOp_donations op s with heq | ⟨env, user, r, hv, hd, heq⟩
    · rw [heq]; exact h
    · rw [heq]; exact hstep _ env user r h hv hd

/-! ## Lemmas on campaign lookups across requests -/

theorem findById_append_of_some (cs extra : List Campaign) (id : Nat) (c : Campaign)
    (hc : findById cs id = some c) : findById (cs ++ extra) id = some c := by
  unfold findById at hc ⊢
  rw [List.find?_append, hc]
  rfl

theorem findById_eraseP_ne (cs : List Campaign) (id id' : Nat) (hne : id' ≠ id) :
    findById (cs.eraseP (fun c => c.id == id)) id' = findById cs id' := by
  unfold findById
  induction cs with
  | nil => rfl
  | cons x xs ih =>
    by_cases hx : x.id = id
    · have hb : (x.id == id) = true := by simpa using hx
      have hx' : (x.id == id') = false := by
        simp only [beq_eq_false_iff_ne, ne_eq]
        intro h; exact hne (h.symm.trans hx)
      simp only [List.eraseP_cons, hb, cond_true, List.find?_cons, hx']
    · have hb : (x.id == id) = false := by simpa using hx
      simp only [List.eraseP_cons, hb, cond_false, List.find?_cons, ih]

theorem findById_eraseP_self (cs : List Campaign) (id : Nat)
    (hunique : (cs.map (fun c => c.id)).Nodup) :
    findById (cs.eraseP (fun c => c.id == id)) id = none := by
  unfold findById
  induction cs with
  | nil => rfl
  | cons x xs ih =>
    have hnd : x.id ∉ xs.map (fun c => c.id) ∧ (xs.map (fun c => c.id)).Nodup := by
      simpa using hunique
    by_cases hx : x.id = id
    · have hb : (x.id == id) = true := by simpa using hx
      simp only [List.eraseP_cons, hb, cond_true]
      rw [List.find?_eq_none]
      intro y hy hyid
      apply hnd.1
      have : y.id = id := by simpa using hyid
      rw [hx, ← this]
      exact List.mem_map_of_mem _ hy
    · have hb : (x.id == id) = false := by simpa using hx
      simp only [List.eraseP_cons, hb, cond_false, List.find?_cons]
      exact ih hnd.2

/-- Deleting the first document with a given id removes the document the
lookup returns, at its position, and nothing else. -/
theorem eraseP_of_findById (cs : List Campaign) (id : Nat) (c : Campaign)
    (hc : findById cs id = some c) :
    ∃ l₁ l₂, cs = l₁ ++ c :: l₂ ∧ (∀ x ∈ l₁, x.id ≠ id) ∧
      cs.eraseP (fun c => c.id == id) = l₁ ++ l₂ := by
  unfold findById at hc
  obtain ⟨hp, l₁, l₂, hcs, hl₁⟩ := List.find?_eq_some.1 hc
  refine ⟨l₁, l₂, hcs, ?_, ?_⟩
  · intro x hx
    have := hl₁ x hx
    simpa using this
  · rw [hcs, List.eraseP_append_right _ (fun b hb => by simpa using hl₁ b hb)]
    simp only [List.eraseP_cons, hp, cond_true]

/-- An update that keeps ids and amounts keeps the amount every lookup
returns. -/
theorem findById_update_currentAmount (cs : List Campaign) (id id' : Nat)
    (f : Campaign → Campaign) (c c' : Campaign) (hid : ∀ c, (f c).id = c.id)
    (hamount : ∀ c, (f c).currentAmount = c.currentAmount)
    (hc : findById cs id' = some c)
    (hc' : findById (findByIdAndUpdate cs id f) id' = some c') :
    c'.currentAmount = c.currentAmount := by
  by_cases h : id' = id
  · subst h
    rw [findById_update_self _ _ _ hid, hc] at hc'
    have : f c = c' := by simpa using hc'
    rw [← this]; exact hamount c
  · rw [findById_update_ne _ _ _ _ hid h, hc] at hc'
    have : c = c' := by simpa using hc'
    rw [this]

/-- A confirm leaves the lookup of every other campaign id as it was. -/
theorem confirm_findById_ne (env : Env) (user : Nat) (r : ConfirmBody) (s : State)
    (id : Nat) (hne : id ≠ r.campaignId) :
    findById (confirm env user r s).2.campaigns id = findById s.campaigns id := by
  have hw : findById (confirmWrites env user r s).campaigns id = findById s.campaigns id := by
    simp only [confirmWrites]
    exact findById_update_ne _ _ _ _ (applyDonation_id env user r) hne
  rcases confirm_cases env user r s with h | h | h | ⟨t, hv, hd, ht, hschema⟩
  · rw [h.2.1]
  · rw [h.2.1]
  · rw [h.2.1]
  · rw [confirm_eq_of_accepted env user r s t hv hd ht hschema]
    split
    · split
      · show findById (findByIdAndUpdate _ _ _) id = _
        rw [findById_update_ne _ _ _ _ markCompleted_id hne]
        exact hw
      · exact hw
    · exact hw

theorem currentAmount_eq_of_same {s : State} {id : Nat} {c c' : Campaign}
    (hc : findById s.campaigns id = some c) (hc' : findById s.campaigns id = some c') :
    c'.currentAmount = c.currentAmount := by
  rw [hc] at hc'
  have : c = c' := by simpa using hc'
  rw [this]

theorem createCampaign_currentAmount (env : Env) (user : Nat) (r : CreateCampaignBody)
    (s : State) (id : Nat) (c c' : Campaign) (hc : findById s.campaigns id = some c)
    (hc' : findById (createCampaign env user r s).2.campaigns id = some c') :
    c'.currentAmount = c.currentAmount := by
  unfold createCampaign at hc'
  split at hc'
  · exact currentAmount_eq_of_same hc hc'
  · split at hc'
    · exact currentAmount_eq_of_same hc hc'
    · dsimp only at hc'
      split at hc'
      · exact currentAmount_eq_of_same hc hc'
      · have h := findById_append_of_some s.campaigns [newCampaign env user r] id c hc
        exact currentAmount_eq_of_same h hc'

theorem updateCampaign_currentAmount (caller : Caller) (target : Nat)
    (r : UpdateCampaignBody) (s : State) (id : Nat) (c c' : Campaign)
    (hc : findById s.campaigns id = some c)
    (hc' : findById (updateCampaign caller target r s).2.campaigns id = some c') :
    c'.currentAmount = c.currentAmount := by
  unfold updateCampaign at hc'
  split at hc'
  · exact currentAmount_eq_of_same hc hc'
  · split at hc'
    · exact currentAmount_eq_of_same hc hc'
    · split at hc'
      · exact currentAmount_eq_of_same hc hc'
      · split at hc'
        · exact currentAmount_eq_of_same hc hc'
        · refine findById_update_currentAmount _ _ _ _ _ _ ?_ ?_ hc hc' <;> intro _ <;> rfl

theorem addCampaignUpdate_currentAmount (env : Env) (caller : Caller) (target : Nat)
    (r : CampaignUpdateBody) (s : State) (id : Nat) (c c' : Campaign)
    (hc : findById s.campaigns id = some c)
    (hc' : findById (addCampaignUpdate env caller target r s).2.campaigns id = some c') :
    c'.currentAmount = c.currentAmount := by
  unfold addCampaignUpdate at hc'
  split at hc'
  · exact currentAmount_eq_of_same hc hc'
  · split at hc'
    · exact currentAmount_eq_of_same hc hc'
    · split at hc'
      · exact currentAmount_eq_of_same hc hc'
      · split at hc'
        · exact currentAmount_eq_of_same hc hc'
        · refine findById_update_currentAmount _ _ _ _ _ _ ?_ ?_ hc hc' <;> intro _ <;> rfl

theorem updateCampaignStatus_currentAmount (caller : Caller) (target : Nat)
    (status : String) (s : State) (id : Nat) (c c' : Campaign)
    (hc : findById s.campaigns id = some c)
    (hc' : findById (updateCampaignStatus caller target status s).2.campaigns id = some c') :
    c'.currentAmount = c.currentAmount := by
  unfold updateCampaignStatus at hc'
  split at hc'
  · exact currentAmount_eq_of_same hc hc'
  · split at hc'
    · exact currentAmount_eq_of_same hc hc'
    · split at hc'
      · exact currentAmount_eq_of_same hc hc'
      · refine findById_update_currentAmount _ _ _ _ _ _ ?_ ?_ hc hc' <;> intro _ <;> rfl

theorem deleteCampaign_currentAmount (caller : Caller) (target : Nat) (s : State)
    (id : Nat) (c c' : Campaign) (hunique : (s.campaigns.map (fun c => c.id)).Nodup)
    (hc : findById s.campaigns id = some c)
    (hc' : findById (deleteCampaign caller target s).2.campaigns id = some c') :
    c'.currentAmount = c.currentAmount := by
  unfold deleteCampaign at hc'
  split at hc'
  · exact currentAmount_eq_of_same hc hc'
  · split at hc'
    · exact currentAmount_eq_of_same hc hc'
    · split at hc'
      · exact currentAmount_eq_of_same hc hc'
      · by_cases h : id = target
        · subst h
          have hnone := findById_eraseP_self s.campaigns id hunique
          have hc'' : findById (s.campaigns.eraseP (fun c => c.id == id)) id = some c' := hc'
          rw [hnone] at hc''
          cases hc''
        · have hc'' : findById (s.campaigns.eraseP (fun c => c.id == target)) id
              = some c' := hc'
          rw [findById_eraseP_ne _ _ _ h] at hc''
          exact currentAmount_eq_of_same hc hc''

theorem confirm_currentAmount (env : Env) (user : Nat) (r : ConfirmBody) (s : State)
    (id : Nat) (c c' : Campaign) (hc : findById s.campaigns id = some c)
    (hc' : findById (confirm env user r s).2.campaigns id = some c') :
    c.currentAmount ≤ c'.currentAmount := by
  by_cases h : id = r.campaignId
  · subst h
    rcases confirm_cases env user r s with hr | hr | hr | ⟨t, hv, hd, ht, hschema⟩
    · rw [hr.2.1] at hc'
      exact le_of_eq (currentAmount_eq_of_same hc hc').symm
    · rw [hr.2.1] at hc'
      exact le_of_eq (currentAmount_eq_of_same hc hc').symm
    · rw [hr.2.1] at hc'
      exact le_of_eq (currentAmount_eq_of_same hc hc').symm
    · have htc : t = c := by rw [ht] at hc; exact Option.some.inj hc
      subst htc
      have hamount : 1 ≤ r.amount := ((confirmValidation_iff r).1 hv).2.1
      have hle : t.currentAmount ≤ t.currentAmount + r.amount := by linarith
      rcases confirm_findById_of_accepted env user r s t hv hd ht hschema with h' | h'
      · rw [h'] at hc'
        have : applyDonation env user r t = c' := by simpa using hc'
        rw [← this]; exact hle
      · rw [h'] at hc'
        have : markCompleted (applyDonation env user r t) = c' := by simpa using hc'
        rw [← this]; exact hle
  · rw [confirm_findById_ne env user r s id h] at hc'
    exact le_of_eq (currentAmount_eq_of_same hc hc').symm

/-! ## Lemmas on the donation listing -/

theorem getCampaignDonations_eq (campaignId : Nat) (q : PageQuery) (s : State) :
    getCampaignDonations campaignId q s =
      if (q.page.getD 1 - 1) * q.limit.getD 10 < 0 then
        ⟨500, "Server error fetching donations", none⟩
      else
        ⟨200, "", some
          { donations :=
              ((donationPage campaignId q s.donations).map (populateDonor s.users)).map
                maskDonor,
            pagination :=
              { currentPage := q.page.getD 1,
                totalPages := totalPages (s.donations.filter (fun d =>
                    d.campaign == campaignId
                      && d.paymentStatus == PaymentStatus.succeeded)).length
                  (q.limit.getD 10),
                totalDonations := (s.donations.filter (fun d =>
                    d.campaign == campaignId
                      && d.paymentStatus == PaymentStatus.succeeded)).length } }⟩ := rfl

theorem mem_of_mem_donationPage (campaignId : Nat) (q : PageQuery) (ds : List Donation)
    (d : Donation) (h : d ∈ donationPage campaignId q ds) : d ∈ ds := by
  unfold donationPage applyLimit applySkip at h
  have h1 : d ∈ List.drop ((q.page.getD 1 - 1) * q.limit.getD 10).toNat
      ((ds.filter (fun d =>
          d.campaign == campaignId && d.paymentStatus == PaymentStatus.succeeded)).insertionSort
        (fun a b => a.createdAt ≥ b.createdAt)) := by
    split at h
    · exact h
    · exact List.mem_of_mem_take h
  have h2 := (List.mem_insertionSort _).1 (List.mem_of_mem_drop h1)
  exact (List.mem_filter.1 h2).1

theorem blankAnonymousDonor_fields (d : Donation) :
    (blankAnonymousDonor d).campaign = d.campaign ∧
    (blankAnonymousDonor d).paymentStatus = d.paymentStatus ∧
    (blankAnonymousDonor d).createdAt = d.createdAt := by
  unfold blankAnonymousDonor
  split <;> exact ⟨rfl, rfl, rfl⟩

/-- The selected page commutes with blanking the donor of anonymous donations:
selection and order read only campaign, paymentStatus and createdAt. -/
theorem donationPage_map_blank (campaignId : Nat) (q : PageQuery) (ds : List Donation) :
    (donationPage campaignId q ds).map blankAnonymousDonor
      = donationPage campaignId q (ds.map blankAnonymousDonor) := by
  have hfilter : (ds.map blankAnonymousDonor).filter (fun d =>
        d.campaign == campaignId && d.paymentStatus == PaymentStatus.succeeded)
      = (ds.filter (fun d =>
        d.campaign == campaignId
          && d.paymentStatus == PaymentStatus.succeeded)).map blankAnonymousDonor := by
    rw [List.filter_map]
    congr 1
    apply List.filter_congr
    intro d _
    simp only [Function.comp, (blankAnonymousDonor_fields d).1,
      (blankAnonymousDonor_fields d).2.1]
  have hsort := List.map_insertionSort (fun a b : Donation => a.createdAt ≥ b.createdAt)
    (fun a b : Donation => a.createdAt ≥ b.createdAt) blankAnonymousDonor
    (ds.filter (fun d =>
      d.campaign == campaignId && d.paymentStatus == PaymentStatus.succeeded))
    (fun a _ b _ => by
      simp only [(blankAnonymousDonor_fields a).2.2, (blankAnonymousDonor_fields b).2.2])
  unfold donationPage applyLimit applySkip
  rw [hfilter, ← hsort]
  split
  · rw [List.map_drop]
  · rw [List.map_take, List.map_drop]

/-- The listed form of a donation does not read the donor reference of an
anonymous donation. -/
theorem maskDonor_populate_blank (us : List User) (d : Donation) :
    maskDonor (populateDonor us (blankAnonymousDonor d)) = maskDonor (populateDonor us d) := by
  unfold blankAnonymousDonor
  by_cases h : d.isAnonymous = true
  · simp only [h, if_true]
    unfold maskDonor populateDonor
    simp only [h, if_true]
  · simp only [h, Bool.false_eq_true, if_false]

/-- Populating a donor reads only the public profiles of the users. -/
theorem populateDonor_congr (us₁ us₂ : List User)
    (h : us₁.map publicProfile = us₂.map publicProfile) (d : Donation) :
    populateDonor us₁ d = populateDonor us₂ d := by
  have key : (us₁.find? (fun u => u.id == d.donor)).map
        (fun u => ({ id := some u.id, name := u.name,
                     profilePicture := u.profilePicture } : DonorView))
      = (us₂.find? (fun u => u.id == d.donor)).map
        (fun u => ({ id := some u.id, name := u.name,
                     profilePicture := u.profilePicture } : DonorView)) := by
    induction us₁ generalizing us₂ with
    | nil =>
      cases us₂ with
      | nil => rfl
      | cons y ys => simp at h
    | cons x xs ih =>
      cases us₂ with
      | nil => simp at h
      | cons y ys =>
        simp only [List.map_cons, List.cons.injEq, publicProfile, Prod.mk.injEq] at h
        obtain ⟨⟨hid, hname, hpic⟩, htail⟩ := h
        simp only [List.find?_cons, hid]
        cases hy : (y.id == d.donor) with
        | true => simp [hid, hname, hpic]
        | false => exact ih ys htail
  unfold populateDonor
  rw [key]

/-- The response of the donation listing is determined by the donation store
with anonymous donors blanked and by the public profiles of the users. -/
theorem getCampaignDonations_congr (campaignId : Nat) (q : PageQuery) (s₁ s₂ : State)
    (hd : s₁.donations.map blankAnonymousDonor = s₂.donations.map blankAnonymousDonor)
    (hu : s₁.users.map publicProfile = s₂.users.map publicProfile) :
    getCampaignDonations campaignId q s₁ = getCampaignDonations campaignId q s₂ := by
  have hview : ∀ (us : List User) (ds : List Donation),
      ((donationPage campaignId q ds).map (populateDonor us)).map maskDonor
        = ((donationPage campaignId q (ds.map blankAnonymousDonor)).map
            (populateDonor us)).map maskDonor := by
    intro us ds
    rw [← donationPage_map_blank]
    simp only [List.map_map]
    apply List.map_congr_left
    intro d _
    exact (maskDonor_populate_blank us d).symm
  have hpop : ∀ ds : List Donation,
      ds.map (populateDonor s₁.users) = ds.map (populateDonor s₂.users) := by
    intro ds
    apply List.map_congr_left
    intro d _
    exact populateDonor_congr _ _ hu d
  have hlen : ∀ ds : List Donation,
      (ds.filter (fun d =>
          d.campaign == campaignId && d.paymentStatus == PaymentStatus.succeeded)).length
        = ((ds.map blankAnonymousDonor).filter (fun d =>
          d.campaign == campaignId
            && d.paymentStatus == PaymentStatus.succeeded)).length := by
    intro ds
    rw [List.filter_map, List.length_map]
    congr 1
    apply List.filter_congr
    intro d _
    simp only [Function.comp, (blankAnonymousDonor_fields d).1,
      (blankAnonymousDonor_fields d).2.1]
  rw [getCampaignDonations_eq, getCampaignDonations_eq, hview s₁.users s₁.donations,
    hview s₂.users s₂.donations, hlen s₁.donations, hlen s₂.donations, hd, hpop]

/-! ## Lemmas on the regular-expression fragment -/

theorem matchHere_iff_prefix (ps cs : List Char) (hplain : ∀ p ∈ ps, p ≠ '.') :
    matchHere ps cs = true ↔ (ps.map Char.toLower) <+: (cs.map Char.toLower) := by
  induction ps generalizing cs with
  | nil => simp [matchHere]
  | cons p ps ih =>
    have hp : p ≠ '.' := hplain p (List.mem_cons_self _ _)
    have hps : ∀ x ∈ ps, x ≠ '.' := fun x hx => hplain x (List.mem_cons_of_mem _ hx)
    cases cs with
    | nil => simp [matchHere]
    | cons c cs =>
      have hpb : (p == '.') = false := by simpa using hp
      simp only [matchHere, patternCharMatches, hpb, Bool.false_eq_true, if_false, charEqI,
        Bool.and_eq_true, beq_iff_eq, List.map_cons, List.cons_prefix_cons, ih cs hps]

theorem matchAnywhere_iff_infix (ps cs : List Char) (hplain : ∀ p ∈ ps, p ≠ '.') :
    matchAnywhere ps cs = true ↔ (ps.map Char.toLower) <:+: (cs.map Char.toLower) := by
  induction cs with
  | nil =>
    simp only [matchAnywhere, matchHere_iff_prefix ps [] hplain, List.map_nil,
      List.prefix_nil, List.infix_nil]
  | cons c cs ih =>
    simp only [matchAnywhere, Bool.or_eq_true, matchHere_iff_prefix ps (c :: cs) hplain, ih,
      List.map_cons, List.infix_cons_iff]

/-- On a search string without metacharacters the engine is the
case-insensitive substring test. -/
theorem regexTest_plain (s text : String)
    (hplain : ∀ ch ∈ s.data, ch ∉ regexMetacharacters) :
    regexTest dotPatternEngine s text = true ↔ containsIgnoreCase s text := by
  have hall : s.data.all (fun c => c == '.' || !regexMetacharacters.contains c) = true := by
    rw [List.all_eq_true]
    intro c hc
    have := hplain c hc
    simp [this]
  have hdot : ∀ p ∈ s.data, p ≠ '.' := by
    intro p hp hpdot
    apply hplain p hp
    rw [hpdot]
    decide
  unfold regexTest dotPatternEngine
  simp only [hall, if_true]
  exact matchAnywhere_iff_infix s.data text.data hdot

/-! ## Lemmas on campaign creation -/

/-- The outcomes of a creation request, in closed form. -/
theorem createCampaign_cases (env : Env) (user : Nat) (r : CreateCampaignBody) (s : State) :
    ((createCampaign env user r s).1.code = 400 ∧ (createCampaign env user r s).2 = s ∧
      (createCampaignValidation r = false ∨ r.deadline ≤ env.now)) ∨
    ((createCampaign env user r s).1.code = 500 ∧ (createCampaign env user r s).2 = s ∧
      createCampaignValidation r = true ∧ env.now < r.deadline ∧
      Campaign.validate env.now (newCampaign env user r) = false) ∨
    (createCampaign env user r s
        = (⟨201, "Campaign created successfully", some (newCampaign env user r)⟩,
           { s with
             campaigns := s.campaigns ++ [newCampaign env user r],
             users := User.findByIdAndUpdate s.users user (fun u =>
               { u with createdCampaigns :=
                   u.createdCampaigns ++ [(newCampaign env user r).id] }) }) ∧
      createCampaignValidation r = true ∧ env.now < r.deadline ∧
      Campaign.validate env.now (newCampaign env user r) = true) := by
  by_cases hv : createCampaignValidation r = true
  · by_cases hd : r.deadline ≤ env.now
    · left
      unfold createCampaign
      simp [hv, hd]
    · by_cases hval : Campaign.validate env.now (newCampaign env user r) = true
      · right; right
        refine ⟨?_, hv, not_le.1 hd, hval⟩
        unfold createCampaign
        simp [hv, hd, hval]
      · have hval' : Campaign.validate env.now (newCampaign env user r) = false := by
          simpa using hval
        right; left
        refine ⟨?_, ?_, hv, not_le.1 hd, hval'⟩
        · unfold createCampaign
          simp [hv, hd, hval']
        · unfold createCampaign
          simp [hv, hd, hval']
  · left
    have hv' : createCampaignValidation r = false := by simpa using hv
    unfold createCampaign
    simp [hv']

/-- The schema validators reject the document of a request without category:
its category is the string `other`, which the enum does not contain. -/
theorem validate_newCampaign_without_category (env : Env) (user : Nat)
    (r : CreateCampaignBody) (hcat : r.category = none) :
    Campaign.validate env.now (newCampaign env user r) = false := by
  have hother : categoryEnum.contains "other" = false := by decide
  unfold Campaign.validate newCampaign
  simp only [hcat, Option.getD_none, hother, Bool.and_false, Bool.false_and]

/-! ## Lemmas on the first match of a collection -/

/-- The first match splits the list; the update rewrites exactly that position. -/
theorem updateFirst_of_find? {α : Type} (p : α → Bool) (f : α → α) (l : List α) (t : α)
    (h : l.find? p = some t) :
    ∃ l₁ l₂, l = l₁ ++ t :: l₂ ∧ (∀ x ∈ l₁, p x = false) ∧
      updateFirst p f l = l₁ ++ f t :: l₂ := by
  induction l with
  | nil => simp at h
  | cons x xs ih =>
    by_cases hx : p x = true
    · have hxt : x = t := by
        simpa [List.find?_cons, hx] using h
      subst hxt
      exact ⟨[], xs, rfl, by simp, by simp [updateFirst, hx]⟩
    · have hx' : p x = false := by simpa using hx
      have h' : xs.find? p = some t := by
        simpa [List.find?_cons, hx'] using h
      obtain ⟨l₁, l₂, h₁, h₂, h₃⟩ := ih h'
      refine ⟨x :: l₁, l₂, by simp [h₁], ?_, ?_⟩
      · intro y hy
        rcases List.mem_cons.mp hy with rfl | hy
        · exact hx'
        · exact h₂ y hy
      · simp [updateFirst, hx', h₃]

/-- Without a match the update is the identity. -/
theorem updateFirst_of_find?_none {α : Type} (p : α → Bool) (f : α → α) (l : List α)
    (h : l.find? p = none) : updateFirst p f l = l := by
  induction l with
  | nil => rfl
  | cons x xs ih =>
    by_cases hx : p x = true
    · simp [List.find?_cons, hx] at h
    · have hx' : p x = false := by simpa using hx
      have h' : xs.find? p = none := by
        simpa [List.find?_cons, hx'] using h
      simp [updateFirst, hx', ih h']

/-- An update that keeps a projection keeps the projected list. -/
theorem map_updateFirst {α β : Type} (p : α → Bool) (f : α → α) (g : α → β)
    (hg : ∀ x, g (f x) = g x) (l : List α) :
    (updateFirst p f l).map g = l.map g := by
  induction l with
  | nil => rfl
  | cons x xs ih =>
    by_cases hx : p x = true
    · simp [updateFirst, hx, hg]
    · have hx' : p x = false := by simpa using hx
      simp [updateFirst, hx', ih]

/-- The lookup result carries the id that was looked up. -/
theorem findById_id {cs : List Campaign} {id : Nat} {c : Campaign}
    (h : findById cs id = some c) : c.id = id := by
  have := List.find?_some h
  simpa using this

/-- The lookup result is a stored campaign. -/
theorem findById_mem {cs : List Campaign} {id : Nat} {c : Campaign}
    (h : findById cs id = some c) : c ∈ cs :=
  List.mem_of_find?_eq_some h

/-- Every stored campaign is found under some lookup of its id. -/
theorem findById_of_mem {cs : List Campaign} {c : Campaign} (h : c ∈ cs) :
    ∃ c', findById cs c.id = some c' := by
  cases hf : findById cs c.id with
  | some c' => exact ⟨c', rfl⟩
  | none =>
    have := List.find?_eq_none.mp hf c h
    simp at this

/-- With distinct ids the lookup of a stored campaign returns that campaign. -/
theorem findById_of_mem_nodup {cs : List Campaign} {c : Campaign}
    (hunique : (cs.map (fun c => c.id)).Nodup) (h : c ∈ cs) :
    findById cs c.id = some c := by
  induction cs with
  | nil => simp at h
  | cons x xs ih =>
    simp only [List.map_cons, List.nodup_cons, List.mem_map, not_exists, not_and] at hunique
    rcases List.mem_cons.mp h with rfl | hmem
    · simp [findById, List.find?_cons]
    · have hne : x.id ≠ c.id := fun he => hunique.1 c hmem he.symm
      have hb : (x.id == c.id) = false := by simpa using hne
      have := ih hunique.2 hmem
      simpa [findById, List.find?_cons, hb] using this

/-! ## Lemmas on the campaigns a request leaves in the store -/

/-- An element of the updated list is an element of the list or the image of
the first match. -/
theorem mem_updateFirst {α : Type} (p : α → Bool) (f : α → α) (l : List α) (x : α)
    (h : x ∈ updateFirst p f l) : x ∈ l ∨ ∃ y, l.find? p = some y ∧ x = f y := by
  cases hf : l.find? p with
  | none =>
    rw [updateFirst_of_find?_none p f l hf] at h
    exact Or.inl h
  | some t =>
    obtain ⟨l₁, l₂, h₁, _, h₃⟩ := updateFirst_of_find? p f l t hf
    rw [h₃] at h
    rcases List.mem_append.mp h with hm | hm
    · left; rw [h₁]; exact List.mem_append_left _ hm
    · rcases List.mem_cons.mp hm with rfl | hm
      · exact Or.inr ⟨t, rfl, rfl⟩
      · left; rw [h₁]; exact List.mem_append_right _ (List.mem_cons_of_mem _ hm)

/-- Two updates of the first match, the first keeping the test, are one. -/
theorem updateFirst_updateFirst {α : Type} (p : α → Bool) (f g : α → α)
    (hp : ∀ x, p x = true → p (f x) = true) (l : List α) :
    updateFirst p g (updateFirst p f l) = updateFirst p (fun x => g (f x)) l := by
  induction l with
  | nil => rfl
  | cons x xs ih =>
    by_cases hx : p x = true
    · simp [updateFirst, hx, hp x hx]
    · have hx' : p x = false := by simpa using hx
      simp [updateFirst, hx', ih]

/-- The campaigns after `createCampaign`. -/
theorem createCampaign_campaigns (env : Env) (user : Nat) (r : CreateCampaignBody)
    (s : State) :
    (createCampaign env user r s).2.campaigns = s.campaigns ∨
    (1 ≤ r.goalAmount ∧
      (createCampaign env user r s).2.campaigns = s.campaigns ++ [newCampaign env user r]) := by
  unfold createCampaign
  split
  · exact Or.inl rfl
  · rename_i hv
    split
    · exact Or.inl rfl
    · dsimp only
      split
      · exact Or.inl rfl
      · right
        refine ⟨?_, rfl⟩
        have hv' : createCampaignValidation r = true := by simpa using hv
        simp only [createCampaignValidation, Bool.and_eq_true, decide_eq_true_eq] at hv'
        exact hv'.1.2

/-- The campaigns after `updateCampaign`. -/
theorem updateCampaign_campaigns (caller : Caller) (id : Nat) (r : UpdateCampaignBody)
    (s : State) :
    (updateCampaign caller id r s).2.campaigns = s.campaigns ∨
    (updateCampaign caller id r s).2.campaigns
      = findByIdAndUpdate s.campaigns id (applyUpdateFields r) := by
  unfold updateCampaign
  split
  · exact Or.inl rfl
  · split
    · exact Or.inl rfl
    · split
      · exact Or.inl rfl
      · split
        · exact Or.inl rfl
        · exact Or.inr rfl

/-- The campaigns after `addCampaignUpdate`. -/
theorem addCampaignUpdate_campaigns (env : Env) (caller : Caller) (id : Nat)
    (r : CampaignUpdateBody) (s : State) :
    (addCampaignUpdate env caller id r s).2.campaigns = s.campaigns ∨
    (addCampaignUpdate env caller id r s).2.campaigns
      = findByIdAndUpdate s.campaigns id (unshiftUpdate env r) := by
  unfold addCampaignUpdate
  split
  · exact Or.inl rfl
  · split
    · exact Or.inl rfl
    · split
      · exact Or.inl rfl
      · split
        · exact Or.inl rfl
        · exact Or.inr rfl

/-- The campaigns after `updateCampaignStatus`. -/
theorem updateCampaignStatus_campaigns (caller : Caller) (id : Nat) (status : String)
    (s : State) :
    (updateCampaignStatus caller id status s).2.campaigns = s.campaigns ∨
    ∃ newStatus, Status.ofString? status = some newStatus ∧
      (updateCampaignStatus caller id status s).2.campaigns
        = findByIdAndUpdate s.campaigns id (fun c => { c with status := newStatus }) := by
  unfold updateCampaignStatus
  split
  · exact Or.inl rfl
  · split
    · exact Or.inl rfl
    · rename_i newStatus hs
      split
      · exact Or.inl rfl
      · exact Or.inr ⟨newStatus, hs, rfl⟩

/-- The campaigns after `deleteCampaign`. -/
theorem deleteCampaign_campaigns (caller : Caller) (id : Nat) (s : State) :
    (deleteCampaign caller id s).2 = s ∨
    ∃ c, findById s.campaigns id = some c ∧ c.currentAmount ≤ 0 ∧
      (deleteCampaign caller id s).1.code = 200 ∧
      (deleteCampaign caller id s).2.campaigns = s.campaigns.eraseP (fun c => c.id == id) := by
  unfold deleteCampaign
  split
  · exact Or.inl rfl
  · rename_i c hc
    split
    · exact Or.inl rfl
    · split
      · exact Or.inl rfl
      · rename_i hpos
        exact Or.inr ⟨c, hc, not_lt.1 hpos, rfl, rfl⟩

/-- The campaigns after an accepted confirm, by the goal test and the outcome
of the save. -/
theorem confirm_campaigns_of_accepted (env : Env) (user : Nat) (r : ConfirmBody) (s : State)
    (c : Campaign) (hv : confirmValidation r = true)
    (hd : Donation.findOne s.donations r.paymentIntentId = none)
    (hc : findById s.campaigns r.campaignId = some c)
    (hschema : Donation.validate (newDonation env user r) = true) :
    (c.goalAmount ≤ c.currentAmount + r.amount ∧
      Campaign.validate env.now (markCompleted (applyDonation env user r c)) = true ∧
      (confirm env user r s).2.campaigns
        = updateFirst (fun x => x.id == r.campaignId)
            (fun x => markCompleted (applyDonation env user r x)) s.campaigns) ∨
    (c.goalAmount ≤ c.currentAmount + r.amount ∧
      Campaign.validate env.now (markCompleted (applyDonation env user r c)) = false ∧
      (confirm env user r s).2.campaigns
        = updateFirst (fun x => x.id == r.campaignId) (applyDonation env user r) s.campaigns) ∨
    (c.currentAmount + r.amount < c.goalAmount ∧
      (confirm env user r s).2.campaigns
        = updateFirst (fun x => x.id == r.campaignId) (applyDonation env user r) s.campaigns) := by
  rw [confirm_eq_of_accepted env user r s c hv hd hc hschema]
  split
  · rename_i hge
    split
    · rename_i hval
      left
      refine ⟨hge, hval, ?_⟩
      show updateFirst _ markCompleted (updateFirst _ (applyDonation env user r) s.campaigns) = _
      exact updateFirst_updateFirst (fun x => x.id == r.campaignId)
        (applyDonation env user r) markCompleted (fun x hx => hx) s.campaigns
    · rename_i hval
      right; left
      exact ⟨hge, by simpa using hval, rfl⟩
  · rename_i hlt
    right; right
    exact ⟨not_le.1 hlt, rfl⟩

/-- One request that passes `keepsGoalStatus` keeps "every campaign that has
reached its goal is completed". -/
theorem applyOp_keeps_goal_status (op : Op) (s : State)
    (hinv : ∀ c ∈ s.campaigns, c.goalAmount ≤ c.currentAmount → c.status = Status.completed)
    (hok : keepsGoalStatus op s = true) :
    ∀ c ∈ (applyOp op s).campaigns, c.goalAmount ≤ c.currentAmount →
      c.status = Status.completed := by
  intro x hx hgoal
  cases op with
  | createCampaign env user r =>
    simp only [applyOp] at hx
    rcases createCampaign_campaigns env user r s with h | ⟨hg, h⟩
    · rw [h] at hx; exact hinv x hx hgoal
    · rw [h] at hx
      rcases List.mem_append.mp hx with hm | hm
      · exact hinv x hm hgoal
      · have hxe : x = newCampaign env user r := by simpa using hm
        subst hxe
        have h0 : (newCampaign env user r).goalAmount ≤ 0 := hgoal
        have h1 : (1 : ℚ) ≤ (newCampaign env user r).goalAmount := hg
        linarith
  | updateCampaign caller id r =>
    simp only [applyOp] at hx
    rcases updateCampaign_campaigns caller id r s with h | h
    · rw [h] at hx; exact hinv x hx hgoal
    · rw [h] at hx
      rcases mem_updateFirst _ _ _ _ hx with hm | ⟨y, hy, rfl⟩
      · exact hinv x hm hgoal
      · exact hinv y (List.mem_of_find?_eq_some hy) hgoal
  | deleteCampaign caller id =>
    simp only [applyOp] at hx
    rcases deleteCampaign_campaigns caller id s with h | ⟨c, _, _, _, h⟩
    · rw [h] at hx; exact hinv x hx hgoal
    · rw [h] at hx
      exact hinv x (List.mem_of_mem_eraseP hx) hgoal
  | addCampaignUpdate env caller id r =>
    simp only [applyOp] at hx
    rcases addCampaignUpdate_campaigns env caller id r s with h | h
    · rw [h] at hx; exact hinv x hx hgoal
    · rw [h] at hx
      rcases mem_updateFirst _ _ _ _ hx with hm | ⟨y, hy, rfl⟩
      · exact hinv x hm hgoal
      · exact hinv y (List.mem_of_find?_eq_some hy) hgoal
  | updateCampaignStatus caller id status =>
    simp only [applyOp] at hx
    rcases updateCampaignStatus_campaigns caller id status s with h | ⟨st, hst, h⟩
    · rw [h] at hx; exact hinv x hx hgoal
    · rw [h] at hx
      rcases mem_updateFirst _ _ _ _ hx with hm | ⟨y, hy, rfl⟩
      · exact hinv x hm hgoal
      · have hfind : findById s.campaigns id = some y := hy
        simp only [keepsGoalStatus, hfind, Bool.or_eq_true, decide_eq_true_eq,
          beq_iff_eq] at hok
        rcases hok with hlt | hcompleted
        · have hge : y.goalAmount ≤ y.currentAmount := hgoal
          exact absurd hlt (not_lt.2 hge)
        · subst hcompleted
          have hst' : st = Status.completed := by
            have : Status.ofString? "completed" = some Status.completed := by decide
            rw [this] at hst
            exact (Option.some.inj hst).symm
          rw [hst']
  | createPaymentIntent env r =>
    simp only [applyOp, createPaymentIntent_state] at hx
    exact hinv x hx hgoal
  | confirm env user r =>
    simp only [applyOp] at hx
    rcases confirm_cases env user r s with
      ⟨_, h, _⟩ | ⟨_, h, _⟩ | ⟨_, h, _⟩ | ⟨c, hv, hd, hc, hschema⟩
    · rw [h] at hx; exact hinv x hx hgoal
    · rw [h] at hx; exact hinv x hx hgoal
    · rw [h] at hx; exact hinv x hx hgoal
    · rcases confirm_campaigns_of_accepted env user r s c hv hd hc hschema with
        ⟨_, _, h⟩ | ⟨hge, hval, _⟩ | ⟨hlt, h⟩
      · rw [h] at hx
        rcases mem_updateFirst _ _ _ _ hx with hm | ⟨y, _, rfl⟩
        · exact hinv x hm hgoal
        · rfl
      · exfalso
        simp only [keepsGoalStatus, hc, hval, Bool.or_false, decide_eq_true_eq] at hok
        exact absurd hok (not_lt.2 hge)
      · rw [h] at hx
        rcases mem_updateFirst _ _ _ _ hx with hm | ⟨y, hy, rfl⟩
        · exact hinv x hm hgoal
        · have hfind : findById s.campaigns r.campaignId = some y := hy
          rw [hc] at hfind
          have hyc : c = y := Option.some.inj hfind
          subst hyc
          have hge : c.goalAmount ≤ c.currentAmount + r.amount := hgoal
          exact absurd hlt (not_lt.2 hge)
  | userRoute users =>
    simp only [applyOp] at hx
    exact hinv x hx hgoal

/-! ## Lemmas on the bookkeeping invariant -/

/-- The projected list after an update depends only on the projection of the
update. -/
theorem map_updateFirst_congr {α β : Type} (p : α → Bool) (f₁ f₂ : α → α) (g : α → β)
    (hg : ∀ x, g (f₁ x) = g (f₂ x)) (l : List α) :
    (updateFirst p f₁ l).map g = (updateFirst p f₂ l).map g := by
  induction l with
  | nil => rfl
  | cons x xs ih =>
    by_cases hx : p x = true
    · simp [updateFirst, hx, hg]
    · have hx' : p x = false := by simpa using hx
      simp [updateFirst, hx', ih]

/-- A non-empty list of donations of at least 1 each sums to at least 1. -/
theorem one_le_sum_amounts (l : List Donation) (hl : ∀ d ∈ l, 1 ≤ d.amount)
    (d : Donation) (hd : d ∈ l) : 1 ≤ (l.map (fun d => d.amount)).sum := by
  induction l with
  | nil => simp at hd
  | cons x xs ih =>
    simp only [List.map_cons, List.sum_cons]
    have hx : 1 ≤ x.amount := hl x (List.mem_cons_self _ _)
    have hnonneg : 0 ≤ (xs.map (fun d => d.amount)).sum := by
      apply List.sum_nonneg
      intro a ha
      obtain ⟨y, hy, rfl⟩ := List.mem_map.mp ha
      have := hl y (List.mem_cons_of_mem _ hy)
      linarith
    linarith

/-- The bookkeeping invariant reads only the ledger of the campaigns and the
donations. -/
theorem Consistent_of_ledger (s s' : State)
    (hl : s'.campaigns.map ledger = s.campaigns.map ledger)
    (hd : s'.donations = s.donations) (h : Consistent s) : Consistent s' := by
  obtain ⟨h1, h2, h3, h4⟩ := h
  have hids : s'.campaigns.map (fun c => c.id) = s.campaigns.map (fun c => c.id) := by
    have := congrArg (List.map Prod.fst) hl
    simpa [List.map_map, Function.comp, ledger] using this
  have hback : ∀ c' ∈ s'.campaigns, ∃ c ∈ s.campaigns, ledger c = ledger c' := by
    intro c' hc'
    have : ledger c' ∈ s.campaigns.map ledger := by
      rw [← hl]; exact List.mem_map_of_mem _ hc'
    obtain ⟨c, hc, hcl⟩ := List.mem_map.mp this
    exact ⟨c, hc, hcl⟩
  have hforth : ∀ c ∈ s.campaigns, ∃ c' ∈ s'.campaigns, ledger c' = ledger c := by
    intro c hc
    have : ledger c ∈ s'.campaigns.map ledger := by
      rw [hl]; exact List.mem_map_of_mem _ hc
    obtain ⟨c', hc', hcl⟩ := List.mem_map.mp this
    exact ⟨c', hc', hcl⟩
  refine ⟨by rw [hids]; exact h1, by rw [hd]; exact h2, ?_, ?_⟩
  · intro d hdm
    rw [hd] at hdm
    obtain ⟨c, hc, hcid⟩ := h3 d hdm
    obtain ⟨c', hc', hcl⟩ := hforth c hc
    refine ⟨c', hc', ?_⟩
    have : c'.id = c.id := congrArg Prod.fst hcl
    rw [this, hcid]
  · intro c' hc'
    obtain ⟨c, hc, hcl⟩ := hback c' hc'
    have hid : c.id = c'.id := congrArg Prod.fst hcl
    have hamt : c.currentAmount = c'.currentAmount := congrArg (fun t => t.2.1) hcl
    have hdon : c.donors = c'.donors := congrArg (fun t => t.2.2) hcl
    have := h4 c hc
    rw [hd, ← hid, ← hamt, ← hdon]
    exact this

/-- A created campaign with a fresh id keeps the bookkeeping invariant. -/
theorem Consistent_append_new (s : State) (us : List User) (env : Env) (user : Nat)
    (r : CreateCampaignBody) (h : Consistent s)
    (hfresh : ∀ c ∈ s.campaigns, c.id ≠ env.newId) :
    Consistent { campaigns := s.campaigns ++ [newCampaign env user r],
                 donations := s.donations, users := us } := by
  obtain ⟨h1, h2, h3, h4⟩ := h
  refine ⟨?_, h2, ?_, ?_⟩
  · simp only [List.map_append, List.map_cons, List.map_nil]
    rw [List.nodup_append]
    refine ⟨h1, List.nodup_singleton _, ?_⟩
    intro a ha hb
    obtain ⟨c, hc, rfl⟩ := List.mem_map.mp ha
    have : c.id = (newCampaign env user r).id := by simpa using hb
    exact hfresh c hc this
  · intro d hd
    obtain ⟨c, hc, hcid⟩ := h3 d hd
    exact ⟨c, List.mem_append_left _ hc, hcid⟩
  · intro c hc
    rcases List.mem_append.mp hc with hm | hm
    · exact h4 c hm
    · have hce : c = newCampaign env user r := by simpa using hm
      subst hce
      have hnone : donationsOf s.donations (newCampaign env user r).id = [] := by
        unfold donationsOf
        rw [List.filter_eq_nil_iff]
        intro d hd hdc
        obtain ⟨c, hc, hcid⟩ := h3 d hd
        have : d.campaign = env.newId := by simpa [newCampaign] using hdc
        exact hfresh c hc (hcid.trans this)
      show (0 : ℚ) = _ ∧ _
      rw [hnone]
      simp [newCampaign]

/-- Deleting a campaign that holds no money keeps the bookkeeping invariant. -/
theorem Consistent_eraseP (s : State) (us : List User) (id : Nat) (c : Campaign)
    (h : Consistent s) (hc : findById s.campaigns id = some c) (hzero : c.currentAmount ≤ 0) :
    Consistent { campaigns := s.campaigns.eraseP (fun c => c.id == id),
                 donations := s.donations, users := us } := by
  obtain ⟨h1, h2, h3, h4⟩ := h
  refine ⟨?_, h2, ?_, ?_⟩
  · exact h1.sublist ((List.eraseP_sublist _).map _)
  · intro d hd
    obtain ⟨c₀, hc₀, hcid⟩ := h3 d hd
    by_cases hid : c₀.id = id
    · exfalso
      have hfind := findById_of_mem_nodup h1 hc₀
      rw [hid, hc] at hfind
      have hcc : c = c₀ := Option.some.inj hfind
      subst hcc
      have hmem : d ∈ donationsOf s.donations c.id := by
        unfold donationsOf
        rw [List.mem_filter]
        exact ⟨hd, by simp [hcid]⟩
      have hsum := one_le_sum_amounts (donationsOf s.donations c.id)
        (fun x hx => h2 x (List.mem_of_mem_filter hx)) d hmem
      have := h4 c hc₀
      linarith [this.1, this.2.1]
    · refine ⟨c₀, ?_, hcid⟩
      rw [List.mem_eraseP_of_neg (by simpa using hid)]
      exact hc₀
  · intro x hx
    exact h4 x (List.mem_of_mem_eraseP hx)

/-- The three writes of an accepted confirm keep the bookkeeping invariant. -/
theorem Consistent_confirmWrites (env : Env) (user : Nat) (r : ConfirmBody) (s : State)
    (c : Campaign) (h : Consistent s) (hv : confirmValidation r = true)
    (hc : findById s.campaigns r.campaignId = some c) :
    Consistent (confirmWrites env user r s) := by
  obtain ⟨h1, h2, h3, h4⟩ := h
  have hamount : 1 ≤ r.amount := ((confirmValidation_iff r).mp hv).2.1
  have hfind : s.campaigns.find? (fun x => x.id == r.campaignId) = some c := hc
  obtain ⟨l₁, l₂, hsplit, hl₁, hupd⟩ :=
    updateFirst_of_find? (fun x => x.id == r.campaignId) (applyDonation env user r)
      s.campaigns c hfind
  have hcid : c.id = r.campaignId := findById_id hc
  have hids : (confirmWrites env user r s).campaigns.map (fun c => c.id)
      = s.campaigns.map (fun c => c.id) :=
    map_updateFirst (fun (x : Campaign) => x.id == r.campaignId) (applyDonation env user r)
      (fun c => c.id) (fun _ => rfl) s.campaigns
  have hother : ∀ x, x ∈ l₁ ∨ x ∈ l₂ → x ∈ s.campaigns ∧ x.id ≠ r.campaignId := by
    intro x hx
    rw [hsplit] at h1 ⊢
    simp only [List.map_append, List.map_cons] at h1
    rcases hx with hx | hx
    · refine ⟨List.mem_append_left _ hx, ?_⟩
      have := hl₁ x hx
      simpa using this
    · refine ⟨List.mem_append_right _ (List.mem_cons_of_mem _ hx), ?_⟩
      have hn := (List.nodup_append.mp h1).2.1
      have hnotin := (List.nodup_cons.mp hn).1
      intro hxid
      apply hnotin
      rw [hcid, ← hxid]
      exact List.mem_map_of_mem _ hx
  refine ⟨by rw [hids]; exact h1, ?_, ?_, ?_⟩
  · intro d hd
    rcases List.mem_append.mp hd with hm | hm
    · exact h2 d hm
    · have hde : d = newDonation env user r := by simpa using hm
      rw [hde]; exact hamount
  · intro d hd
    have hex : ∃ c₀ ∈ s.campaigns, c₀.id = d.campaign := by
      rcases List.mem_append.mp hd with hm | hm
      · exact h3 d hm
      · have hde : d = newDonation env user r := by simpa using hm
        rw [hde]
        exact ⟨c, findById_mem hc, hcid⟩
    obtain ⟨c₀, hc₀, hc₀id⟩ := hex
    have : c₀.id ∈ (confirmWrites env user r s).campaigns.map (fun c => c.id) := by
      rw [hids]; exact List.mem_map_of_mem _ hc₀
    obtain ⟨c', hc', hc'id⟩ := List.mem_map.mp this
    exact ⟨c', hc', hc'id.trans hc₀id⟩
  · intro x hx
    have hx' : x ∈ l₁ ++ applyDonation env user r c :: l₂ := by
      rw [← hupd]; exact hx
    have hcases : (x ∈ l₁ ∨ x ∈ l₂) ∨ x = applyDonation env user r c := by
      rcases List.mem_append.mp hx' with hm | hm
      · exact Or.inl (Or.inl hm)
      · rcases List.mem_cons.mp hm with hm | hm
        · exact Or.inr hm
        · exact Or.inl (Or.inr hm)
    rcases hcases with hm | hm
    · obtain ⟨hxs, hxid⟩ := hother x hm
      have hsame : donationsOf (confirmWrites env user r s).donations x.id
          = donationsOf s.donations x.id := by
        have hb : (r.campaignId == x.id) = false := by
          simpa using fun he : r.campaignId = x.id => hxid he.symm
        simp [donationsOf, confirmWrites, List.filter_append, newDonation, hb]
      rw [hsame]
      exact h4 x hxs
    · subst hm
      have hold := h4 c (findById_mem hc)
      have hnew : donationsOf (confirmWrites env user r s).donations
            (applyDonation env user r c).id
          = donationsOf s.donations c.id ++ [newDonation env user r] := by
        have hb : (r.campaignId == c.id) = true := by simp [hcid]
        simp [donationsOf, confirmWrites, List.filter_append, newDonation, hb,
          applyDonation]
      rw [hnew]
      simp only [applyDonation, newDonorEntry, newDonation, List.map_append, List.map_cons,
        List.map_nil, List.sum_append, List.sum_cons, List.sum_nil, List.length_append,
        List.length_cons, List.length_nil, add_zero]
      refine ⟨by rw [hold.1], by rw [hold.2.1], by rw [hold.2.2]⟩

/-- One request with a fresh campaign id keeps the bookkeeping invariant. -/
theorem applyOp_consistent (op : Op) (s : State) (h : Consistent s)
    (hfresh : freshId op s = true) : Consistent (applyOp op s) := by
  cases op with
  | createCampaign env user r =>
    simp only [applyOp]
    rcases createCampaign_cases env user r s with ⟨_, hs, _⟩ | ⟨_, hs, _⟩ | ⟨hs, _⟩
    · rw [hs]; exact h
    · rw [hs]; exact h
    · rw [hs]
      apply Consistent_append_new s _ env user r h
      intro c hc hid
      simp only [freshId, Bool.not_eq_true', List.any_eq_false, beq_iff_eq] at hfresh
      exact hfresh c hc hid
  | updateCampaign caller id r =>
    simp only [applyOp]
    refine Consistent_of_ledger s _ ?_ (updateCampaign_donations caller id r s) h
    rcases updateCampaign_campaigns caller id r s with hs | hs
    · rw [hs]
    · rw [hs]
      exact map_updateFirst (fun x => x.id == id) (applyUpdateFields r) ledger
        (fun _ => rfl) s.campaigns
  | deleteCampaign caller id =>
    simp only [applyOp]
    rcases deleteCampaign_campaigns caller id s with hs | ⟨c, hc, hzero, _, hs⟩
    · rw [hs]; exact h
    · have hcons := Consistent_eraseP s (deleteCampaign caller id s).2.users id c h hc hzero
      refine Consistent_of_ledger _ _ ?_ ?_ hcons
      · rw [hs]
      · exact deleteCampaign_donations caller id s
  | addCampaignUpdate env caller id r =>
    simp only [applyOp]
    refine Consistent_of_ledger s _ ?_ (addCampaignUpdate_donations env caller id r s) h
    rcases addCampaignUpdate_campaigns env caller id r s with hs | hs
    · rw [hs]
    · rw [hs]
      exact map_updateFirst (fun x => x.id == id) (unshiftUpdate env r) ledger
        (fun _ => rfl) s.campaigns
  | updateCampaignStatus caller id status =>
    simp only [applyOp]
    refine Consistent_of_ledger s _ ?_ (updateCampaignStatus_donations caller id status s) h
    rcases updateCampaignStatus_campaigns caller id status s with hs | ⟨st, _, hs⟩
    · rw [hs]
    · rw [hs]
      exact map_updateFirst (fun x => x.id == id) (fun c => { c with status := st }) ledger
        (fun _ => rfl) s.campaigns
  | createPaymentIntent env r =>
    simp only [applyOp, createPaymentIntent_state]
    exact h
  | confirm env user r =>
    simp only [applyOp]
    rcases confirm_cases env user r s with
      ⟨_, hs, _⟩ | ⟨_, hs, _⟩ | ⟨_, hs, _⟩ | ⟨c, hv, hd, hc, hschema⟩
    · rw [hs]; exact h
    · rw [hs]; exact h
    · rw [hs]; exact h
    · have hw := Consistent_confirmWrites env user r s c h hv hc
      refine Consistent_of_ledger _ _ ?_ ?_ hw
      · rcases confirm_campaigns_of_accepted env user r s c hv hd hc hschema with
          ⟨_, _, hs⟩ | ⟨_, _, hs⟩ | ⟨_, hs⟩
        · rw [hs]
          exact map_updateFirst_congr (fun x => x.id == r.campaignId)
            (fun x => markCompleted (applyDonation env user r x)) (applyDonation env user r)
            ledger (fun _ => rfl) s.campaigns
        · rw [hs]; rfl
        · rw [hs]; rfl
      · rw [confirm_donations_of_accepted env user r s c hv hd hc hschema]
        rfl
  | userRoute users =>
    simp only [applyOp]
    exact Consistent_of_ledger s _ rfl rfl h

/-- A run with fresh campaign ids from a store without campaigns and donations
ends in a store that satisfies the bookkeeping invariant. -/
theorem run_consistent (ops : List Op) (s₀ : State) (hc : s₀.campaigns = [])
    (hd : s₀.donations = []) (hfresh : runAll freshId ops s₀ = true) :
    Consistent (run ops s₀) := by
  have hgen : ∀ (ops : List Op) (s : State), Consistent s →
      runAll freshId ops s = true → Consistent (run ops s) := by
    intro ops
    induction ops with
    | nil => intro s h _; exact h
    | cons op rest ih =>
      intro s h hrun
      simp only [runAll, Bool.and_eq_true] at hrun
      exact ih (applyOp op s) (applyOp_consistent op s h hrun.1) hrun.2
  refine hgen ops s₀ ?_ hfresh
  refine ⟨by rw [hc]; exact List.nodup_nil, ?_, ?_, ?_⟩
  · intro d hdm; rw [hd] at hdm; exact absurd hdm (List.not_mem_nil d)
  · intro d hdm; rw [hd] at hdm; exact absurd hdm (List.not_mem_nil d)
  · intro c hcm; rw [hc] at hcm; exact absurd hcm (List.not_mem_nil c)

/-! ## C1: a confirm increments the campaign and appends one donor entry -/

/-- C1, as stated, fails in two ways, both with amount 5 (at least 1), a
paymentIntentId absent from the donation store and an existing campaign. With
a message of 501 characters the request is answered 400 by the validation
guard and the campaign keeps its currentAmount (0, not 0 + 5). With a message
of 300 characters U+1F600, which are 600 UTF-16 code units, the request passes
the validation guard, `Donation.create` rejects the record, the answer is 500
and nothing is written. -/
theorem confirm_increment_counterexample :
    (1 : ℚ) ≤ longMessageConfirm.amount ∧
    (∀ d ∈ demoState.donations, d.paymentIntentId ≠ longMessageConfirm.paymentIntentId) ∧
    findById demoState.campaigns longMessageConfirm.campaignId = some demoCampaign ∧
    confirm demoEnv 9 longMessageConfirm demoState
      = (⟨400, "Validation errors", none⟩, demoState) ∧
    demoCampaign.currentAmount ≠ demoCampaign.currentAmount + longMessageConfirm.amount ∧
    (1 : ℚ) ≤ emojiMessageConfirm.amount ∧
    (∀ d ∈ demoState.donations, d.paymentIntentId ≠ emojiMessageConfirm.paymentIntentId) ∧
    findById demoState.campaigns emojiMessageConfirm.campaignId = some demoCampaign ∧
    confirmValidation emojiMessageConfirm = true ∧
    confirm demoEnv 9 emojiMessageConfirm demoState
      = (⟨500, "Server error confirming donation", none⟩, demoState) ∧
    demoCampaign.currentAmount ≠ demoCampaign.currentAmount + emojiMessageConfirm.amount := by
  decide!

/-- C1 (amended): for every state in which campaignId resolves to campaign c and
every confirm request by user u that passes input validation and the Donation
schema validators (non-empty paymentIntentId, amount a at least 1, message,
when present, of at most 500 UTF-16 code units) and whose paymentIntentId is
not present in the donation store, after confirm the campaign's currentAmount
is its previous value plus a and its donor list is the previous list with
exactly one entry (user u, amount a, timestamp now, the request's anonymity
flag) appended at the end; the campaign collection keeps its length and every
campaign with another id is unchanged. -/
theorem confirm_increment (env : Env) (u : Nat) (r : ConfirmBody) (s : State)
    (c : Campaign)
    (hpid : r.paymentIntentId ≠ "")
    (hamount : 1 ≤ r.amount)
    (hmsg : ∀ m, r.message = some m → utf16Length m ≤ 500)
    (hfresh : ∀ d ∈ s.donations, d.paymentIntentId ≠ r.paymentIntentId)
    (hc : findById s.campaigns r.campaignId = some c) :
    (∃ c', findById (confirm env u r s).2.campaigns r.campaignId = some c' ∧
      c'.currentAmount = c.currentAmount + r.amount ∧
      c'.donors = c.donors ++
        [{ user := u, amount := r.amount, donatedAt := env.now,
           isAnonymous := r.isAnonymous.getD false }]) ∧
    (confirm env u r s).2.campaigns.length = s.campaigns.length ∧
    (∀ (i : Nat) (x : Campaign), s.campaigns[i]? = some x → x.id ≠ r.campaignId →
      (confirm env u r s).2.campaigns[i]? = some x) := by
  obtain ⟨hv, hschema⟩ := accepted_of_utf16 env u r hpid hamount hmsg
  have hd := (findOne_eq_none_iff s.donations r.paymentIntentId).2 hfresh
  refine ⟨?_, confirm_campaigns_frame env u r s⟩
  rcases confirm_findById_of_accepted env u r s c hv hd hc hschema with h | h
  · exact ⟨_, h, rfl, rfl⟩
  · exact ⟨_, h, rfl, rfl⟩

/-- Witness of C1 (amended): the confirm of 600 on the fixture campaign. -/
theorem confirm_increment_witness :
    ∃ c', findById (confirm demoEnv 9 demoConfirm demoState).2.campaigns 1 = some c' ∧
      c'.currentAmount = 0 + 600 ∧
      c'.donors = [] ++
        [{ user := 9, amount := 600, donatedAt := 10, isAnonymous := false }] :=
  (confirm_increment demoEnv 9 demoConfirm demoState demoCampaign
    (by decide) (by decide!) (by intro m hm; cases hm) (by decide) (by decide!)).1

/-! ## C2: the same paymentIntentId cannot be confirmed twice -/

/-- C2: after a first confirm that succeeded, be it answered 201 or, as the
handler answers 500 after its writes, one whose donation is in the store, a
second confirm with the same paymentIntentId (any caller, campaignId, amount,
time) is answered 400 and leaves the whole store, hence every campaign's
currentAmount, as the first confirm left it. -/
theorem confirm_twice_rejected (env env' : Env) (u u' : Nat) (r r' : ConfirmBody)
    (s : State)
    (hfirst : (confirm env u r s).1.code = 201 ∨
      ∃ d ∈ (confirm env u r s).2.donations, d.paymentIntentId = r.paymentIntentId)
    (hsame : r'.paymentIntentId = r.paymentIntentId) :
    (confirm env' u' r' (confirm env u r s).2).1.code = 400 ∧
    (confirm env' u' r' (confirm env u r s).2).2 = (confirm env u r s).2 ∧
    ∀ id, (findById (confirm env' u' r' (confirm env u r s).2).2.campaigns id).map
            (fun c => c.currentAmount)
        = (findById (confirm env u r s).2.campaigns id).map (fun c => c.currentAmount) := by
  have hdup : Donation.findOne (confirm env u r s).2.donations r'.paymentIntentId ≠ none := by
    rw [hsame]
    intro hnone
    rcases hfirst with hcode | ⟨d, hd, hp⟩
    · rcases confirm_cases env u r s with h | h | h | ⟨c, hv, hd, hc, hschema⟩
      · rw [h.1] at hcode; exact absurd hcode (by decide)
      · rw [h.1] at hcode; exact absurd hcode (by decide)
      · rw [h.1] at hcode; exact absurd hcode (by decide)
      · rw [confirm_code_of_accepted env u r s c hv hd hc hschema] at hcode
        exact absurd hcode (by decide)
    · exact (findOne_eq_none_iff _ _).1 hnone d hd hp
  have h := confirm_of_duplicate env' u' r' (confirm env u r s).2 hdup
  exact ⟨h.1, h.2, fun id => by rw [h.2]⟩

/-- Witness of C2: the fixture confirm, which stores its donation and is
answered 500, repeated with another amount. -/
theorem confirm_twice_rejected_witness :
    (confirm demoEnv 9 demoConfirm demoState).1.code = 500 ∧
    (confirm demoEnv 9 demoConfirm demoState).2.donations.map
        (fun d => (d.paymentIntentId, d.amount)) = [("pi_test_1", 600)] ∧
    (confirm fundingEnv 7 repeatedConfirm
        (confirm demoEnv 9 demoConfirm demoState).2).1.code = 400 ∧
    (confirm fundingEnv 7 repeatedConfirm (confirm demoEnv 9 demoConfirm demoState).2).2
      = (confirm demoEnv 9 demoConfirm demoState).2 :=
  ⟨by decide!, by decide!,
    (confirm_twice_rejected demoEnv fundingEnv 9 7 demoConfirm repeatedConfirm demoState
      (Or.inr (by decide!)) rfl).1,
    (confirm_twice_rejected demoEnv fundingEnv 9 7 demoConfirm repeatedConfirm demoState
      (Or.inr (by decide!)) rfl).2.1⟩

/-! ## C3: rejected confirms leave the store unchanged -/

/-- C3, as stated, fails: a confirm whose paymentIntentId is fresh and whose
campaignId resolves to no campaign, but whose amount is 0, is answered 400 by
the validation guard, not 404. -/
theorem confirm_rejection_counterexample :
    (∀ d ∈ demoState.donations, d.paymentIntentId ≠ zeroAmountConfirm.paymentIntentId) ∧
    findById demoState.campaigns zeroAmountConfirm.campaignId = none ∧
    (confirm demoEnv 9 zeroAmountConfirm demoState).1.code = 400 ∧
    (confirm demoEnv 9 zeroAmountConfirm demoState).1.code ≠ 404 := by
  decide!

/-- C3 (amended): a confirm request that is rejected leaves all state
unchanged: it returns 400 when its paymentIntentId matches an existing donation
or when it fails input validation (these checks taking precedence), otherwise,
for a request that passes validation, 404 when campaignId resolves to no
campaign, and in every such case the whole store is identical before and
after; only otherwise does it return 201. -/
theorem confirm_rejection (env : Env) (u : Nat) (r : ConfirmBody) (s : State) :
    ((∃ d ∈ s.donations, d.paymentIntentId = r.paymentIntentId) →
      (confirm env u r s).1.code = 400 ∧ (confirm env u r s).2 = s) ∧
    (confirmValidation r = false →
      (confirm env u r s).1.code = 400 ∧ (confirm env u r s).2 = s) ∧
    (confirmValidation r = true →
      (∀ d ∈ s.donations, d.paymentIntentId ≠ r.paymentIntentId) →
      findById s.campaigns r.campaignId = none →
      (confirm env u r s).1.code = 404 ∧ (confirm env u r s).2 = s) ∧
    ((confirm env u r s).1.code = 400 ∨ (confirm env u r s).1.code = 404 →
      (confirm env u r s).2 = s) ∧
    ((confirm env u r s).1.code = 201 →
      confirmValidation r = true ∧
      (∀ d ∈ s.donations, d.paymentIntentId ≠ r.paymentIntentId) ∧
      ∃ c, findById s.campaigns r.campaignId = some c) := by
  refine ⟨?_, ?_, ?_, ?_, ?_⟩
  · rintro ⟨d, hd, hp⟩
    apply confirm_of_duplicate
    intro hnone
    exact (findOne_eq_none_iff _ _).1 hnone d hd hp
  · intro hv
    unfold confirm
    simp [hv]
  · intro hv hfresh hc
    have hd := (findOne_eq_none_iff s.donations r.paymentIntentId).2 hfresh
    unfold confirm
    simp [hv, hd, hc]
  · intro hcode
    rcases confirm_cases env u r s with h | h | h | ⟨c, hv, hd, hc, hschema⟩
    · exact h.2.1
    · exact h.2.1
    · exact h.2.1
    · exfalso
      rw [confirm_code_of_accepted env u r s c hv hd hc hschema] at hcode
      rcases hcode with hcode | hcode <;> exact absurd hcode (by decide)
  · intro hcode
    rcases confirm_cases env u r s with h | h | h | ⟨c, hv, hd, hc, _⟩
    · rw [h.1] at hcode; exact absurd hcode (by decide)
    · rw [h.1] at hcode; exact absurd hcode (by decide)
    · rw [h.1] at hcode; exact absurd hcode (by decide)
    · exact ⟨hv, (findOne_eq_none_iff _ _).1 hd, c, hc⟩

/-! ## C4: reaching the goal completes the campaign -/

/-- C4 on the code: every confirm that passes the request validation, the
duplicate check, the campaign lookup and the Donation schema validators, and
brings the campaign to its goal, is answered 500 after its writes, not 201. The
campaign reads back with the increment; its status is completed when the
document passes the schema validators at the save, and then stays completed
under every sequence of further confirm requests; when the document fails
them, the status is the one the campaign had. -/
theorem confirm_completes_at_goal (env : Env) (u : Nat) (r : ConfirmBody) (s : State)
    (c : Campaign) (hv : confirmValidation r = true)
    (hd : Donation.findOne s.donations r.paymentIntentId = none)
    (hc : findById s.campaigns r.campaignId = some c)
    (hschema : Donation.validate (newDonation env u r) = true)
    (hge : c.goalAmount ≤ c.currentAmount + r.amount) :
    (confirm env u r s).1.code = 500 ∧
    ∃ c', findById (confirm env u r s).2.campaigns r.campaignId = some c' ∧
      c'.currentAmount = c.currentAmount + r.amount ∧
      c'.goalAmount ≤ c'.currentAmount ∧
      (Campaign.validate env.now (markCompleted (applyDonation env u r c)) = true →
        c'.status = Status.completed ∧
        ∀ further : List (Env × Nat × ConfirmBody),
          ∃ c'', findById (confirmAll further (confirm env u r s).2).campaigns r.campaignId
                = some c'' ∧ c''.status = Status.completed) ∧
      (Campaign.validate env.now (markCompleted (applyDonation env u r c)) = false →
        c'.status = c.status) := by
  refine ⟨confirm_code_of_accepted env u r s c hv hd hc hschema, ?_⟩
  cases hval : Campaign.validate env.now c with
  | true =>
    have hfind := confirm_reaching_goal env u r s c hv hd hc hschema hge hval
    refine ⟨_, hfind, rfl, hge, ?_, ?_⟩
    · intro _
      exact ⟨rfl, fun further =>
        confirmAll_keeps_completed further _ r.campaignId _ hfind rfl⟩
    · intro h
      rw [validate_markCompleted_applyDonation, hval] at h
      exact absurd h (by simp)
  | false =>
    have hfind := confirm_save_rejected env u r s c hv hd hc hschema hge hval
    refine ⟨_, hfind, rfl, hge, ?_, fun _ => rfl⟩
    intro h
    rw [validate_markCompleted_applyDonation, hval] at h
    exact absurd h (by simp)

/-- C4 at two inputs. The confirm of the whole goal on the fixture campaign
(deadline ahead) stores the donation, completes the campaign and is answered
500. The same confirm on the campaign with the deadline passed is answered 500
and leaves the campaign at its goal with status active. -/
theorem confirm_completes_at_goal_witness :
    ((confirm demoEnv 9 goalConfirm demoState).1.code = 500 ∧
      ∃ c', findById (confirm demoEnv 9 goalConfirm demoState).2.campaigns 1 = some c' ∧
        c'.currentAmount = 1000 ∧ c'.goalAmount ≤ c'.currentAmount ∧
        c'.status = Status.completed) ∧
    ((confirm demoEnv 9 goalConfirm overdueState).1.code = 500 ∧
      ∃ c', findById (confirm demoEnv 9 goalConfirm overdueState).2.campaigns 1 = some c' ∧
        c'.currentAmount = 1000 ∧ c'.goalAmount ≤ c'.currentAmount ∧
        c'.status = Status.active) := by
  constructor
  · obtain ⟨hcode, c', h1, h2, h3, h4, _⟩ :=
      confirm_completes_at_goal demoEnv 9 goalConfirm demoState demoCampaign
        (by decide!) (by decide!) (by decide!) (by decide!) (by decide!)
    refine ⟨hcode, c', h1, ?_, h3, (h4 (by decide!)).1⟩
    rw [h2]; decide!
  · obtain ⟨hcode, c', h1, h2, h3, _, h5⟩ :=
      confirm_completes_at_goal demoEnv 9 goalConfirm overdueState overdueCampaign
        (by decide!) (by decide!) (by decide!) (by decide!) (by decide!)
    refine ⟨hcode, c', h1, ?_, h3, ?_⟩
    · rw [h2]; decide!
    · rw [h5 (by decide!)]; rfl

/-! ## C5: the 600 + 500 scenario -/

/-- C5 on the code, at two stores whose campaign 1 has goalAmount 1000,
currentAmount 0 and status active. With the deadline (5000) ahead of the two
requests (times 10 and 20), the confirm of 600 yields currentAmount 600,
progressPercentage 60 and status active, and the confirm of 500 yields 1100,
100 and status completed. With the deadline (5) passed, the confirm of 600
yields the same, and the confirm of 500 yields 1100 and 100 with the status
still active. -/
theorem scenario_600_then_500 :
    (demoCampaign.goalAmount, demoCampaign.currentAmount, demoCampaign.status)
      = (1000, 0, Status.active) ∧
    (findById (confirm demoEnv 9 demoConfirm demoState).2.campaigns 1).map
        (fun c => (c.currentAmount, c.progressPercentage, c.status))
      = some (600, 60, Status.active) ∧
    (findById (confirm fundingEnv 9 secondConfirm
        (confirm demoEnv 9 demoConfirm demoState).2).2.campaigns 1).map
        (fun c => (c.currentAmount, c.progressPercentage, c.status))
      = some (1100, 100, Status.completed) ∧
    (overdueCampaign.goalAmount, overdueCampaign.currentAmount, overdueCampaign.status)
      = (1000, 0, Status.active) ∧
    (findById (confirm demoEnv 9 demoConfirm overdueState).2.campaigns 1).map
        (fun c => (c.currentAmount, c.progressPercentage, c.status))
      = some (600, 60, Status.active) ∧
    (findById (confirm fundingEnv 9 secondConfirm
        (confirm demoEnv 9 demoConfirm overdueState).2).2.campaigns 1).map
        (fun c => (c.currentAmount, c.progressPercentage, c.status))
      = some (1100, 100, Status.active) := by
  decide!

/-! ## C6: progressPercentage stays within 0 and 100 -/

/-- C6: for every campaign with goalAmount at least 1 and currentAmount at
least 0, progressPercentage is min(currentAmount / goalAmount * 100, 100), lies
between 0 and 100, and is exactly 100 whenever currentAmount is at least
goalAmount, however large currentAmount is. -/
theorem progressPercentage_range (c : Campaign) (hgoal : 1 ≤ c.goalAmount)
    (hcur : 0 ≤ c.currentAmount) :
    c.progressPercentage = min (c.currentAmount / c.goalAmount * 100) 100 ∧
    0 ≤ c.progressPercentage ∧
    c.progressPercentage ≤ 100 ∧
    (c.goalAmount ≤ c.currentAmount → c.progressPercentage = 100) := by
  have hpos : 0 < c.goalAmount := lt_of_lt_of_le one_pos hgoal
  refine ⟨rfl, ?_, ?_, ?_⟩
  · unfold Campaign.progressPercentage
    apply le_min
    · exact mul_nonneg (div_nonneg hcur hpos.le) (by norm_num)
    · norm_num
  · unfold Campaign.progressPercentage
    exact min_le_right _ _
  · intro hge
    unfold Campaign.progressPercentage
    apply min_eq_right
    have h1 : 1 ≤ c.currentAmount / c.goalAmount := (one_le_div hpos).2 hge
    linarith

/-- Witness of C6: a campaign that raised 250000 against a goal of 1000. -/
theorem progressPercentage_range_witness :
    ({ demoCampaign with currentAmount := 250000 } : Campaign).progressPercentage = 100 :=
  (progressPercentage_range { demoCampaign with currentAmount := 250000 }
    (by decide!) (by decide!)).2.2.2 (by decide!)

/-! ## C7: daysRemaining is never negative -/

/-- C7: for every deadline and current time in integer milliseconds, the
Campaign virtual daysRemaining and the frontend helper getDaysRemaining equal
max(ceil((deadline - now) / 86400000), 0), are never negative, and are 0 for
every deadline at or before the current time. -/
theorem daysRemaining_nonneg (c : Campaign) (deadline now : Int) :
    (c.daysRemaining now = max (Int.ceil (((c.deadline - now : Int) : ℚ) / 86400000)) 0 ∧
      0 ≤ c.daysRemaining now ∧
      (c.deadline ≤ now → c.daysRemaining now = 0)) ∧
    (getDaysRemaining deadline now
        = max (Int.ceil (((deadline - now : Int) : ℚ) / 86400000)) 0 ∧
      0 ≤ getDaysRemaining deadline now ∧
      (deadline ≤ now → getDaysRemaining deadline now = 0)) := by
  have key : ∀ d : Int, d ≤ now →
      max (Int.ceil (((d - now : Int) : ℚ) / (1000 * 3600 * 24))) 0 = 0 := by
    intro d hd
    apply max_eq_right
    rw [Int.ceil_le]
    have h : ((d - now : Int) : ℚ) ≤ 0 := by exact_mod_cast sub_nonpos.2 hd
    have := div_nonpos_of_nonpos_of_nonneg h (by norm_num : (0 : ℚ) ≤ 1000 * 3600 * 24)
    simpa using this
  refine ⟨⟨?_, ?_, ?_⟩, ?_, ?_, ?_⟩
  · unfold Campaign.daysRemaining; norm_num
  · unfold Campaign.daysRemaining; exact le_max_right _ _
  · intro h; unfold Campaign.daysRemaining; exact key c.deadline h
  · unfold getDaysRemaining; norm_num
  · unfold getDaysRemaining; exact le_max_right _ _
  · intro h; unfold getDaysRemaining; exact key deadline h

/-! ## C8: size of a page of the campaign listing -/

/-- C8, as stated, fails: on a store with one matching campaign, page 3 with
limit 2 has skip 4 and returns 0 items with total 1, so
skip + returned.length = 4 exceeds total = 1. -/
theorem getCampaigns_page_counterexample :
    (getCampaigns (fun _ => none) pageThreeQuery demoState).data.map
        (fun l => (l.campaigns.length, l.pagination.totalCampaigns)) = some (0, 1) ∧
    ¬ ((3 - 1) * 2 + 0 ≤ 1) := by
  decide!

/-- C8 (amended): for every page N at least 1 and limit L at least 1 (given or
defaulted to 1 and 10) and every query the database accepts (its search
string, if any, is a valid regular expression), the campaign listing answers
200 with the sorted matching list with skip = (N-1)*L entries dropped and at
most L taken; it returns at most L items, exactly
min(L, max(total - skip, 0)) of them, and skip + returned.length is at most
total whenever skip is at most total. -/
theorem getCampaigns_page (engine : RegexEngine) (q : CampaignQuery)
    (s : State) (hN : 1 ≤ q.page.getD 1) (hL : 1 ≤ q.limit.getD 10)
    (hsearch : searchRejected engine q.search = false) :
    ∃ l, getCampaigns engine q s = ⟨200, "", some l⟩ ∧
      l.campaigns =
        (((s.campaigns.filter (campaignQueryMatches (regexTest engine) q)).insertionSort
            (fun a b => campaignSortLe (q.sortBy.getD "createdAt")
              (q.order.getD "desc") a b = true)).drop
          ((q.page.getD 1 - 1) * q.limit.getD 10).toNat).take (q.limit.getD 10).toNat ∧
      l.pagination.totalCampaigns
        = (s.campaigns.filter (campaignQueryMatches (regexTest engine) q)).length ∧
      (l.campaigns.length : Int) ≤ q.limit.getD 10 ∧
      (l.campaigns.length : Int)
        = min (q.limit.getD 10)
            (max ((l.pagination.totalCampaigns : Int)
              - (q.page.getD 1 - 1) * q.limit.getD 10) 0) ∧
      ((q.page.getD 1 - 1) * q.limit.getD 10 ≤ (l.pagination.totalCampaigns : Int) →
        (q.page.getD 1 - 1) * q.limit.getD 10 + (l.campaigns.length : Int)
          ≤ (l.pagination.totalCampaigns : Int)) := by
  have hskip : 0 ≤ (q.page.getD 1 - 1) * q.limit.getD 10 :=
    mul_nonneg (by omega) (by omega)
  have hlen := length_page
    ((s.campaigns.filter (campaignQueryMatches (regexTest engine) q)).insertionSort
      (fun a b => campaignSortLe (q.sortBy.getD "createdAt") (q.order.getD "desc") a b = true))
    ((q.page.getD 1 - 1) * q.limit.getD 10) (q.limit.getD 10) hskip hL
  rw [List.length_insertionSort] at hlen
  unfold getCampaigns
  simp only [if_neg (not_lt.2 hskip), hsearch, Bool.false_eq_true, if_false]
  refine ⟨_, rfl, page_eq_take_drop _ _ _ hL, rfl, ?_, hlen, ?_⟩
  · show ((applyLimit _ (applySkip _ _)).length : Int) ≤ _
    rw [hlen]; exact min_le_left _ _
  · intro hle
    show _ + ((applyLimit _ (applySkip _ _)).length : Int) ≤ _
    rw [hlen]
    change (q.page.getD 1 - 1) * q.limit.getD 10
      ≤ ((s.campaigns.filter (campaignQueryMatches (regexTest engine) q)).length : Int) at hle
    generalize (q.page.getD 1 - 1) * q.limit.getD 10 = skip at hle hskip
    generalize ((s.campaigns.filter (campaignQueryMatches (regexTest engine) q)).length : Int) = total at hle
    have : min (q.limit.getD 10) (max (total - skip) 0) ≤ total - skip := by
      rw [max_eq_left (by omega)]; exact min_le_right _ _
    omega

/-- Witness of C8 (amended): page 1 with limit 2 on the fixture store. -/
theorem getCampaigns_page_witness :
    ∃ l, getCampaigns (fun _ => none) { pageThreeQuery with page := some 1 } demoState
        = ⟨200, "", some l⟩ ∧ (l.campaigns.length : Int) ≤ 2 := by
  obtain ⟨l, h, _, _, hlen, _⟩ := getCampaigns_page (fun _ => none)
    { pageThreeQuery with page := some 1 } demoState (by decide) (by decide) (by decide)
  exact ⟨l, h, hlen⟩

/-! ## C9: a page beyond the last one is empty -/

/-- C9: for every limit L at least 1, every number total of matching entities
(of a query the database accepts) and every page N greater than
totalPages = ceil(total / L), the campaign listing and the listing of a
campaign's donations answer 200 with an empty sequence, totalPages equal to
ceil(total / L) and the total count equal to total; for the campaign listing
both are the values page 1 reports. -/
theorem listing_beyond_last_page (engine : RegexEngine) (q : CampaignQuery)
    (campaignId : Nat) (pq : PageQuery) (s : State) :
    (searchRejected engine q.search = false →
      1 ≤ q.limit.getD 10 →
      Int.ceil (((s.campaigns.filter (campaignQueryMatches (regexTest engine) q)).length : ℚ)
        / (q.limit.getD 10 : ℚ)) < q.page.getD 1 →
      ∃ l, getCampaigns engine q s = ⟨200, "", some l⟩ ∧
        l.campaigns = [] ∧
        l.pagination.totalPages
          = some (Int.ceil (((s.campaigns.filter (campaignQueryMatches (regexTest engine) q)).length : ℚ)
              / (q.limit.getD 10 : ℚ))) ∧
        l.pagination.totalCampaigns
          = (s.campaigns.filter (campaignQueryMatches (regexTest engine) q)).length ∧
        ∃ l₁, getCampaigns engine { q with page := some 1 } s = ⟨200, "", some l₁⟩ ∧
          l₁.pagination.totalPages = l.pagination.totalPages ∧
          l₁.pagination.totalCampaigns = l.pagination.totalCampaigns) ∧
    (1 ≤ pq.limit.getD 10 →
      Int.ceil (((s.donations.filter (fun d =>
          d.campaign == campaignId && d.paymentStatus == PaymentStatus.succeeded)).length : ℚ)
        / (pq.limit.getD 10 : ℚ)) < pq.page.getD 1 →
      ∃ l, getCampaignDonations campaignId pq s = ⟨200, "", some l⟩ ∧
        l.donations = [] ∧
        l.pagination.totalPages
          = some (Int.ceil (((s.donations.filter (fun d =>
              d.campaign == campaignId
                && d.paymentStatus == PaymentStatus.succeeded)).length : ℚ)
              / (pq.limit.getD 10 : ℚ))) ∧
        l.pagination.totalDonations
          = (s.donations.filter (fun d =>
              d.campaign == campaignId
                && d.paymentStatus == PaymentStatus.succeeded)).length) := by
  constructor
  · intro hsearch hL hN
    have hL0 : q.limit.getD 10 ≠ 0 := by omega
    have htot := total_le_skip_of_beyond _ _ _ hL hN
    have hskip : ¬ (q.page.getD 1 - 1) * q.limit.getD 10 < 0 := by omega
    have hempty : applyLimit (q.limit.getD 10)
        (applySkip ((q.page.getD 1 - 1) * q.limit.getD 10)
          ((s.campaigns.filter (campaignQueryMatches (regexTest engine) q)).insertionSort
            (fun a b => campaignSortLe (q.sortBy.getD "createdAt")
              (q.order.getD "desc") a b = true))) = [] := by
      apply List.eq_nil_of_length_eq_zero
      have h := length_page
        ((s.campaigns.filter (campaignQueryMatches (regexTest engine) q)).insertionSort
          (fun a b => campaignSortLe (q.sortBy.getD "createdAt")
            (q.order.getD "desc") a b = true))
        ((q.page.getD 1 - 1) * q.limit.getD 10) (q.limit.getD 10) (by omega) hL
      rw [List.length_insertionSort] at h
      omega
    unfold getCampaigns
    simp only [if_neg hskip, hsearch, Bool.false_eq_true, if_false]
    refine ⟨_, rfl, hempty, ?_, rfl, ?_⟩
    · simp only [totalPages, if_neg hL0]
    · have hfirst : ¬ ((({ q with page := some 1 } : CampaignQuery).page.getD 1 - 1)
          * ({ q with page := some 1 } : CampaignQuery).limit.getD 10 < 0) := by
        simp
      simp only [if_neg hfirst]
      exact ⟨_, rfl, rfl, rfl⟩
  · intro hL hN
    have hL0 : pq.limit.getD 10 ≠ 0 := by omega
    have htot := total_le_skip_of_beyond _ _ _ hL hN
    have hskip : ¬ (pq.page.getD 1 - 1) * pq.limit.getD 10 < 0 := by omega
    have hempty : applyLimit (pq.limit.getD 10)
        (applySkip ((pq.page.getD 1 - 1) * pq.limit.getD 10)
          ((s.donations.filter (fun d =>
              d.campaign == campaignId
                && d.paymentStatus == PaymentStatus.succeeded)).insertionSort
            (fun a b => a.createdAt ≥ b.createdAt))) = [] := by
      apply List.eq_nil_of_length_eq_zero
      have h := length_page
        ((s.donations.filter (fun d =>
            d.campaign == campaignId
              && d.paymentStatus == PaymentStatus.succeeded)).insertionSort
          (fun a b => a.createdAt ≥ b.createdAt))
        ((pq.page.getD 1 - 1) * pq.limit.getD 10) (pq.limit.getD 10) (by omega) hL
      rw [List.length_insertionSort] at h
      omega
    unfold getCampaignDonations
    simp only [if_neg hskip, hempty, List.map_nil]
    refine ⟨_, rfl, rfl, ?_, rfl⟩
    simp only [totalPages, if_neg hL0]

/-- Witness of C9: page 3 with limit 2 on the fixture store (one matching
campaign, totalPages 1), and page 2 of the donations of campaign 1 (none). -/
theorem listing_beyond_last_page_witness :
    (∃ l, getCampaigns (fun _ => none) pageThreeQuery demoState = ⟨200, "", some l⟩ ∧
      l.campaigns = []) ∧
    (∃ l, getCampaignDonations 1 ⟨some 2, none⟩ demoState = ⟨200, "", some l⟩ ∧
      l.donations = []) := by
  have h := listing_beyond_last_page (fun _ => none) pageThreeQuery 1 ⟨some 2, none⟩
    demoState
  obtain ⟨l, h1, h2, _⟩ := h.1 (by decide) (by decide) (by decide!)
  obtain ⟨l', h1', h2', _⟩ := h.2 (by decide) (by decide!)
  exact ⟨⟨l, h1, h2⟩, ⟨l', h1', h2'⟩⟩

/-! ## C10: outcomes of create-payment-intent -/

/-- C10, as stated, fails: for an active campaign whose deadline equals the
current time (so the deadline is not strictly in the future), a validated
create-payment-intent request is answered 200, not 400. -/
theorem createPaymentIntent_deadline_counterexample :
    createPaymentIntentValidation ⟨1, 5, none⟩ = true ∧
    findById demoState.campaigns 1 = some demoCampaign ∧
    demoCampaign.status = Status.active ∧
    ¬ (demoCampaign.deadline > 5000) ∧
    (createPaymentIntent ⟨5000, 100, "k3j9x0q1z"⟩ ⟨1, 5, none⟩ demoState).1.code = 200 := by
  decide!

/-- C10 (amended): for every validated create-payment-intent request the
result is 404 if campaignId resolves to no campaign; otherwise 400 if the
campaign's status is not active; otherwise 400 if the current time is strictly
after the deadline (now > deadline); otherwise (deadline at or after now) 200
with a clientSecret / paymentIntentId pair; and in every case the store is
returned unchanged. -/
theorem createPaymentIntent_outcomes (env : Env) (r : PaymentIntentBody) (s : State)
    (hv : createPaymentIntentValidation r = true) :
    (createPaymentIntent env r s).2 = s ∧
    (findById s.campaigns r.campaignId = none →
      (createPaymentIntent env r s).1.code = 404) ∧
    (∀ c, findById s.campaigns r.campaignId = some c → c.status ≠ Status.active →
      (createPaymentIntent env r s).1.code = 400) ∧
    (∀ c, findById s.campaigns r.campaignId = some c → c.status = Status.active →
      env.now > c.deadline → (createPaymentIntent env r s).1.code = 400) ∧
    (∀ c, findById s.campaigns r.campaignId = some c → c.status = Status.active →
      env.now ≤ c.deadline →
      (createPaymentIntent env r s).1.code = 200 ∧
      ∃ p, (createPaymentIntent env r s).1.data = some p ∧
        p.clientSecret = "pi_test_secret_" ++ p.paymentIntentId) := by
  refine ⟨?_, ?_, ?_, ?_, ?_⟩
  · unfold createPaymentIntent
    split
    · rfl
    · split
      · rfl
      · split
        · rfl
        · split <;> rfl
  · intro hc
    unfold createPaymentIntent
    simp [hv, hc]
  · intro c hc hs
    unfold createPaymentIntent
    simp [hv, hc, hs]
  · intro c hc hs hlate
    unfold createPaymentIntent
    simp [hv, hc, hs, hlate]
  · intro c hc hs hle
    have hnot : ¬ env.now > c.deadline := not_lt.2 hle
    unfold createPaymentIntent
    simp [hv, hc, hs, hnot]

/-- Witness of C10 (amended): a request of 5 on the fixture campaign at time 10. -/
theorem createPaymentIntent_outcomes_witness :
    (createPaymentIntent demoEnv ⟨1, 5, none⟩ demoState).1.code = 200 :=
  ((createPaymentIntent_outcomes demoEnv ⟨1, 5, none⟩ demoState (by decide!)).2.2.2.2
    demoCampaign (by decide!) (by decide!) (by decide!)).1

/-! ## C11: inserted donations are succeeded -/

/-- C11: a confirm either leaves the donation store as it was or appends
exactly one record, and that record has paymentStatus succeeded, donor = the
authenticated caller, campaign = the request's campaignId, amount = the
request's amount and paymentIntentId = the request's paymentIntentId; the
outcome does not depend on a paymentStatus carried by the request body; hence
in every state reached from an empty donation store by any sequence of API
requests every stored donation has paymentStatus succeeded. -/
theorem confirm_forces_succeeded :
    (∀ (env : Env) (u : Nat) (r : ConfirmBody) (s : State),
      ((confirm env u r s).2.donations = s.donations ∨
        ∃ d, (confirm env u r s).2.donations = s.donations ++ [d] ∧
          d.paymentStatus = PaymentStatus.succeeded ∧ d.donor = u ∧
          d.campaign = r.campaignId ∧ d.amount = r.amount ∧
          d.paymentIntentId = r.paymentIntentId) ∧
      ∀ supplied : Option String,
        confirm env u { r with paymentStatus := supplied } s = confirm env u r s) ∧
    (∀ (s₀ : State) (ops : List Op), s₀.donations = [] →
      ∀ d ∈ (run ops s₀).donations, d.paymentStatus = PaymentStatus.succeeded) := by
  refine ⟨fun env u r s => ⟨?_, fun supplied => rfl⟩, fun s₀ ops hempty => ?_⟩
  · rcases confirm_donations env u r s with h | ⟨_, _, h⟩
    · left; exact h
    · right; exact ⟨newDonation env u r, h, rfl, rfl, rfl, rfl, rfl⟩
  · apply run_donations_induction
      (fun ds => ∀ d ∈ ds, d.paymentStatus = PaymentStatus.succeeded)
    · intro ds env user r hds _ _ d hd
      rcases List.mem_append.1 hd with h | h
      · exact hds d h
      · have hdeq : d = newDonation env user r := by simpa using h
        rw [hdeq]; rfl
    · rw [hempty]; intro d hd; cases hd

/-! ## C12: paymentIntentIds are unique and amounts are at least 1 -/

/-- C12: in every state reached from an empty donation store by any sequence
of sequentially handled API requests, no two Donation records have the same
paymentIntentId and every Donation record has amount at least 1. -/
theorem donations_unique_and_positive (s₀ : State) (ops : List Op)
    (hempty : s₀.donations = []) :
    (run ops s₀).donations.Pairwise
      (fun a b => a.paymentIntentId ≠ b.paymentIntentId) ∧
    ∀ d ∈ (run ops s₀).donations, 1 ≤ d.amount := by
  apply run_donations_induction
    (fun ds => ds.Pairwise (fun a b => a.paymentIntentId ≠ b.paymentIntentId) ∧
      ∀ d ∈ ds, 1 ≤ d.amount)
  · intro ds env user r hds hv hd
    have hfresh := (findOne_eq_none_iff ds r.paymentIntentId).1 hd
    have hamount : 1 ≤ r.amount := ((confirmValidation_iff r).1 hv).2.1
    constructor
    · rw [List.pairwise_append]
      refine ⟨hds.1, List.pairwise_singleton _ _, ?_⟩
      intro a ha b hb
      have hbeq : b = newDonation env user r := by simpa using hb
      rw [hbeq]
      exact hfresh a ha
    · intro d hdmem
      rcases List.mem_append.1 hdmem with h | h
      · exact hds.2 d h
      · have hdeq : d = newDonation env user r := by simpa using h
        rw [hdeq]; exact hamount
  · rw [hempty]
    exact ⟨List.Pairwise.nil, fun d hd => by cases hd⟩

/-- Witness of C12: from the fixture store, a confirm, the same confirm again
and a confirm with another paymentIntentId. -/
theorem donations_unique_and_positive_witness :
    (run [Op.confirm demoEnv 9 demoConfirm, Op.confirm ⟨20, 101, "x"⟩ 9 demoConfirm,
          Op.confirm ⟨30, 102, "y"⟩ 7 { demoConfirm with paymentIntentId := "pi_test_9" }]
        demoState).donations.Pairwise
      (fun a b => a.paymentIntentId ≠ b.paymentIntentId) :=
  (donations_unique_and_positive demoState _ rfl).1

/-! ## C13: currentAmount never decreases -/

/-- C13: for every API request (campaign create, owner update, delete,
add-update, admin status change, create-payment-intent, confirm, or a route
that writes only users), in a store whose campaign ids are unique, every
campaign that exists both before and after the request has a currentAmount
after it that is at least its currentAmount before. -/
theorem currentAmount_never_decreases (op : Op) (s : State) (id : Nat) (c c' : Campaign)
    (hunique : (s.campaigns.map (fun c => c.id)).Nodup)
    (hbefore : findById s.campaigns id = some c)
    (hafter : findById (applyOp op s).campaigns id = some c') :
    c.currentAmount ≤ c'.currentAmount := by
  cases op with
  | createCampaign env user r =>
    exact le_of_eq (createCampaign_currentAmount env user r s id c c' hbefore hafter).symm
  | updateCampaign caller target r =>
    exact le_of_eq (updateCampaign_currentAmount caller target r s id c c' hbefore hafter).symm
  | deleteCampaign caller target =>
    exact le_of_eq
      (deleteCampaign_currentAmount caller target s id c c' hunique hbefore hafter).symm
  | addCampaignUpdate env caller target r =>
    exact le_of_eq
      (addCampaignUpdate_currentAmount env caller target r s id c c' hbefore hafter).symm
  | updateCampaignStatus caller target status =>
    exact le_of_eq
      (updateCampaignStatus_currentAmount caller target status s id c c' hbefore hafter).symm
  | createPaymentIntent env r =>
    have h : findById (createPaymentIntent env r s).2.campaigns id = some c' := hafter
    rw [createPaymentIntent_state] at h
    exact le_of_eq (currentAmount_eq_of_same hbefore h).symm
  | confirm env user r => exact confirm_currentAmount env user r s id c c' hbefore hafter
  | userRoute users => exact le_of_eq (currentAmount_eq_of_same hbefore hafter).symm

/-- Witness of C13: the confirm of 600 on the fixture campaign. -/
theorem currentAmount_never_decreases_witness :
    demoCampaign.currentAmount
      ≤ ({ demoCampaign with
            currentAmount := 600,
            donors := [{ user := 9, amount := 600, donatedAt := 10,
                         isAnonymous := false }] } : Campaign).currentAmount :=
  currentAmount_never_decreases (Op.confirm demoEnv 9 demoConfirm) demoState 1 demoCampaign _
    (by decide) (by decide!) (by decide!)

/-! ## C14: deleting a campaign -/

/-- C14: for every campaign c that the id resolves to and every authorised
caller (owner or admin): if c.currentAmount > 0, DELETE answers 400 and leaves
the whole store (campaigns, users and their createdCampaigns lists) unchanged;
if c.currentAmount = 0, DELETE answers 200, removes that campaign at its
position and no other, and leaves the donations as they were. -/
theorem deleteCampaign_guard (caller : Caller) (id : Nat) (s : State) (c : Campaign)
    (hc : findById s.campaigns id = some c)
    (hauth : c.owner = caller.id ∨ caller.role = Role.admin) :
    (0 < c.currentAmount →
      (deleteCampaign caller id s).1.code = 400 ∧ (deleteCampaign caller id s).2 = s) ∧
    (c.currentAmount = 0 →
      (deleteCampaign caller id s).1.code = 200 ∧
      (deleteCampaign caller id s).2.donations = s.donations ∧
      ∃ l₁ l₂, s.campaigns = l₁ ++ c :: l₂ ∧ (∀ x ∈ l₁, x.id ≠ id) ∧
        (deleteCampaign caller id s).2.campaigns = l₁ ++ l₂) := by
  have hnot : ¬ (c.owner ≠ caller.id ∧ caller.role ≠ Role.admin) := by
    rintro ⟨h1, h2⟩
    rcases hauth with h | h
    · exact h1 h
    · exact h2 h
  constructor
  · intro hpos
    unfold deleteCampaign
    simp only [hc, if_neg hnot, gt_iff_lt, if_pos hpos, and_self]
  · intro hzero
    have hnpos : ¬ c.currentAmount > 0 := by rw [hzero]; exact lt_irrefl 0
    unfold deleteCampaign
    simp only [hc, if_neg hnot, if_neg hnpos, true_and]
    exact eraseP_of_findById s.campaigns id c hc

/-- Witness of C14: the owner's delete of the fixture campaign holding 50 is
answered 400 and changes nothing. -/
theorem deleteCampaign_guard_witness :
    (deleteCampaign ⟨7, Role.campaign_owner⟩ 1 fundedState).1.code = 400 ∧
    (deleteCampaign ⟨7, Role.campaign_owner⟩ 1 fundedState).2 = fundedState :=
  (deleteCampaign_guard ⟨7, Role.campaign_owner⟩ 1 fundedState fundedCampaign
    (by decide!) (by decide)).1 (by decide!)

/-! ## C15: callers that are neither owner nor admin -/

/-- C15, as stated, fails: a caller who is neither the owner of the fixture
campaign nor an admin sends an update whose title has three characters; the
validation guard answers 400, not 403. -/
theorem updateCampaign_forbidden_counterexample :
    findById demoState.campaigns 1 = some demoCampaign ∧
    demoCampaign.owner ≠ 9 ∧
    (updateCampaign ⟨9, Role.donor⟩ 1 shortTitleUpdate demoState).1.code = 400 ∧
    (updateCampaign ⟨9, Role.donor⟩ 1 shortTitleUpdate demoState).1.code ≠ 403 := by
  decide!

/-- C15 (amended): for every campaign c that the id resolves to and every
authenticated caller who is neither c's owner nor an admin, the update and
add-update requests are answered 403 when their body passes validation and 400
when it does not (validation is checked first), the delete request is answered
403, and all three leave the whole store unchanged. -/
theorem non_owner_is_refused (env : Env) (caller : Caller) (id : Nat) (s : State)
    (c : Campaign) (ru : UpdateCampaignBody) (ra : CampaignUpdateBody)
    (hc : findById s.campaigns id = some c)
    (howner : c.owner ≠ caller.id) (hrole : caller.role ≠ Role.admin) :
    ((updateCampaign caller id ru s).1.code
        = (if updateCampaignValidation ru then 403 else 400) ∧
      (updateCampaign caller id ru s).2 = s) ∧
    ((deleteCampaign caller id s).1.code = 403 ∧ (deleteCampaign caller id s).2 = s) ∧
    ((addCampaignUpdate env caller id ra s).1.code
        = (if campaignUpdateValidation ra then 403 else 400) ∧
      (addCampaignUpdate env caller id ra s).2 = s) := by
  have hboth : c.owner ≠ caller.id ∧ caller.role ≠ Role.admin := ⟨howner, hrole⟩
  refine ⟨?_, ?_, ?_⟩
  · unfold updateCampaign
    by_cases hv : updateCampaignValidation ru = true
    · simp [hv, hc, hboth]
    · have hv' : updateCampaignValidation ru = false := by simpa using hv
      simp [hv']
  · unfold deleteCampaign
    simp only [hc, if_pos hboth, and_self]
  · unfold addCampaignUpdate
    by_cases hv : campaignUpdateValidation ra = true
    · simp [hv, hc, hboth]
    · have hv' : campaignUpdateValidation ra = false := by simpa using hv
      simp [hv']

/-- Witness of C15 (amended): the donor of the fixture store tries to delete
the fixture campaign. -/
theorem non_owner_is_refused_witness :
    (deleteCampaign ⟨9, Role.donor⟩ 1 demoState).1.code = 403 ∧
    (deleteCampaign ⟨9, Role.donor⟩ 1 demoState).2 = demoState :=
  (non_owner_is_refused demoEnv ⟨9, Role.donor⟩ 1 demoState demoCampaign shortTitleUpdate
    ⟨"Week one", "The first well is dug."⟩ (by decide!) (by decide) (by decide)).2.1

/-! ## C16: anonymous donors in the donation listing -/

/-- C16: in the response of GET /donations/campaign/:campaignId every donation
with isAnonymous = true carries the donor (name 'Anonymous', profilePicture
''), and every donation with isAnonymous = false is a stored donation with its
donor populated, unchanged; consequently two stores whose donations differ
only in the donor reference of anonymous donations (and whose users have the
same public profiles) produce identical responses. -/
theorem anonymous_donor_masked (campaignId : Nat) (q : PageQuery) :
    (∀ (s : State) (l : DonationListing),
      getCampaignDonations campaignId q s = ⟨200, "", some l⟩ →
      (∀ v ∈ l.donations, v.isAnonymous = true → v.donor = some anonymousDonor) ∧
      (∀ v ∈ l.donations, v.isAnonymous = false →
        ∃ d ∈ s.donations, v = populateDonor s.users d)) ∧
    (∀ s₁ s₂ : State,
      s₁.donations.map blankAnonymousDonor = s₂.donations.map blankAnonymousDonor →
      s₁.users.map publicProfile = s₂.users.map publicProfile →
      getCampaignDonations campaignId q s₁ = getCampaignDonations campaignId q s₂) := by
  refine ⟨fun s l hresp => ?_, fun s₁ s₂ hd hu =>
    getCampaignDonations_congr campaignId q s₁ s₂ hd hu⟩
  rw [getCampaignDonations_eq] at hresp
  split at hresp
  · simp at hresp
  · have hl : l.donations
        = ((donationPage campaignId q s.donations).map (populateDonor s.users)).map
            maskDonor := by
      have := congrArg (fun resp => resp.data.map (fun x => x.donations)) hresp
      simpa using this.symm
    rw [hl]
    constructor
    · intro v hv hanon
      obtain ⟨w, _, hwv⟩ := List.mem_map.1 hv
      rw [← hwv] at hanon ⊢
      unfold maskDonor at hanon ⊢
      by_cases hw : w.isAnonymous = true
      · simp only [hw, if_true]
      · simp only [hw, Bool.false_eq_true, if_false] at hanon
    · intro v hv hnot
      obtain ⟨w, hw, hwv⟩ := List.mem_map.1 hv
      obtain ⟨d, hd, hdw⟩ := List.mem_map.1 hw
      have hwnot : w.isAnonymous = false := by
        rw [← hwv] at hnot
        unfold maskDonor at hnot
        by_cases hw' : w.isAnonymous = true
        · simp only [hw', if_true] at hnot
          cases hnot
        · simpa using hw'
      refine ⟨d, mem_of_mem_donationPage campaignId q s.donations d hd, ?_⟩
      rw [← hwv, hdw]
      unfold maskDonor
      simp only [hwnot, Bool.false_eq_true, if_false]

/-- Witness of C16: the same anonymous donation made by user 9 or by user 7
gives the same response. -/
theorem anonymous_donor_masked_witness :
    getCampaignDonations 1 ⟨none, none⟩ (anonymousStore 9)
      = getCampaignDonations 1 ⟨none, none⟩ (anonymousStore 7) :=
  (anonymous_donor_masked 1 ⟨none, none⟩).2 (anonymousStore 9) (anonymousStore 7)
    (by decide!) (by decide!)

/-! ## C17: the value `all` in the listing filters -/

/-- C17, as stated, fails: in GET /campaigns the status filter `all` is an
exact match like any other value, so the active fixture campaign does not pass
it. -/
theorem status_all_counterexample :
    demoCampaign.status = Status.active ∧
    campaignQueryMatches (fun _ _ => true) statusAllQuery demoCampaign = false ∧
    campaignQueryMatches (fun _ _ => true) { statusAllQuery with status := none }
      demoCampaign = true := by
  decide!

/-- C17 (amended): in the query of GET /campaigns a category filter equal to
"all" imposes no constraint and any other non-empty category keeps exactly the
campaigns with that category; the status filter is always an exact match
(default "active"), so the value "all" keeps no campaign. In the query of the
admin listing GET /admin/campaigns a status filter equal to "all" imposes no
constraint and any other non-empty status keeps exactly the campaigns with
that status. -/
theorem listing_filters (regex : String → String → Bool) (q : CampaignQuery)
    (c : Campaign) :
    (q.category = some "all" →
      campaignQueryMatches regex q c
        = campaignQueryMatches regex { q with category := none } c) ∧
    (∀ category, q.category = some category → category ≠ "" → category ≠ "all" →
      (campaignQueryMatches regex q c = true ↔
        campaignQueryMatches regex { q with category := none } c = true ∧
          c.category = category)) ∧
    (campaignQueryMatches regex q c = true ↔
      c.status.toString = q.status.getD "active" ∧
        campaignQueryMatches regex { q with status := some c.status.toString } c = true) ∧
    (q.status = some "all" → campaignQueryMatches regex q c = false) ∧
    (q.status = some "all" →
      adminCampaignQueryMatches regex q c
        = adminCampaignQueryMatches regex { q with status := none } c) ∧
    (∀ status, q.status = some status → status ≠ "" → status ≠ "all" →
      (adminCampaignQueryMatches regex q c = true ↔
        adminCampaignQueryMatches regex { q with status := none } c = true ∧
          c.status.toString = status)) := by
  have hnotall : c.status.toString ≠ "all" := by
    cases c.status <;> decide
  refine ⟨?_, ?_, ?_, ?_, ?_, ?_⟩
  · intro h
    simp [campaignQueryMatches, h]
  · intro category h hne hall
    simp [campaignQueryMatches, h, hne, hall]
    tauto
  · simp [campaignQueryMatches]
    tauto
  · intro h
    simp [campaignQueryMatches, h, hnotall]
  · intro h
    simp [adminCampaignQueryMatches, h]
  · intro status h hne hall
    simp [adminCampaignQueryMatches, h, hne, hall]

/-! ## C18: the search string is a regular expression -/

/-- C18, as stated, fails: the search string `w.ter` is not a substring of the
title or of the description of the fixture campaign ("Clean water", "Wells for
the village"), yet the campaign satisfies the search condition, because `.` is
read as "any character". -/
theorem search_dot_counterexample :
    ¬ containsIgnoreCase "w.ter" demoCampaign.title ∧
    ¬ containsIgnoreCase "w.ter" demoCampaign.description ∧
    campaignQueryMatches (regexTest dotPatternEngine) dotSearchQuery demoCampaign = true ∧
    adminCampaignQueryMatches (regexTest dotPatternEngine) dotSearchQuery demoCampaign
      = true := by
  decide!

/-- C18 (amended): for every non-empty search string s that contains no
regular-expression metacharacter and every campaign c, c satisfies the search
condition built by the campaign listing (and by the admin listing) if and only
if s, compared case-insensitively, occurs as a literal substring of c.title or
of c.description. -/
theorem search_plain_is_substring (q : CampaignQuery) (c : Campaign) (s : String)
    (hq : q.search = some s) (hs : s ≠ "")
    (hplain : ∀ ch ∈ s.data, ch ∉ regexMetacharacters) :
    (campaignQueryMatches (regexTest dotPatternEngine) q c = true ↔
      campaignQueryMatches (regexTest dotPatternEngine) { q with search := none } c = true ∧
        (containsIgnoreCase s c.title ∨ containsIgnoreCase s c.description)) ∧
    (adminCampaignQueryMatches (regexTest dotPatternEngine) q c = true ↔
      adminCampaignQueryMatches (regexTest dotPatternEngine) { q with search := none } c
          = true ∧
        (containsIgnoreCase s c.title ∨ containsIgnoreCase s c.description)) := by
  have ht := regexTest_plain s c.title hplain
  have hd := regexTest_plain s c.description hplain
  constructor
  · simp only [campaignQueryMatches, hq, ne_eq, hs, not_false_eq_true, bne_iff_ne, if_true,
      Bool.and_eq_true, Bool.or_eq_true, ht, hd, Bool.and_true]
  · simp only [adminCampaignQueryMatches, hq, ne_eq, hs, not_false_eq_true, bne_iff_ne,
      if_true, Bool.and_eq_true, Bool.or_eq_true, ht, hd, Bool.true_and]
    tauto

/-- Witness of C18 (amended): the search string `WATER` on the fixture
campaign. -/
theorem search_plain_is_substring_witness :
    campaignQueryMatches (regexTest dotPatternEngine)
        { dotSearchQuery with search := some "WATER" } demoCampaign = true ↔
      campaignQueryMatches (regexTest dotPatternEngine)
          { dotSearchQuery with search := none } demoCampaign = true ∧
        (containsIgnoreCase "WATER" demoCampaign.title ∨
          containsIgnoreCase "WATER" demoCampaign.description) :=
  (search_plain_is_substring { dotSearchQuery with search := some "WATER" } demoCampaign
    "WATER" rfl (by decide) (by decide)).1

/-! ## C19: the category of a created campaign -/

/-- C19: every campaign stored by POST /campaigns (answer 201) has a category
among the eight fixed values; but an otherwise valid creation request that
omits the category is not created with category 'Other': the handler fills in
the string 'other', the schema validators reject it, and the answer is 500
with nothing stored. -/
theorem createCampaign_category (env : Env) (u : Nat) (r : CreateCampaignBody)
    (s : State) :
    ((createCampaign env u r s).1.code = 201 →
      ∃ c, (createCampaign env u r s).1.data = some c ∧
        (createCampaign env u r s).2.campaigns = s.campaigns ++ [c] ∧
        c.category ∈ categoryEnum) ∧
    (createCampaignValidation r = true → env.now < r.deadline → r.category = none →
      createCampaign env u r s = (⟨500, "Server error creating campaign", none⟩, s)) := by
  constructor
  · intro hcode
    rcases createCampaign_cases env u r s with h | h | ⟨h, _, _, hval⟩
    · rw [h.1] at hcode; exact absurd hcode (by decide)
    · rw [h.1] at hcode; exact absurd hcode (by decide)
    · rw [h]
      refine ⟨newCampaign env u r, rfl, rfl, ?_⟩
      have hcat : categoryEnum.contains (newCampaign env u r).category = true := by
        unfold Campaign.validate at hval
        simp only [Bool.and_eq_true] at hval
        exact hval.1.2
      simpa using hcat
  · intro hv hd hcat
    have hval := validate_newCampaign_without_category env u r hcat
    unfold createCampaign
    simp [hv, not_le.2 hd, hval]

/-- The failing input of C19 evaluated: the valid creation request without
category on the fixture store. -/
theorem createCampaign_category_witness :
    createCampaign demoEnv 7 demoCreate demoState
      = (⟨500, "Server error creating campaign", none⟩, demoState) :=
  (createCampaign_category demoEnv 7 demoCreate demoState).2 (by decide!) (by decide) rfl

/-! ## C20: deadline check and defaults of a created campaign -/

/-- C20: POST /campaigns answers 400, storing nothing, every request whose
deadline is not strictly after the current time; and whenever it stores a
campaign, it stores exactly one, answered 201, with currentAmount 0, status
active, an empty donor list, an empty updates list, owner = the authenticated
caller and a deadline after the current time. -/
theorem createCampaign_contract (env : Env) (u : Nat) (r : CreateCampaignBody)
    (s : State) :
    (r.deadline ≤ env.now →
      (createCampaign env u r s).1.code = 400 ∧ (createCampaign env u r s).2 = s) ∧
    ((createCampaign env u r s).2 = s ∨
      ∃ c, (createCampaign env u r s).1 = ⟨201, "Campaign created successfully", some c⟩ ∧
        (createCampaign env u r s).2.campaigns = s.campaigns ++ [c] ∧
        (createCampaign env u r s).2.donations = s.donations ∧
        c.currentAmount = 0 ∧ c.status = Status.active ∧ c.donors = [] ∧
        c.updates = [] ∧ c.owner = u ∧ env.now < c.deadline) := by
  constructor
  · intro hd
    rcases createCampaign_cases env u r s with h | h | ⟨_, _, h, _⟩
    · exact ⟨h.1, h.2.1⟩
    · exact absurd hd (not_le.2 h.2.2.2.1)
    · exact absurd hd (not_le.2 h)
  · rcases createCampaign_cases env u r s with h | h | ⟨h, _, hd, _⟩
    · left; exact h.2.1
    · left; exact h.2.1
    · right
      rw [h]
      exact ⟨newCampaign env u r, rfl, rfl, rfl, rfl, rfl, rfl, rfl, rfl, hd⟩

/-- Witness of C20: a creation request whose deadline equals the current time
is answered 400. -/
theorem createCampaign_contract_witness :
    (createCampaign demoEnv 7 { demoCreate with category := some "Education", deadline := 10 }
        demoState).1.code = 400 :=
  ((createCampaign_contract demoEnv 7
      { demoCreate with category := some "Education", deadline := 10 } demoState).1
    (by decide)).1

/-! ## C21: campaigns that have reached their goal -/

/-- C21, for runs in which no admin status change gives a campaign that has
reached its goal a status other than `completed` and every confirm that brings
a campaign to its goal finds the campaign document passing the schema
validators (its deadline ahead): in every state reached from a store without
campaigns, every campaign with `currentAmount ≥ goalAmount` has status
`completed`. -/
theorem goal_reached_is_completed (ops : List Op) (s₀ : State)
    (hempty : s₀.campaigns = []) (hok : runAll keepsGoalStatus ops s₀ = true) :
    ∀ c ∈ (run ops s₀).campaigns, c.goalAmount ≤ c.currentAmount →
      c.status = Status.completed := by
  have hgen : ∀ (ops : List Op) (s : State),
      (∀ c ∈ s.campaigns, c.goalAmount ≤ c.currentAmount → c.status = Status.completed) →
      runAll keepsGoalStatus ops s = true →
      ∀ c ∈ (run ops s).campaigns, c.goalAmount ≤ c.currentAmount →
        c.status = Status.completed := by
    intro ops
    induction ops with
    | nil => intro s hinv _; exact hinv
    | cons op rest ih =>
      intro s hinv hrun
      simp only [runAll, Bool.and_eq_true] at hrun
      exact ih (applyOp op s) (applyOp_keeps_goal_status op s hinv hrun.1) hrun.2
  refine hgen ops s₀ ?_ hok
  intro c hc
  rw [hempty] at hc
  exact absurd hc (List.not_mem_nil c)

/-- C21 on the run "create a campaign with goal 500, confirm 500": the
campaign reads back completed. -/
theorem goal_reached_is_completed_witness :
    emptyStore.campaigns = [] ∧
    runAll keepsGoalStatus fundingRun emptyStore = true ∧
    (run fundingRun emptyStore).campaigns.map (fun c => (c.currentAmount, c.status))
      = [(500, Status.completed)] ∧
    ∀ c ∈ (run fundingRun emptyStore).campaigns, c.goalAmount ≤ c.currentAmount →
      c.status = Status.completed :=
  ⟨rfl, by decide!, by decide!,
    goal_reached_is_completed fundingRun emptyStore rfl (by decide!)⟩

/-- C21 as stated fails in two ways. After "create with goal 500, confirm 500,
admin sets the status to active" the campaign has `currentAmount = goalAmount`
and status `active`. After "create with goal 500 and deadline 9000, confirm 500
at time 9500" the campaign document fails the deadline validator when it is
saved and the campaign has `currentAmount = goalAmount` and status `active`. -/
theorem goal_reached_counterexample :
    emptyStore.campaigns = [] ∧ emptyStore.donations = [] ∧
    (run (fundingRun ++ [reopenOp]) emptyStore).campaigns.map
        (fun c => (c.currentAmount, c.goalAmount, c.status))
      = [(500, 500, Status.active)] ∧
    (run [Op.createCampaign demoEnv 7 educationCreate] emptyStore).campaigns.map
        (fun c => Campaign.validate lateEnv.now c) = [false] ∧
    (run lateFundingRun emptyStore).campaigns.map
        (fun c => (c.currentAmount, c.goalAmount, c.status))
      = [(500, 500, Status.active)] := by
  decide!

/-! ## C22: a campaign with donations cannot be deleted -/

/-- C22: in every state reached from a store without campaigns and donations
by requests handled one after the other (created campaigns receiving fresh
ids), the campaign referenced by a Donation record is in the store, and
`DELETE /campaigns/:id` on it is answered 403 or 400 for every caller and
leaves the store as it was. -/
theorem referenced_campaign_not_deleted (ops : List Op) (s₀ : State)
    (hc : s₀.campaigns = []) (hd : s₀.donations = [])
    (hfresh : runAll freshId ops s₀ = true)
    (d : Donation) (hmem : d ∈ (run ops s₀).donations) (caller : Caller) :
    ∃ c, findById (run ops s₀).campaigns d.campaign = some c ∧
      c ∈ (run ops s₀).campaigns ∧
      ((deleteCampaign caller d.campaign (run ops s₀)).1.code = 403 ∨
        (deleteCampaign caller d.campaign (run ops s₀)).1.code = 400) ∧
      (deleteCampaign caller d.campaign (run ops s₀)).2 = run ops s₀ := by
  obtain ⟨h1, h2, h3, h4⟩ := run_consistent ops s₀ hc hd hfresh
  generalize run ops s₀ = s at *
  obtain ⟨c, hcm, hcid⟩ := h3 d hmem
  have hfind : findById s.campaigns d.campaign = some c := by
    rw [← hcid]; exact findById_of_mem_nodup h1 hcm
  have hin : d ∈ donationsOf s.donations c.id := by
    unfold donationsOf
    rw [List.mem_filter]
    exact ⟨hmem, by simp [hcid]⟩
  have hsum := one_le_sum_amounts (donationsOf s.donations c.id)
    (fun x hx => h2 x (List.mem_of_mem_filter hx)) d hin
  have hpos : c.currentAmount > 0 := by
    have := h4 c hcm
    linarith [this.1, this.2.1]
  refine ⟨c, hfind, hcm, ?_, ?_⟩
  · unfold deleteCampaign
    rw [hfind]
    dsimp only
    split_ifs <;> first | exact Or.inl rfl | exact Or.inr rfl
  · unfold deleteCampaign
    rw [hfind]
    dsimp only
    split_ifs <;> rfl

/-- C22 on the run "create campaign 100, confirm 500 on it": neither its owner
nor an admin can delete the campaign. -/
theorem referenced_campaign_not_deleted_witness :
    emptyStore.campaigns = [] ∧ emptyStore.donations = [] ∧
    runAll freshId fundingRun emptyStore = true ∧
    fundingDonation ∈ (run fundingRun emptyStore).donations ∧
    (deleteCampaign { id := 7, role := Role.campaign_owner } 100
        (run fundingRun emptyStore)).1.code = 400 ∧
    ∃ c, findById (run fundingRun emptyStore).campaigns fundingDonation.campaign = some c ∧
      c ∈ (run fundingRun emptyStore).campaigns ∧
      ((deleteCampaign { id := 1, role := Role.admin } fundingDonation.campaign
            (run fundingRun emptyStore)).1.code = 403 ∨
        (deleteCampaign { id := 1, role := Role.admin } fundingDonation.campaign
            (run fundingRun emptyStore)).1.code = 400) ∧
      (deleteCampaign { id := 1, role := Role.admin } fundingDonation.campaign
          (run fundingRun emptyStore)).2 = run fundingRun emptyStore :=
  ⟨rfl, rfl, by decide!, by decide!, by decide!,
    referenced_campaign_not_deleted fundingRun emptyStore rfl rfl (by decide!)
      fundingDonation (by decide!) { id := 1, role := Role.admin }⟩

/-! ## C23: what a campaign update can change -/

/-- The outcomes of `updateCampaign`: a refusal that leaves the store as it
was, or the update of the looked-up campaign. -/
theorem updateCampaign_cases (caller : Caller) (id : Nat) (r : UpdateCampaignBody)
    (s : State) :
    ((updateCampaign caller id r s).1.code ≠ 200 ∧ (updateCampaign caller id r s).2 = s) ∨
    (∃ c, findById s.campaigns id = some c ∧
      updateCampaign caller id r s
        = (⟨200, "Campaign updated successfully", some (applyUpdateFields r c)⟩,
           { s with campaigns := findByIdAndUpdate s.campaigns id (applyUpdateFields r) })) := by
  unfold updateCampaign
  split
  · exact Or.inl ⟨by simp, rfl⟩
  · split
    · exact Or.inl ⟨by simp, rfl⟩
    · rename_i c hc
      split
      · exact Or.inl ⟨by simp, rfl⟩
      · split
        · exact Or.inl ⟨by simp, rfl⟩
        · exact Or.inr ⟨c, by assumption, rfl⟩

/-- C23: a successful `PUT /campaigns/:id` rewrites exactly one position of the
campaign collection, the looked-up campaign `c`, into `applyUpdateFields r c`;
that document keeps `goalAmount`, `currentAmount`, `deadline`, `status`,
`owner`, `donors` and `updates` (and `id`, `featuredUntil`, `createdAt`); each of
`title`, `description`, `category` differs from before only when the request
supplies a non-empty value, which it then takes, and `image` only when a file is
uploaded; every other campaign, the donations and the users are unchanged. -/
theorem updateCampaign_frame (caller : Caller) (id : Nat) (r : UpdateCampaignBody)
    (s : State) (hok : (updateCampaign caller id r s).1.code = 200) :
    ∃ (c : Campaign) (l₁ l₂ : List Campaign),
      findById s.campaigns id = some c ∧
      s.campaigns = l₁ ++ c :: l₂ ∧
      (updateCampaign caller id r s).2.campaigns = l₁ ++ applyUpdateFields r c :: l₂ ∧
      (updateCampaign caller id r s).2.donations = s.donations ∧
      (updateCampaign caller id r s).2.users = s.users ∧
      (applyUpdateFields r c).id = c.id ∧
      (applyUpdateFields r c).goalAmount = c.goalAmount ∧
      (applyUpdateFields r c).currentAmount = c.currentAmount ∧
      (applyUpdateFields r c).deadline = c.deadline ∧
      (applyUpdateFields r c).status = c.status ∧
      (applyUpdateFields r c).owner = c.owner ∧
      (applyUpdateFields r c).donors = c.donors ∧
      (applyUpdateFields r c).updates = c.updates ∧
      (applyUpdateFields r c).featuredUntil = c.featuredUntil ∧
      (applyUpdateFields r c).createdAt = c.createdAt ∧
      ((applyUpdateFields r c).title ≠ c.title →
        ∃ t, r.title = some t ∧ trim t ≠ "" ∧ (applyUpdateFields r c).title = trim t) ∧
      ((applyUpdateFields r c).description ≠ c.description →
        ∃ d, r.description = some d ∧ d ≠ "" ∧ (applyUpdateFields r c).description = d) ∧
      ((applyUpdateFields r c).category ≠ c.category →
        ∃ g, r.category = some g ∧ g ≠ "" ∧ (applyUpdateFields r c).category = g) ∧
      ((applyUpdateFields r c).image ≠ c.image →
        ∃ f, r.file = some f ∧ (applyUpdateFields r c).image = "/uploads/" ++ f) := by
  rcases updateCampaign_cases caller id r s with ⟨hne, _⟩ | ⟨c, hc, heq⟩
  · exact absurd hok hne
  · have hfind : s.campaigns.find? (fun x => x.id == id) = some c := hc
    obtain ⟨l₁, l₂, hsplit, _, hupd⟩ :=
      updateFirst_of_find? (fun x => x.id == id) (applyUpdateFields r) s.campaigns c hfind
    refine ⟨c, l₁, l₂, hc, hsplit, ?_, ?_, ?_, rfl, rfl, rfl, rfl, rfl, rfl, rfl, rfl, rfl,
      rfl, ?_, ?_, ?_, ?_⟩
    · rw [heq]; exact hupd
    · rw [heq]
    · rw [heq]
    · intro hne
      cases ht : r.title with
      | none => simp [applyUpdateFields, ht] at hne
      | some t =>
        by_cases hem : trim t = ""
        · simp [applyUpdateFields, ht, hem] at hne
        · exact ⟨t, rfl, hem, by simp [applyUpdateFields, ht, hem]⟩
    · intro hne
      cases ht : r.description with
      | none => simp [applyUpdateFields, ht] at hne
      | some t =>
        by_cases hem : t = ""
        · simp [applyUpdateFields, ht, hem] at hne
        · exact ⟨t, rfl, hem, by simp [applyUpdateFields, ht, hem]⟩
    · intro hne
      cases ht : r.category with
      | none => simp [applyUpdateFields, ht] at hne
      | some t =>
        by_cases hem : t = ""
        · simp [applyUpdateFields, ht, hem] at hne
        · exact ⟨t, rfl, hem, by simp [applyUpdateFields, ht, hem]⟩
    · intro hne
      cases ht : r.file with
      | none => simp [applyUpdateFields, ht] at hne
      | some t => exact ⟨t, rfl, by simp [applyUpdateFields, ht]⟩

/-- C23 on the fixture store: the owner renames `demoCampaign`. -/
theorem updateCampaign_frame_witness :
    (updateCampaign { id := 7, role := Role.campaign_owner } 1 renameUpdate demoState).1.code
        = 200 ∧
    ∃ (c : Campaign) (l₁ l₂ : List Campaign),
      findById demoState.campaigns 1 = some c ∧
      demoState.campaigns = l₁ ++ c :: l₂ ∧
      (updateCampaign { id := 7, role := Role.campaign_owner } 1 renameUpdate
          demoState).2.campaigns = l₁ ++ applyUpdateFields renameUpdate c :: l₂ ∧
      (applyUpdateFields renameUpdate c).title = "Clean water for all" ∧
      (applyUpdateFields renameUpdate c).currentAmount = c.currentAmount :=
  ⟨by decide!, by
    obtain ⟨c, l₁, l₂, h1, h2, h3, _, _, _, _, h4, _⟩ :=
      updateCampaign_frame { id := 7, role := Role.campaign_owner } 1 renameUpdate demoState
        (by decide!)
    have hc : c = demoCampaign := by
      have : findById demoState.campaigns 1 = some demoCampaign := by decide!
      rw [this] at h1
      exact (Option.some.inj h1).symm
    subst hc
    exact ⟨demoCampaign, l₁, l₂, h1, h2, h3, by decide!, h4⟩⟩

/-! ## C24: the duplicated derived-value computations agree -/

/-- C24: for a campaign with current amount `current`, goal `goal > 0` and
deadline `deadline`, the virtual `progressPercentage`, the helper
`getProgressPercentage`, the `percentage` of `ProgressBar` and the dashboard's
`getProgressPercentage` all equal `min(current / goal * 100, 100)`, and the
virtual `daysRemaining` and the helper `getDaysRemaining` both equal
`max(ceil((deadline - now) / 86400000), 0)`. -/
theorem derived_values_agree (c : Campaign) (current goal : ℚ) (deadline now : Int)
    (hgoal : 0 < goal) (hc : c.currentAmount = current) (hg : c.goalAmount = goal)
    (hd : c.deadline = deadline) :
    c.progressPercentage = specProgressPercentage current goal ∧
    getProgressPercentage current goal = specProgressPercentage current goal ∧
    ProgressBar.percentage current goal = specProgressPercentage current goal ∧
    Dashboard.getProgressPercentage current goal = specProgressPercentage current goal ∧
    c.daysRemaining now = specDaysRemaining deadline now ∧
    getDaysRemaining deadline now = specDaysRemaining deadline now := by
  subst hc hg hd
  refine ⟨rfl, rfl, rfl, rfl, ?_, ?_⟩
  · show max (Int.ceil (((c.deadline - now : Int) : ℚ) / (1000 * 3600 * 24))) 0
      = max (Int.ceil (((c.deadline - now : Int) : ℚ) / 86400000)) 0
    norm_num
  · show max (Int.ceil (((c.deadline - now : Int) : ℚ) / (1000 * 3600 * 24))) 0
      = max (Int.ceil (((c.deadline - now : Int) : ℚ) / 86400000)) 0
    norm_num

/-- C24 on `fundedCampaign` (50 raised of 1000, deadline 5000) at time 10. -/
theorem derived_values_agree_witness :
    (0 : ℚ) < 1000 ∧
    fundedCampaign.progressPercentage = specProgressPercentage 50 1000 ∧
    getProgressPercentage 50 1000 = specProgressPercentage 50 1000 ∧
    ProgressBar.percentage 50 1000 = specProgressPercentage 50 1000 ∧
    Dashboard.getProgressPercentage 50 1000 = specProgressPercentage 50 1000 ∧
    fundedCampaign.daysRemaining 10 = specDaysRemaining 5000 10 ∧
    getDaysRemaining 5000 10 = specDaysRemaining 5000 10 :=
  ⟨by norm_num, derived_values_agree fundedCampaign 50 1000 5000 10 (by norm_num) rfl rfl rfl⟩

/-! ## C25: confirm on a campaign of any status and deadline -/

/-- C25 on the code: for an existing campaign `c` of any status and deadline,
a confirm that passes the request validation, the duplicate check and the
Donation schema validators applies the increment, appends the donor entry and
is answered 500, not 201. Below the goal the status is the previous one. At or
above the goal the status is completed when the campaign document passes the
schema validators at the save, in particular when the deadline is ahead, and
is the previous one when it fails them. -/
theorem confirm_any_status_deadline (env : Env) (user : Nat) (r : ConfirmBody)
    (s : State) (c : Campaign) (hv : confirmValidation r = true)
    (hd : Donation.findOne s.donations r.paymentIntentId = none)
    (hc : findById s.campaigns r.campaignId = some c)
    (hschema : Donation.validate (newDonation env user r) = true) :
    (confirm env user r s).1.code = 500 ∧
    ∃ c', findById (confirm env user r s).2.campaigns r.campaignId = some c' ∧
      c'.currentAmount = c.currentAmount + r.amount ∧
      c'.donors = c.donors ++ [newDonorEntry env user r] ∧
      c'.deadline = c.deadline ∧
      (c.currentAmount + r.amount < c.goalAmount → c'.status = c.status) ∧
      (c.goalAmount ≤ c.currentAmount + r.amount →
        Campaign.validate env.now (markCompleted (applyDonation env user r c)) = true →
        c'.status = Status.completed) ∧
      (c.goalAmount ≤ c.currentAmount + r.amount →
        Campaign.validate env.now (markCompleted (applyDonation env user r c)) = false →
        c'.status = c.status) := by
  refine ⟨confirm_code_of_accepted env user r s c hv hd hc hschema, ?_⟩
  rcases lt_or_le (c.currentAmount + r.amount) c.goalAmount with hlt | hge
  · have hfind := confirm_below_goal env user r s c hv hd hc hschema hlt
    refine ⟨_, hfind, rfl, rfl, rfl, fun _ => rfl, ?_, ?_⟩
    · intro h; exact absurd hlt (not_lt.2 h)
    · intro h; exact absurd hlt (not_lt.2 h)
  · cases hval : Campaign.validate env.now c with
    | true =>
      have hfind := confirm_reaching_goal env user r s c hv hd hc hschema hge hval
      refine ⟨_, hfind, rfl, rfl, rfl, ?_, fun _ _ => rfl, ?_⟩
      · intro h; exact absurd h (not_lt.2 hge)
      · intro _ h
        rw [validate_markCompleted_applyDonation, hval] at h
        exact absurd h (by simp)
    | false =>
      have hfind := confirm_save_rejected env user r s c hv hd hc hschema hge hval
      refine ⟨_, hfind, rfl, rfl, rfl, ?_, ?_, fun _ _ => rfl⟩
      · intro h; exact absurd h (not_lt.2 hge)
      · intro _ h
        rw [validate_markCompleted_applyDonation, hval] at h
        exact absurd h (by simp)

/-- C25 at the confirm of the whole goal on a cancelled campaign whose
deadline has passed: the answer is 500 and the campaign is left with
currentAmount 1000, its goal, and status cancelled. -/
theorem confirm_any_status_deadline_witness :
    lapsedCampaign.status = Status.cancelled ∧ lapsedCampaign.deadline < demoEnv.now ∧
    (confirm demoEnv 9 goalConfirm lapsedState).1.code = 500 ∧
    ∃ c', findById (confirm demoEnv 9 goalConfirm lapsedState).2.campaigns
          goalConfirm.campaignId = some c' ∧
      c'.currentAmount = 1000 ∧ c'.goalAmount = 1000 ∧
      c'.status = Status.cancelled := by
  obtain ⟨hcode, c', h1, h2, _, _, _, _, h3⟩ :=
    confirm_any_status_deadline demoEnv 9 goalConfirm lapsedState lapsedCampaign
      (by decide!) (by decide!) (by decide!) (by decide!)
  have hc' : c' = applyDonation demoEnv 9 goalConfirm lapsedCampaign := by
    have : findById (confirm demoEnv 9 goalConfirm lapsedState).2.campaigns
        goalConfirm.campaignId = some (applyDonation demoEnv 9 goalConfirm lapsedCampaign) := by
      decide!
    rw [this] at h1
    exact (Option.some.inj h1).symm
  refine ⟨rfl, by decide, hcode, c', h1, ?_, ?_, ?_⟩
  · rw [h2]; decide!
  · rw [hc']; decide!
  · rw [h3 (by decide!) (by decide!)]; rfl

/-! ## C26: the ledger of a campaign -/

/-- C26: in every state reached from a store without campaigns and donations
by requests handled one after the other (created campaigns receiving fresh
ids), each campaign's `currentAmount` equals the sum of the amounts of its
donor entries, which equals the sum of the amounts of the Donation records
referencing the campaign, and `totalDonors` equals the number of those
records. -/
theorem ledger_consistent (ops : List Op) (s₀ : State)
    (hc : s₀.campaigns = []) (hd : s₀.donations = [])
    (hfresh : runAll freshId ops s₀ = true) :
    ∀ c ∈ (run ops s₀).campaigns,
      c.currentAmount = (c.donors.map (fun e => e.amount)).sum ∧
      (c.donors.map (fun e => e.amount)).sum
        = ((donationsOf (run ops s₀).donations c.id).map (fun d => d.amount)).sum ∧
      c.totalDonors = (donationsOf (run ops s₀).donations c.id).length := by
  intro c hcm
  exact (run_consistent ops s₀ hc hd hfresh).2.2.2 c hcm

/-- C26 on the run "create campaign 100, confirm 500 on it": the campaign
holds 500, one donor entry of 500, and one Donation record of 500. -/
theorem ledger_consistent_witness :
    emptyStore.campaigns = [] ∧ emptyStore.donations = [] ∧
    runAll freshId fundingRun emptyStore = true ∧
    (run fundingRun emptyStore).campaigns.map
        (fun c => (c.id, c.currentAmount, c.donors.map (fun e => e.amount)))
      = [(100, 500, [500])] ∧
    (run fundingRun emptyStore).donations.map (fun d => (d.campaign, d.amount))
      = [(100, 500)] ∧
    ∀ c ∈ (run fundingRun emptyStore).campaigns,
      c.currentAmount = (c.donors.map (fun e => e.amount)).sum ∧
      (c.donors.map (fun e => e.amount)).sum
        = ((donationsOf (run fundingRun emptyStore).donations c.id).map
            (fun d => d.amount)).sum ∧
      c.totalDonors = (donationsOf (run fundingRun emptyStore).donations c.id).length :=
  ⟨rfl, rfl, by decide!, by decide!, by decide!,
    ledger_consistent fundingRun emptyStore rfl rfl (by decide!)⟩

/-! ## C27: when the remaining days are zero -/

/-- The remaining days as a function of the difference of the timestamps. -/
theorem getDaysRemaining_eq (deadline now : Int) :
    getDaysRemaining deadline now
      = max (Int.ceil (((deadline - now : Int) : ℚ) / 86400000)) 0 := by
  show max (Int.ceil (((deadline - now : Int) : ℚ) / (1000 * 3600 * 24))) 0 = _
  norm_num

/-- C27: `getDaysRemaining deadline now` is 0 exactly when `deadline ≤ now`, is
at least 1 when `now < deadline`, and for `k ≥ 1` equals `k` exactly when
`(k-1)*86400000 < deadline - now ≤ k*86400000`; the flag `isExpired` is true
exactly when `deadline ≤ now`; the Campaign virtual `daysRemaining` is the same
function of the campaign's deadline. -/
theorem daysRemaining_zero_iff (deadline now : Int) :
    (getDaysRemaining deadline now = 0 ↔ deadline ≤ now) ∧
    (now < deadline → 1 ≤ getDaysRemaining deadline now) ∧
    (∀ k : Int, 1 ≤ k →
      (getDaysRemaining deadline now = k ↔
        (k - 1) * 86400000 < deadline - now ∧ deadline - now ≤ k * 86400000)) ∧
    (isExpired deadline now = true ↔ deadline ≤ now) ∧
    (∀ c : Campaign, c.deadline = deadline →
      c.daysRemaining now = getDaysRemaining deadline now) := by
  have hD : (0 : ℚ) < 86400000 := by norm_num
  have hle : ∀ k : Int, Int.ceil (((deadline - now : Int) : ℚ) / 86400000) ≤ k ↔
      deadline - now ≤ k * 86400000 := by
    intro k
    rw [Int.ceil_le, div_le_iff₀ hD]
    constructor
    · intro h; exact_mod_cast h
    · intro h; exact_mod_cast h
  have hlt : ∀ k : Int, k < Int.ceil (((deadline - now : Int) : ℚ) / 86400000) ↔
      k * 86400000 < deadline - now := by
    intro k
    rw [Int.lt_ceil, lt_div_iff₀ hD]
    constructor
    · intro h; exact_mod_cast h
    · intro h; exact_mod_cast h
  have hzero : getDaysRemaining deadline now = 0 ↔ deadline ≤ now := by
    rw [getDaysRemaining_eq]
    have := hle 0
    constructor
    · intro h
      have h0 : Int.ceil (((deadline - now : Int) : ℚ) / 86400000) ≤ 0 := by
        rcases le_total (Int.ceil (((deadline - now : Int) : ℚ) / 86400000)) 0 with h' | h'
        · exact h'
        · rw [max_eq_left h'] at h; exact le_of_eq h
      have := this.mp h0
      omega
    · intro h
      exact max_eq_right (this.mpr (by omega))
  refine ⟨hzero, ?_, ?_, ?_, ?_⟩
  · intro h
    rw [getDaysRemaining_eq]
    have : 0 < Int.ceil (((deadline - now : Int) : ℚ) / 86400000) := (hlt 0).mpr (by omega)
    exact le_max_of_le_left (by omega)
  · intro k hk
    rw [getDaysRemaining_eq]
    have h1 := hle k
    have h2 := hlt (k - 1)
    constructor
    · intro h
      have hc : Int.ceil (((deadline - now : Int) : ℚ) / 86400000) = k := by
        rcases le_total (Int.ceil (((deadline - now : Int) : ℚ) / 86400000)) 0 with h' | h'
        · rw [max_eq_right h'] at h; omega
        · rw [max_eq_left h'] at h; exact h
      exact ⟨h2.mp (by omega), h1.mp (by omega)⟩
    · rintro ⟨ha, hb⟩
      have hb' := h1.mpr hb
      have ha' := h2.mpr ha
      have hc : Int.ceil (((deadline - now : Int) : ℚ) / 86400000) = k := by omega
      rw [hc]
      exact max_eq_left (by omega)
  · unfold isExpired
    rw [beq_iff_eq]
    exact hzero
  · intro c hc
    subst hc
    rfl

/-! ## C28: the flags `hasNext` and `hasPrev` of the campaign listing -/

/-- C28: for page `N ≥ 1`, limit `L ≥ 1` and a search the database accepts, the
campaign listing answers 200 with `totalPages = ceil(total / L)` for the number
`total` of matching campaigns, `hasNext` true exactly when `N < ceil(total / L)`
and `hasPrev` true exactly when `N > 1`. -/
theorem listing_hasNext_hasPrev (engine : RegexEngine) (q : CampaignQuery) (s : State)
    (N L : Int) (hpage : q.page = some N) (hlimit : q.limit = some L)
    (hN : 1 ≤ N) (hL : 1 ≤ L) (hsearch : searchRejected engine q.search = false) :
    ∃ l, getCampaigns engine q s = ⟨200, "", some l⟩ ∧
      l.pagination.totalCampaigns
        = (s.campaigns.filter (campaignQueryMatches (regexTest engine) q)).length ∧
      l.pagination.totalPages
        = some (Int.ceil ((l.pagination.totalCampaigns : ℚ) / (L : ℚ))) ∧
      (l.pagination.hasNext = true ↔
        N < Int.ceil ((l.pagination.totalCampaigns : ℚ) / (L : ℚ))) ∧
      (l.pagination.hasPrev = true ↔ N > 1) := by
  have hskip : ¬ ((N - 1) * L < 0) := by
    have : 0 ≤ (N - 1) * L := mul_nonneg (by omega) (by omega)
    omega
  have hL0 : L ≠ 0 := by omega
  unfold getCampaigns
  simp only [hpage, hlimit, Option.getD_some, if_neg hskip, hsearch, Bool.false_eq_true,
    if_false]
  refine ⟨_, rfl, rfl, ?_, ?_, ?_⟩
  · simp only [totalPages, if_neg hL0]
  · simp only [decide_eq_true_eq]
    rw [length_page _ _ _ (by
      have : 0 ≤ (N - 1) * L := mul_nonneg (by omega) (by omega)
      exact this) hL]
    simp only [List.length_insertionSort]
    generalize (s.campaigns.filter (campaignQueryMatches (regexTest engine) q)).length = total
    have hLq : (0 : ℚ) < (L : ℚ) := by exact_mod_cast (by omega : 0 < L)
    rw [Int.lt_ceil, lt_div_iff₀ hLq]
    have hNL : N * L = (N - 1) * L + L := by ring
    have hcast : ((N : ℚ) * (L : ℚ) < (total : ℚ)) ↔ N * L < (total : Int) := by
      constructor
      · intro h; exact_mod_cast h
      · intro h; exact_mod_cast h
    rw [hcast, hNL]
    have : 0 ≤ (N - 1) * L := mul_nonneg (by omega) (by omega)
    generalize (N - 1) * L = skip at *
    omega
  · simp only [decide_eq_true_eq]

/-- C28 on page 3 with limit 2 of the fixture store: one matching campaign, one
page, no next page, a previous page. -/
theorem listing_hasNext_hasPrev_witness :
    (1 : Int) ≤ 3 ∧ (1 : Int) ≤ 2 ∧
    ∃ l, getCampaigns dotPatternEngine pageThreeQuery demoState = ⟨200, "", some l⟩ ∧
      l.pagination.totalCampaigns
        = (demoState.campaigns.filter
            (campaignQueryMatches (regexTest dotPatternEngine) pageThreeQuery)).length ∧
      l.pagination.totalPages
        = some (Int.ceil ((l.pagination.totalCampaigns : ℚ) / ((2 : Int) : ℚ))) ∧
      (l.pagination.hasNext = true ↔
        (3 : Int) < Int.ceil ((l.pagination.totalCampaigns : ℚ) / ((2 : Int) : ℚ))) ∧
      (l.pagination.hasPrev = true ↔ (3 : Int) > 1) :=
  ⟨by decide, by decide,
    listing_hasNext_hasPrev dotPatternEngine pageThreeQuery demoState 3 2 rfl rfl
      (by decide) (by decide) rfl⟩

/-! ## C29: the single-campaign read shows every donor -/

/-- C29: `GET /campaigns/:id` on a stored campaign `c₁` answers 200 with the
donor entries of `c₁` in order, each with its user reference resolved to the
id, name and profile picture of the stored user whatever its `isAnonymous`
flag; hence, when a second store holds at the same position of the campaign's
donor list an entry made by another stored user, the two responses differ,
whether or not the entry is anonymous. -/
theorem getCampaign_unmasked (env : Env) (id : Nat) (s₁ s₂ : State) (c₁ c₂ : Campaign)
    (i : Nat) (e₁ e₂ : DonorEntry) (u₁ u₂ : User)
    (h₁ : findById s₁.campaigns id = some c₁) (h₂ : findById s₂.campaigns id = some c₂)
    (hi₁ : c₁.donors[i]? = some e₁) (hi₂ : c₂.donors[i]? = some e₂)
    (hne : e₁.user ≠ e₂.user)
    (hu₁ : s₁.users.find? (fun u => u.id == e₁.user) = some u₁)
    (hu₂ : s₂.users.find? (fun u => u.id == e₂.user) = some u₂) :
    (∃ v, getCampaign env id s₁ = ⟨200, "", some v⟩ ∧
      v.donors = c₁.donors.map (populateDonorEntry s₁.users) ∧
      (∀ (j : Nat) (e : DonorEntry) (u : User), c₁.donors[j]? = some e →
        s₁.users.find? (fun u => u.id == e.user) = some u →
        v.donors[j]? = some
          { user := some { id := some e.user, name := u.name,
                           profilePicture := u.profilePicture },
            amount := e.amount, donatedAt := e.donatedAt,
            isAnonymous := e.isAnonymous })) ∧
    getCampaign env id s₁ ≠ getCampaign env id s₂ := by
  have hview : ∀ (us : List User) (e : DonorEntry) (u : User),
      us.find? (fun u => u.id == e.user) = some u →
      populateDonorEntry us e =
        { user := some { id := some e.user, name := u.name,
                         profilePicture := u.profilePicture },
          amount := e.amount, donatedAt := e.donatedAt, isAnonymous := e.isAnonymous } := by
    intro us e u hu
    have hid : u.id = e.user := by
      have := List.find?_some hu
      simpa using this
    simp [populateDonorEntry, hu, hid]
  constructor
  · unfold getCampaign
    rw [h₁]
    refine ⟨_, rfl, rfl, ?_⟩
    intro j e u hj hu
    simp only [List.getElem?_map, hj, Option.map_some']
    rw [hview s₁.users e u hu]
  · intro heq
    unfold getCampaign at heq
    rw [h₁, h₂] at heq
    have hdonors : c₁.donors.map (populateDonorEntry s₁.users)
        = c₂.donors.map (populateDonorEntry s₂.users) := by
      injection heq with _ _ hdata
      injection hdata with hdata
      exact congrArg CampaignDetail.donors hdata
    have hat := congrArg (fun l => l[i]?) hdonors
    simp only [List.getElem?_map, hi₁, hi₂, Option.map_some', Option.some.injEq] at hat
    rw [hview s₁.users e₁ u₁ hu₁, hview s₂.users e₂ u₂ hu₂] at hat
    have huser := congrArg DonorEntryView.user hat
    simp only [Option.some.injEq, DonorView.mk.injEq] at huser
    exact hne huser.1

/-- C29 on two stores that differ only in which user (9 or 7) made the
anonymous donation to the fixture campaign. -/
theorem getCampaign_unmasked_witness :
    findById (anonymousDonorStore 9).campaigns 1 = some (anonymousDonorCampaign 9) ∧
    findById (anonymousDonorStore 7).campaigns 1 = some (anonymousDonorCampaign 7) ∧
    (anonymousDonorCampaign 9).donors[0]? = some (anonymousEntryBy 9) ∧
    (anonymousDonorCampaign 7).donors[0]? = some (anonymousEntryBy 7) ∧
    (anonymousEntryBy 9).isAnonymous = true ∧
    getCampaign demoEnv 1 (anonymousDonorStore 9)
      ≠ getCampaign demoEnv 1 (anonymousDonorStore 7) :=
  ⟨by decide!, by decide!, by decide!, by decide!, rfl,
    (getCampaign_unmasked demoEnv 1 (anonymousDonorStore 9) (anonymousDonorStore 7)
      (anonymousDonorCampaign 9) (anonymousDonorCampaign 7) 0
      (anonymousEntryBy 9) (anonymousEntryBy 7)
      { id := 9, name := "Donor", email := "donor@example.org", profilePicture := "",
        role := Role.donor, createdCampaigns := [], donations := [] }
      { id := 7, name := "Owner", email := "owner@example.org", profilePicture := "",
        role := Role.campaign_owner, createdCampaigns := [1], donations := [] }
      (by decide!) (by decide!) (by decide!) (by decide!) (by decide)
      (by decide!) (by decide!)).2⟩

/-! ## C30: the page buttons of the donation list -/

/-- The page window is `min(5, totalPages)` consecutive integers within
`[1, totalPages]` that include the current page. -/
theorem pageWindow_spec (totalPages currentPage : Int) (h1 : 1 ≤ totalPages)
    (hlo : 1 ≤ currentPage) (hhi : currentPage ≤ totalPages) :
    ((pageWindow totalPages currentPage).length : Int) = min 5 totalPages ∧
    (∃ first : Int, pageWindow totalPages currentPage
      = (List.range (min 5 totalPages).toNat).map (fun (i : Nat) => first + (i : Int))) ∧
    (∀ b ∈ pageWindow totalPages currentPage, 1 ≤ b ∧ b ≤ totalPages) ∧
    currentPage ∈ pageWindow totalPages currentPage := by
  refine ⟨?_, ?_, ?_, ?_⟩
  · simp only [pageWindow, List.length_map, List.length_range]
    omega
  · unfold pageWindow pageNum
    by_cases ha : totalPages ≤ 5
    · exact ⟨1, List.map_congr_left (fun i _ => by simp only [if_pos ha]; omega)⟩
    · by_cases hb : currentPage ≤ 3
      · exact ⟨1, List.map_congr_left (fun i _ => by simp only [if_neg ha, if_pos hb]; omega)⟩
      · by_cases hc : currentPage ≥ totalPages - 2
        · exact ⟨totalPages - 4, List.map_congr_left (fun i _ => by
            simp only [if_neg ha, if_neg hb, if_pos hc])⟩
        · exact ⟨currentPage - 2, List.map_congr_left (fun i _ => by
            simp only [if_neg ha, if_neg hb, if_neg hc])⟩
  · intro b hb
    simp only [pageWindow, List.mem_map, List.mem_range] at hb
    obtain ⟨i, hi, rfl⟩ := hb
    unfold pageNum
    split_ifs <;> omega
  · simp only [pageWindow, List.mem_map, List.mem_range]
    unfold pageNum
    by_cases ha : totalPages ≤ 5
    · refine ⟨(currentPage - 1).toNat, by omega, ?_⟩
      simp only [if_pos ha]; omega
    · by_cases hb : currentPage ≤ 3
      · refine ⟨(currentPage - 1).toNat, by omega, ?_⟩
        simp only [if_neg ha, if_pos hb]; omega
      · by_cases hc : currentPage ≥ totalPages - 2
        · refine ⟨(currentPage - (totalPages - 4)).toNat, by omega, ?_⟩
          simp only [if_neg ha, if_neg hb, if_pos hc]; omega
        · refine ⟨2, by omega, ?_⟩
          simp only [if_neg ha, if_neg hb, if_neg hc]; omega

/-- C30, with the pagination block rendered (`totalPages ≥ 2`): for
`1 ≤ currentPage ≤ totalPages` the page-number buttons are `min(5, totalPages)`
consecutive integers, all within `[1, totalPages]`, and include `currentPage`. -/
theorem pageButtons_window (totalPages currentPage : Int) (h2 : 2 ≤ totalPages)
    (hlo : 1 ≤ currentPage) (hhi : currentPage ≤ totalPages) :
    ((pageButtons totalPages currentPage).length : Int) = min 5 totalPages ∧
    (∃ first : Int, pageButtons totalPages currentPage
      = (List.range (min 5 totalPages).toNat).map (fun (i : Nat) => first + (i : Int))) ∧
    (∀ b ∈ pageButtons totalPages currentPage, 1 ≤ b ∧ b ≤ totalPages) ∧
    currentPage ∈ pageButtons totalPages currentPage := by
  have hgt : totalPages > 1 := by omega
  have heq : pageButtons totalPages currentPage = pageWindow totalPages currentPage := by
    simp only [pageButtons, if_pos hgt]
  rw [heq]
  exact pageWindow_spec totalPages currentPage (by omega) hlo hhi

/-- C30 on 9 pages with page 8 current: the buttons are 5, 6, 7, 8, 9. -/
theorem pageButtons_window_witness :
    (2 : Int) ≤ 9 ∧ (1 : Int) ≤ 8 ∧ (8 : Int) ≤ 9 ∧
    pageButtons 9 8 = [5, 6, 7, 8, 9] ∧
    ((pageButtons 9 8).length : Int) = min 5 9 ∧
    (∃ first : Int, pageButtons 9 8
      = (List.range (min 5 (9 : Int)).toNat).map (fun (i : Nat) => first + (i : Int))) ∧
    (∀ b ∈ pageButtons 9 8, 1 ≤ b ∧ b ≤ 9) ∧
    (8 : Int) ∈ pageButtons 9 8 :=
  ⟨by decide, by decide, by decide, by decide,
    pageButtons_window 9 8 (by decide) (by decide) (by decide)⟩

/-- C30 as stated fails on a single page: with `totalPages = 1` and
`currentPage = 1` the pagination block is not rendered, so there is no button
where the claim counts `min(5, 1) = 1` button showing page 1. -/
theorem pageButtons_single_page_counterexample :
    (1 : Int) ≥ 1 ∧ (1 : Int) ≤ 1 ∧
    pageButtons 1 1 = [] ∧
    ((pageButtons 1 1).length : Int) ≠ min 5 1 ∧
    (1 : Int) ∉ pageButtons 1 1 := by
  decide

end CrowdFundIn
